import Mathlib

/-!
# Alignment driver of MMseqs2 (`src/alignment/Alignment.cpp`)

A shallow embedding of `Alignment::Alignment` (mode resolution and start-up
validation) and of `Alignment::run` (the per-query candidate loop, the sort and
the serialisation of the accepted hits).

Conventions of the embedding:

* `float` / `double` quantities (`covThr`, `evalThr`, `seqIdThr`, `qcov`, `dbcov`,
  `seqId`, `eval`) are the exact rationals they denote; comparisons between them
  are exact in C++ as well.  The one `float` computation of the loop, the
  quotient of two sequence lengths on lines 236-237, rounds both lengths and the
  quotient to `float` (`roundFloat`).  A division by a zero length yields an
  infinity or a NaN in C++, for which every `<` test is false; `fdivLt` keeps
  that case apart.
* `unsigned int` / `size_t` counters are natural numbers.  `rejected` is
  incremented only while `rejected < maxRejected`, and `passedNum` at most once
  per candidate, so neither wraps around.
* `EXIT(...)` is the error side of `Except`.
* The sequence stores, the aligner (`Matcher::getSWResult`), the scientific
  number format and `Matcher::compressAlignment` are external collaborators and
  appear as fields of `Env`.
-/

deriving instance DecidableEq for Except

namespace MMseqs

/-! ## Configuration (`Parameters`) and the constructor -/

/-- The constants `Parameters::ALIGNMENT_MODE_*` switched on by the constructor. -/
inductive AlignmentMode where
  | FAST_AUTO
  | SCORE_ONLY
  | SCORE_COV
  | SCORE_COV_SEQID
  deriving DecidableEq, Repr

/-- The fields of `Parameters` read by `Alignment::Alignment`. -/
structure Parameters where
  covThr : ℚ
  evalThr : ℚ
  seqIdThr : ℚ
  fragmentMerge : Bool
  addBacktrace : Bool
  alignmentMode : AlignmentMode

/-- The three `EXIT` sites of `Alignment.cpp`. -/
inductive Fatal where
  /-- Lines 34-37 and 49-52: "Fragment merge does not work with Score only mode." -/
  | fragmentMergeScoreOnly
  /-- Lines 189-197: the query sequence is not in the query sequence database. -/
  | missingQuery (queryDbKey : Nat)
  /-- Lines 222-230: the target sequence is not in the target sequence database. -/
  | missingTarget (dbKey : Nat)
  deriving DecidableEq, Repr

/-- The members of the `Alignment` object that `run` reads. -/
structure Alignment where
  covThr : ℚ
  evalThr : ℚ
  seqIdThr : ℚ
  fragmentMerge : Bool
  addBacktrace : Bool
  mode : AlignmentMode
  sameQTDB : Bool

/-- The `switch (par.alignmentMode)` of lines 26-62, after the promotion of
lines 26-28 has been applied to `alignmentMode`: the value stored in
`this->mode`, or the `EXIT(EXIT_FAILURE)` reached on the way. -/
def Alignment.switchMode (covThr seqIdThr : ℚ) (fragmentMerge : Bool) :
    AlignmentMode → Except Fatal AlignmentMode
  | .FAST_AUTO =>
    if covThr = 0 ∧ seqIdThr = 0 then
      if fragmentMerge = true then .error .fragmentMergeScoreOnly
      else .ok .SCORE_ONLY
    else if covThr > 0 ∧ seqIdThr = 0 then .ok .SCORE_COV
    else .ok .SCORE_COV_SEQID
  | .SCORE_ONLY =>
    if fragmentMerge = true then .error .fragmentMergeScoreOnly
    else .ok .SCORE_ONLY
  | .SCORE_COV => .ok .SCORE_COV
  | .SCORE_COV_SEQID => .ok .SCORE_COV_SEQID

/-- The constructor `Alignment::Alignment` (lines 16-106), restricted to the members that `run`
reads.  `sameQTDB` is `querySeqDB.compare(targetSeqDB) == 0` (line 91). -/
def Alignment.ctor (querySeqDB targetSeqDB : List Char) (par : Parameters) :
    Except Fatal Alignment :=
  let alignmentMode :=
    if par.addBacktrace = true then AlignmentMode.SCORE_COV_SEQID else par.alignmentMode
  match Alignment.switchMode par.covThr par.seqIdThr par.fragmentMerge alignmentMode with
  | .error e => .error e
  | .ok mode =>
    .ok { covThr := par.covThr
          evalThr := par.evalThr
          seqIdThr := par.seqIdThr
          fragmentMerge := par.fragmentMerge
          addBacktrace := par.addBacktrace
          mode := mode
          sameQTDB := decide (querySeqDB = targetSeqDB) }

/-- The table of section 4.5 of the specification together with the
promotion rule stated under it, written from the specification's words. -/
def specEffectiveMode (requested : AlignmentMode) (covThr seqIdThr : ℚ)
    (addBacktrace : Bool) : AlignmentMode :=
  if addBacktrace = true then .SCORE_COV_SEQID
  else
    match requested with
    | .FAST_AUTO =>
      if covThr = 0 ∧ seqIdThr = 0 then .SCORE_ONLY
      else if 0 < covThr ∧ seqIdThr = 0 then .SCORE_COV
      else .SCORE_COV_SEQID
    | .SCORE_ONLY => .SCORE_ONLY
    | .SCORE_COV => .SCORE_COV
    | .SCORE_COV_SEQID => .SCORE_COV_SEQID

/-! ## Library functions used by `run` -/

/-- The call `std::getline(is, val, delim)` on the unread part `is` of a string stream:
`none` when no character can be extracted (the stream is at its end, the call
sets `failbit` and the stream converts to `false`); otherwise the characters
before the first `delim` and the unread part after it (the delimiter is
extracted and dropped; at the end of the input the unread part is empty). -/
def getline (is : List Char) (delim : Char) : Option (List Char × List Char) :=
  match is with
  | [] => none
  | _ :: _ => some (is.takeWhile (fun c => c != delim), (is.dropWhile (fun c => c != delim)).drop 1)

/-- A `std::getline` whose result is not looked at (lines 214 and 217): only the
stream moves. -/
def skipline (is : List Char) (delim : Char) : List Char :=
  match getline is delim with
  | none => is
  | some (_, rest) => rest

/-- The C `isspace` in the "C" locale. -/
def isspace (c : Char) : Bool :=
  c == ' ' || c == '\t' || c == '\n' || c == '\x0b' || c == '\x0c' || c == '\r'

/-- The `ULONG_MAX` of a 64-bit `unsigned long`. -/
def ULONG_MAX : Nat := 2 ^ 64 - 1

/-- The call `std::strtoul(s, NULL, 10)`: leading white space is skipped, one optional
sign is read, then the longest run of decimal digits; no digits give 0, a value
above `ULONG_MAX` gives `ULONG_MAX`, a minus sign negates in `unsigned long`. -/
def strtoul (s : List Char) : Nat :=
  let s1 := s.dropWhile isspace
  let neg := s1.head? == some '-'
  let s2 := if s1.head? == some '-' || s1.head? == some '+' then s1.drop 1 else s1
  let v := (s2.takeWhile Char.isDigit).foldl (fun acc c => 10 * acc + (c.toNat - '0'.toNat)) 0
  if v > ULONG_MAX then ULONG_MAX
  else if neg then (2 ^ 64 - v) % 2 ^ 64
  else v

/-- Line 209: `(unsigned int) std::strtoul(val.c_str(), NULL, 10)`. -/
def parseDbKey (val : List Char) : Nat := strtoul val % 2 ^ 32

/-! ## Results, stores and the aligner -/

/-- The struct `Matcher::result_t`, with the members that `run` reads or prints. -/
structure result_t where
  dbKey : Nat
  score : Int
  qcov : ℚ
  dbcov : ℚ
  seqId : ℚ
  eval : ℚ
  qStartPos : Nat
  qEndPos : Nat
  qLen : Nat
  dbStartPos : Nat
  dbEndPos : Nat
  dbLen : Nat
  backtrace : List Char
  deriving DecidableEq

/-- The external collaborators of `run`.

* `prefData id`, `prefDbKey id`: `prefdbr->getData(id)` and `prefdbr->getDbKey(id)`.
* `querySeqL key`, `targetSeqL key`: `getDataByDBKey(key)` on the query and the
  target sequence store followed by `mapSequence`; `none` is the `NULL` of a key
  that is not in the store, `some L` the length `L` of the mapped sequence.
* `getSWResult queryDbKey nth dbKey evalThr mode`: the result the matcher,
  initialised for the query, returns on its call number `nth` (counted from 0
  within the query) for the target `dbKey`.
* `scientific`: the `std::scientific` rendering of `eval`.
* `compressAlignment`: `Matcher::compressAlignment`. -/
structure Env where
  prefData : Nat → List Char
  prefDbKey : Nat → Nat
  querySeqL : Nat → Option Nat
  targetSeqL : Nat → Option Nat
  getSWResult : Nat → Nat → Nat → ℚ → AlignmentMode → result_t
  scientific : ℚ → List Char
  compressAlignment : List Char → List Char

/-! ## The candidate loop (lines 202-270) -/

/-- The variables of the `while` loop of lines 207-270.  `swResults`,
`passedNum`, `rejected` are the source's; `alignmentsNum` is the part of the
`alignmentsNum` reduction contributed by this query (`totalPassedNum` moves
with `passedNum`).  `fetched` and `aligned` are observation traces: the keys
for which line 221 found the target sequence, and the keys handed to
`getSWResult` on line 243, each in call order. -/
structure LoopState where
  swResults : List result_t
  passedNum : Nat
  rejected : Nat
  alignmentsNum : Nat
  fetched : List Nat
  aligned : List Nat
  deriving DecidableEq

/-- The state at line 206. -/
def LoopState.init : LoopState :=
  { swResults := [], passedNum := 0, rejected := 0, alignmentsNum := 0, fetched := [], aligned := [] }

/-- Rounding to the nearest integer, ties to even. -/
def roundHalfEven (x : ℚ) : Int :=
  let f := Rat.floor x
  let d := x - f
  if d < 1 / 2 then f
  else if 1 / 2 < d then f + 1
  else if f % 2 = 0 then f
  else f + 1

/-- The power `2^k` for an integer exponent, as a rational. -/
def twoPow (k : Int) : ℚ :=
  if 0 ≤ k then ((2 ^ k.toNat : Nat) : ℚ) else 1 / ((2 ^ (-k).toNat : Nat) : ℚ)

/-- The number of halvings that bring `n` below 2, at most `fuel` of them. -/
def log2Fuel : Nat → Nat → Nat
  | 0, _ => 0
  | fuel + 1, n => if 2 ≤ n then log2Fuel fuel (n / 2) + 1 else 0

/-- The position of the leading bit of `n`: `2^(ilog2 n) ≤ n < 2^(ilog2 n + 1)` for
`n ≥ 1`. -/
def ilog2 (n : Nat) : Nat := log2Fuel n n

/-- The binary exponent `e` of a positive rational: `2^e ≤ x < 2^(e+1)`.  The
difference of the leading bits of numerator and denominator is `e` or `e + 1`. -/
def floatExponent (x : ℚ) : Int :=
  let e0 : Int := (ilog2 x.num.natAbs : Int) - (ilog2 x.den : Int)
  if x < twoPow e0 then e0 - 1 else e0

/-- The value of a non-negative real as a `float` (IEEE 754 binary32, round to
nearest, ties to even): the nearest multiple of `2^(e-23)`, where `e` is the
binary exponent, so that the significand has 24 bits.  The exponent range is
not bounded here: a sequence length is an `int`, so a length and a quotient of
two lengths lie between `2^-31` and `2^31`, far inside the range of normal
`float` numbers. -/
def roundFloat (x : ℚ) : ℚ :=
  if x ≤ 0 then 0
  else (roundHalfEven (x / twoPow (floatExponent x - 23)) : ℚ) * twoPow (floatExponent x - 23)

/-- The test `((float) a) / ((float) b) < c` of lines 236-237: both lengths are
converted to `float`, the quotient of the two is rounded to `float`, and the
comparison with `c` is exact.  False when `b = 0`, where the quotient is an
infinity or a NaN. -/
def fdivLt (a b : Nat) (c : ℚ) : Bool :=
  b != 0 && decide (roundFloat (roundFloat (a : ℚ) / roundFloat (b : ℚ)) < c)

/-- The condition of lines 236-237 on the query length `qL` and the target
length `dbL`. -/
def lengthScreen (qL dbL : Nat) (covThr : ℚ) : Bool :=
  fdivLt qL dbL covThr || fdivLt dbL qL covThr

/-- The condition of lines 253-259.  The constants `0.95` and `0.9` are the
rationals 19/20 and 9/10; no `float` lies between either of them and the
`double` nearest to it, so for `float` operands the C++ comparisons decide the
same. -/
def accepts (a : Alignment) (isIdentity : Bool) (res : result_t) : Bool :=
  isIdentity
  || (decide (res.eval ≤ a.evalThr) && decide (res.seqId ≥ a.seqIdThr)
      && decide (res.qcov ≥ a.covThr) && decide (res.dbcov ≥ a.covThr))
  || ((a.mode == AlignmentMode.SCORE_COV_SEQID || a.mode == AlignmentMode.SCORE_COV)
      && a.fragmentMerge == true && decide (res.dbcov ≥ 0.95) && decide (res.seqId ≥ 0.9))

/-- Lines 245-250: the result of the aligner after the identity override. -/
def overrideIdentity (isIdentity : Bool) (res : result_t) : result_t :=
  if isIdentity = true then { res with qcov := 1, dbcov := 1, seqId := 1 } else res

/-- Line 212: `isIdentity`. -/
def isIdentity (a : Alignment) (queryDbKey dbKey : Nat) : Bool :=
  queryDbKey == dbKey && a.sameQTDB

/-- Lines 238-239: the state after a candidate rejected by the length test. -/
def LoopState.screenOut (st : LoopState) (dbKey : Nat) : LoopState :=
  { st with rejected := st.rejected + 1, fetched := st.fetched ++ [dbKey] }

/-- Lines 244 and 261-265: the state after an aligned and accepted candidate. -/
def LoopState.accept (st : LoopState) (dbKey : Nat) (res : result_t) : LoopState :=
  { swResults := st.swResults ++ [res]
    passedNum := st.passedNum + 1
    rejected := 0
    alignmentsNum := st.alignmentsNum + 1
    fetched := st.fetched ++ [dbKey]
    aligned := st.aligned ++ [dbKey] }

/-- Lines 244 and 268: the state after an aligned and rejected candidate. -/
def LoopState.reject (st : LoopState) (dbKey : Nat) : LoopState :=
  { st with rejected := st.rejected + 1
            alignmentsNum := st.alignmentsNum + 1
            fetched := st.fetched ++ [dbKey]
            aligned := st.aligned ++ [dbKey] }

/-- The body of the `while` loop from line 212 on, for the candidate whose
first field parsed to `dbKey`; `qL` is the length of the mapped query. -/
def runCandidate (a : Alignment) (env : Env) (queryDbKey qL : Nat) (st : LoopState)
    (dbKey : Nat) : Except Fatal LoopState :=
  match env.targetSeqL dbKey with
  | none => .error (.missingTarget dbKey)
  | some dbL =>
    if a.fragmentMerge == false && lengthScreen qL dbL a.covThr then
      .ok (st.screenOut dbKey)
    else
      let res := overrideIdentity (isIdentity a queryDbKey dbKey)
        (env.getSWResult queryDbKey st.alignmentsNum dbKey a.evalThr a.mode)
      if accepts a (isIdentity a queryDbKey dbKey) res then .ok (st.accept dbKey res)
      else .ok (st.reject dbKey)

/-- The `while` loop of lines 207-270 on the unread part `lineSs` of the
prefilter list.  Every iteration extracts at least one character, so a fuel
above the length of `lineSs` is never used up; `none` is "out of fuel". -/
def runLoop (a : Alignment) (env : Env) (queryDbKey qL maxAlnNum maxRejected : Nat) :
    Nat → List Char → LoopState → Option (Except Fatal LoopState)
  | 0, _, _ => none
  | fuel + 1, lineSs, st =>
    match getline lineSs '\t' with
    | none => some (.ok st)
    | some (val, lineSs1) =>
      if st.passedNum < maxAlnNum ∧ st.rejected < maxRejected then
        let lineSs2 := skipline lineSs1 '\t'
        let lineSs3 := skipline lineSs2 '\n'
        match runCandidate a env queryDbKey qL st (parseDbKey val) with
        | .error e => some (.error e)
        | .ok st1 => runLoop a env queryDbKey qL maxAlnNum maxRejected fuel lineSs3 st1
      else some (.ok st)

/-- The target keys of all candidates of a prefilter list, in the order of the
list: the stream operations of lines 207, 209, 214 and 217 repeated until the
first `getline` fails, without the two counters of the loop condition. -/
def candidateKeysAux : Nat → List Char → List Nat
  | 0, _ => []
  | fuel + 1, lineSs =>
    match getline lineSs '\t' with
    | none => []
    | some (val, lineSs1) =>
      parseDbKey val :: candidateKeysAux fuel (skipline (skipline lineSs1 '\t') '\n')

/-- The candidate keys of a whole prefilter list. -/
def candidateKeys (prefList : List Char) : List Nat :=
  candidateKeysAux (prefList.length + 1) prefList

/-- Lines 185-270 for the query at ordinal `id`: the prefilter list and its key
are read, the query sequence is fetched (fatal when absent) and the candidate
loop is run from the state of line 206. -/
def queryLoop (a : Alignment) (env : Env) (maxAlnNum maxRejected id : Nat) :
    Option (Except Fatal LoopState) :=
  let prefList := env.prefData id
  let queryDbKey := env.prefDbKey id
  match env.querySeqL queryDbKey with
  | none => some (.error (.missingQuery queryDbKey))
  | some qL =>
    runLoop a env queryDbKey qL maxAlnNum maxRejected (prefList.length + 1) prefList LoopState.init

/-! ## Sorting and serialisation (lines 271-296) -/

/-- Modelled from the spec: `Matcher::compareHits` is not among the sources.
Section 4.1 step 5 orders hits by descending `score`, ties broken by ascending
`targetKey`; as the strict "goes before" predicate handed to `std::list::sort`. -/
def compareHits (first second : result_t) : Bool :=
  decide (first.score > second.score)
  || (decide (first.score = second.score) && decide (first.dbKey < second.dbKey))

/-- The "not after" relation of a comparator: `second` does not go before `first`. -/
def notAfter (comp : result_t → result_t → Bool) (first second : result_t) : Prop :=
  comp second first = false

instance notAfterDecidable (comp : result_t → result_t → Bool) : DecidableRel (notAfter comp) :=
  fun first second => inferInstanceAs (Decidable (comp second first = false))

/-- The call `std::list::sort(comp)`: a stable sort.  For a strict weak order the result
of a stable sort is unique, so the insertion sort stands for the merge sort of
the library: an element is placed before the first one that does not go before it. -/
def listSort (comp : result_t → result_t → Bool) (l : List result_t) : List result_t :=
  l.insertionSort (notAfter comp)

/-- The stream insertion of an unsigned integer. -/
def showNat (n : Nat) : List Char := Nat.toDigits 10 n

/-- The stream insertion of a signed integer. -/
def showInt (i : Int) : List Char :=
  if i < 0 then '-' :: Nat.toDigits 10 i.natAbs else Nat.toDigits 10 i.natAbs

/-- The format `std::fixed << std::setprecision(3)` on a finite value: sign, integer part,
a point and three fractional digits of the value rounded to thousandths. -/
def fixed3 (x : ℚ) : List Char :=
  let n := (roundHalfEven (|x| * 1000)).toNat
  let frac := Nat.toDigits 10 (n % 1000)
  (if x < 0 then ['-'] else []) ++ Nat.toDigits 10 (n / 1000) ++ ['.']
    ++ List.replicate (3 - frac.length) '0' ++ frac

/-- Lines 278-292: the line of one hit. -/
def serializeHit (a : Alignment) (env : Env) (it : result_t) : List Char :=
  showNat it.dbKey ++ ['\t']
    ++ showInt it.score ++ ['\t']
    ++ fixed3 it.seqId ++ ['\t']
    ++ env.scientific it.eval ++ ['\t']
    ++ showNat it.qStartPos ++ ['\t']
    ++ showNat it.qEndPos ++ ['\t']
    ++ showNat it.qLen ++ ['\t']
    ++ showNat it.dbStartPos ++ ['\t']
    ++ showNat it.dbEndPos ++ ['\t']
    ++ (if a.addBacktrace = true then
          showNat it.dbLen ++ ['\t'] ++ env.compressAlignment it.backtrace ++ ['\n']
        else showNat it.dbLen ++ ['\n'])

/-- Lines 272-294: the record of a query, from the hits in acceptance order. -/
def serialize (a : Alignment) (env : Env) (swResults : List result_t) : List Char :=
  ((listSort compareHits swResults).map (serializeHit a env)).flatten

/-- Modelled from the spec: the `SSTR` macro of `Util.h` is not among the
sources; records are keyed by the query key, rendered in decimal. -/
def SSTR (key : Nat) : List Char := showNat key

/-- What `run` has produced so far: the records handed to `dbw.write`, as
(key, data) in call order, and the two reduction counters. -/
structure RunState where
  dbw : List (List Char × List Char)
  alignmentsNum : Nat
  totalPassedNum : Nat
  deriving DecidableEq

/-- One iteration of the `for` loop over `id` (lines 178-298).  The key of the
written record is `qSeqs[thread_idx]->getDbKey()`, the key the query was mapped
with on line 199. -/
def runId (a : Alignment) (env : Env) (maxAlnNum maxRejected : Nat) (rs : RunState)
    (id : Nat) : Option (Except Fatal RunState) :=
  match queryLoop a env maxAlnNum maxRejected id with
  | none => none
  | some (.error e) => some (.error e)
  | some (.ok st) =>
    some (.ok { dbw := rs.dbw ++ [(SSTR (env.prefDbKey id), serialize a env st.swResults)]
                alignmentsNum := rs.alignmentsNum + st.alignmentsNum
                totalPassedNum := rs.totalPassedNum + st.passedNum })

/-! ## The whole run (lines 157-177 and 300-311) -/

/-- Line 171: `flushSize`. -/
def flushSize : Nat := 1000000

/-- The largest `int`. -/
def INT_MAX : Nat := 2 ^ 31 - 1

/-- The ceiling of the quotient `a / b`: the integer quotient, plus one when
the division leaves a remainder. -/
def ceilDiv (a b : Nat) : Nat := a / b + (if a % b = 0 then 0 else 1)

/-- Line 172: `static_cast<int>(ceil(double(dbSize) / double(flushSize)))`.  For a
quotient of at most `INT_MAX` the size is below `2^53`, its conversion to
`double` is exact, the rounded quotient of a size that is not a multiple of
`flushSize` stays strictly above the integer below it, and so the ceiling is the
exact one; above `INT_MAX` the conversion to `int` is undefined (`none`). -/
def iterations (dbSize : Nat) : Option Nat :=
  if ceilDiv dbSize flushSize ≤ INT_MAX then some (ceilDiv dbSize flushSize) else none

/-- Line 174: `start`, in `size_t`. -/
def bucketStart (dbFrom i : Nat) : Nat := (dbFrom + i * flushSize) % 2 ^ 64

/-- Line 175: `bucketSize`, in `size_t` (the subtraction is unsigned). -/
def bucketSize (dbSize i : Nat) : Nat :=
  min ((dbSize + 2 ^ 64 - (i * flushSize) % 2 ^ 64) % 2 ^ 64) flushSize

/-- Line 177: the ordinals `id` of bucket `i`, from `start` while
`id < start + bucketSize`, the bound computed in `size_t`. -/
def bucketIds (dbFrom dbSize i : Nat) : List Nat :=
  List.range' (bucketStart dbFrom i)
    ((bucketStart dbFrom i + bucketSize dbSize i) % 2 ^ 64 - bucketStart dbFrom i)

/-- Lines 173-177: the ordinals of the buckets `0, ..., n - 1`, bucket after
bucket. -/
def allIds (dbFrom dbSize n : Nat) : List Nat :=
  ((List.range n).map (bucketIds dbFrom dbSize)).flatten

/-- Line 177 and lines 178-298: the iterations of the `for` loop over `id`, one
ordinal after the other (the workers share no state but the two sums and the
writer, so the order among workers does not matter to either). -/
def runIds (a : Alignment) (env : Env) (maxAlnNum maxRejected : Nat) :
    RunState → List Nat → Option (Except Fatal RunState)
  | rs, [] => some (.ok rs)
  | rs, id :: ids =>
    match runId a env maxAlnNum maxRejected rs id with
    | none => none
    | some (.error e) => some (.error e)
    | some (.ok rs1) => runIds a env maxAlnNum maxRejected rs1 ids

/-- The ways in which `run` ends without completing: one of the `EXIT` sites, the
undefined conversion to `int` of line 172, the integer division by zero of
lines 307-308. -/
inductive RunFault where
  | exit (e : Fatal)
  | intConversion
  | divisionByZero
  deriving DecidableEq

/-- What a completed `run` leaves: the records and sums, and the `hits` and
`hits_rest` of lines 307-308. -/
structure RunSummary where
  rs : RunState
  hits : Nat
  hits_rest : Nat
  deriving DecidableEq

/-- The function `Alignment::run(outDB, outDBIndex, dbFrom, dbSize, maxAlnNum,
maxRejected)` of lines 163-311.  `none` is "out of fuel" in one of the queries. -/
def run (a : Alignment) (env : Env) (dbFrom dbSize maxAlnNum maxRejected : Nat) :
    Option (Except RunFault RunSummary) :=
  match iterations dbSize with
  | none => some (.error .intConversion)
  | some n =>
    match runIds a env maxAlnNum maxRejected { dbw := [], alignmentsNum := 0, totalPassedNum := 0 }
        (allIds dbFrom dbSize n) with
    | none => none
    | some (.error e) => some (.error (.exit e))
    | some (.ok rs) =>
      if dbSize = 0 then some (.error .divisionByZero)
      else some (.ok { rs := rs
                       hits := rs.totalPassedNum / dbSize
                       hits_rest := rs.totalPassedNum % dbSize })

/-- The function `Alignment::run(maxAlnNum, maxRejected)` of lines 157-160, with
`prefSize` for `prefdbr->getSize()`. -/
def runWhole (a : Alignment) (env : Env) (prefSize maxAlnNum maxRejected : Nat) :
    Option (Except RunFault RunSummary) :=
  run a env 0 prefSize maxAlnNum maxRejected

/-! ## The specification's predicates, written from its words -/

/-- Section 4.1 step h of the specification: accept iff `isIdentity`, or the
general criterion, or the fragment criterion. -/
def specAccept (isIdentity : Bool) (eval seqId qcov dbcov : ℚ) (evalThr seqIdThr covThr : ℚ)
    (fragmentMerge : Bool) (mode : AlignmentMode) : Prop :=
  isIdentity = true
  ∨ (eval ≤ evalThr ∧ seqId ≥ seqIdThr ∧ qcov ≥ covThr ∧ dbcov ≥ covThr)
  ∨ (fragmentMerge = true ∧ (mode = AlignmentMode.SCORE_COV ∨ mode = AlignmentMode.SCORE_COV_SEQID)
      ∧ dbcov ≥ 95 / 100 ∧ seqId ≥ 9 / 10)

/-- Section 4.1 step e of the specification: the length pre-screen rejects iff
fragment-merge is off and `min(q,t)/max(q,t) < covThr`. -/
def specLengthReject (fragmentMerge : Bool) (q t : Nat) (covThr : ℚ) : Prop :=
  fragmentMerge = false ∧ ((min q t : Nat) : ℚ) / ((max q t : Nat) : ℚ) < covThr

/-- Section 4.1 step 5 of the specification as a relation between a line and
the next one: descending `score`, ties broken by ascending `targetKey`. -/
def specOrder (x y : result_t) : Prop :=
  x.score > y.score ∨ (x.score = y.score ∧ x.dbKey ≤ y.dbKey)

/-- The same order on (score, targetKey) pairs. -/
def specPairOrder (x y : Int × Nat) : Prop :=
  x.1 > y.1 ∨ (x.1 = y.1 ∧ x.2 ≤ y.2)

/-- The text `<targetKey>\t<prefScore>\t<prefEval>` of one prefilter triple,
given by its three fields. -/
def tripleLine (t : List Char × List Char × List Char) : List Char :=
  t.1 ++ '\t' :: (t.2.1 ++ '\t' :: t.2.2)

/-- Section 6 of the specification: the triples of a prefilter value separated
by `'\n'`, the last one without a terminating `'\n'`. -/
def joinTriples : List (List Char × List Char × List Char) → List Char
  | [] => []
  | [t] => tripleLine t
  | t :: t2 :: ts => tripleLine t ++ '\n' :: joinTriples (t2 :: ts)

instance specAcceptDecidable (isIdentity : Bool) (eval seqId qcov dbcov : ℚ)
    (evalThr seqIdThr covThr : ℚ) (fragmentMerge : Bool) (mode : AlignmentMode) :
    Decidable (specAccept isIdentity eval seqId qcov dbcov evalThr seqIdThr covThr
      fragmentMerge mode) := by
  unfold specAccept
  infer_instance

instance specLengthRejectDecidable (fragmentMerge : Bool) (q t : Nat) (covThr : ℚ) :
    Decidable (specLengthReject fragmentMerge q t covThr) := by
  unfold specLengthReject
  infer_instance

/-- Section 4.1 step e of the specification in the arithmetic of the code: the
length pre-screen rejects iff fragment-merge is off and
`min(q,t)/max(q,t) < covThr`, the two lengths and the quotient each rounded to
`float`; for `q = t = 0` the quotient is a NaN and the comparison is false. -/
def specLengthRejectFloat (fragmentMerge : Bool) (q t : Nat) (covThr : ℚ) : Prop :=
  fragmentMerge = false ∧ max q t ≠ 0
    ∧ roundFloat (roundFloat ((min q t : Nat) : ℚ) / roundFloat ((max q t : Nat) : ℚ)) < covThr

instance specLengthRejectFloatDecidable (fragmentMerge : Bool) (q t : Nat) (covThr : ℚ) :
    Decidable (specLengthRejectFloat fragmentMerge q t covThr) := by
  unfold specLengthRejectFloat
  infer_instance

/-- The quotient test of lines 236-237 with the quotient in exact rational
arithmetic, the reading under which the specification states its two
formulations of the pre-screen; false for a zero divisor, as in `fdivLt`. -/
def fdivLtExact (a b : Nat) (c : ℚ) : Bool :=
  b != 0 && decide ((a : ℚ) / (b : ℚ) < c)

/-- The two-sided test of lines 236-237 with both quotients in exact rational
arithmetic. -/
def lengthScreenExact (qL dbL : Nat) (covThr : ℚ) : Bool :=
  fdivLtExact qL dbL covThr || fdivLtExact dbL qL covThr

/-! ## Concrete scenarios (section 8 of the specification) -/

/-- A result with all members zero or empty, for building examples. -/
def result_t.zero : result_t :=
  { dbKey := 0, score := 0, qcov := 0, dbcov := 0, seqId := 0, eval := 0, qStartPos := 0
    qEndPos := 0, qLen := 0, dbStartPos := 0, dbEndPos := 0, dbLen := 0, backtrace := [] }

/-- An environment for examples: every query has the prefilter list `prefList`
and the key `queryDbKey`, the query has length `qL`, target `k` has length
`dbL k`, and the aligner returns `res k` for target `k`. -/
def exampleEnv (prefList : List Char) (queryDbKey qL : Nat) (dbL : Nat → Option Nat)
    (res : Nat → result_t) : Env where
  prefData := fun _ => prefList
  prefDbKey := fun _ => queryDbKey
  querySeqL := fun _ => some qL
  targetSeqL := dbL
  getSWResult := fun _ _ dbKey _ _ => res dbKey
  scientific := fun _ => ['e']
  compressAlignment := fun bt => bt

/-- Thresholds `covThr = 0.8`, `evalThr = 0.001`, `seqIdThr = 0.3`. -/
def exampleAlignment (fragmentMerge : Bool) (mode : AlignmentMode) (sameQTDB : Bool) : Alignment where
  covThr := 8 / 10
  evalThr := 1 / 1000
  seqIdThr := 3 / 10
  fragmentMerge := fragmentMerge
  addBacktrace := false
  mode := mode
  sameQTDB := sameQTDB

/-- Scenario D: the aligner returns `eval = 1.0`, `seqId = 0.92`, `qcov = 0.10`,
`dbcov = 0.97`. -/
def scenarioD_res (dbKey : Nat) : result_t :=
  { result_t.zero with dbKey := dbKey, score := 40, eval := 1, seqId := 92 / 100
                       qcov := 10 / 100, dbcov := 97 / 100 }

/-- The thresholds of `exampleAlignment` with `covThr` the `float` nearest to 0.8,
`13421773 / 2^24`; fragment-merge off, mode `SCORE_COV_SEQID`. -/
def floatCovAlignment : Alignment :=
  { exampleAlignment false .SCORE_COV_SEQID false with covThr := 13421773 / 16777216 }

/-- A result that fails every threshold: `eval = 10`, `seqId = qcov = dbcov = 0`. -/
def badRes (dbKey : Nat) : result_t :=
  { result_t.zero with dbKey := dbKey, score := 3, eval := 10 }

/-- Scenario A: the query with key 1 has the empty prefilter value; the
target store is empty. -/
def scenarioA_env : Env := exampleEnv [] 1 50 (fun _ => none) badRes

/-- A prefilter triple `<key>\t50\t1e-3\n`. -/
def exampleTriple (dbKey : Nat) : List Char :=
  showNat dbKey ++ ['\t', '5', '0', '\t', '1', 'e', '-', '3', '\n']

/-- Scenario E: a prefilter list with the 100 candidates 1, 2, ..., 100. -/
def scenarioE_prefList : List Char :=
  ((List.range 100).map (fun i => exampleTriple (i + 1))).flatten

/-- Scenario E: the query has length 10, the targets 1, 2, 3 have length 100
and all others length 10. -/
def scenarioE_env : Env :=
  exampleEnv scenarioE_prefList 7 10 (fun k => some (if k ≤ 3 then 100 else 10)) scenarioD_res

/-- A result that passes the thresholds of `exampleAlignment`: `eval = 1e-10`,
`seqId = 0.5`, `qcov = dbcov = 0.9`, score 100. -/
def goodRes (dbKey : Nat) : result_t :=
  { result_t.zero with dbKey := dbKey, score := 100, eval := 1 / 10000000000, seqId := 1 / 2
                       qcov := 9 / 10, dbcov := 9 / 10 }

/-- Two candidates, 5 then 2, each `<key>\t50\t1e-3\n`. -/
def twoCandidates : List Char := exampleTriple 5 ++ exampleTriple 2

/-- Scenario B: the prefilter value with the single candidate key 1. -/
def scenarioB_prefList : List Char := exampleTriple 1

/-- The self-hit placed second: candidates 2 then 1, for the query with key 1. -/
def selfHitSecond : List Char := exampleTriple 2 ++ exampleTriple 1

/-- The two triples `5\t50\t1e-3` and `2\t50\t1e-3`, by fields. -/
def exampleTriples : List (List Char × List Char × List Char) :=
  [(['5'], ['5', '0'], ['1', 'e', '-', '3']), (['2'], ['5', '0'], ['1', 'e', '-', '3'])]

/-- A result as the aligner may return it in `SCORE_ONLY`: `qcov = dbcov = seqId = 0`,
with `eval = 0.0001` and score 12. -/
def scoreOnlyRes (dbKey : Nat) : result_t :=
  { result_t.zero with dbKey := dbKey, score := 12, eval := 1 / 10000 }

/-- A request for `SCORE_ONLY` with `covThr = 0.8`, `evalThr = 0.001`, `seqIdThr = 0.3`. -/
def scoreOnlyPar : Parameters where
  covThr := 8 / 10
  evalThr := 1 / 1000
  seqIdThr := 3 / 10
  fragmentMerge := false
  addBacktrace := false
  alignmentMode := AlignmentMode.SCORE_ONLY

/-- A driver in `SCORE_ONLY` with `covThr = 0`, `seqIdThr = 0`, `evalThr = 0.001`. -/
def scoreOnlyAlignment : Alignment where
  covThr := 0
  evalThr := 1 / 1000
  seqIdThr := 0
  fragmentMerge := false
  addBacktrace := false
  mode := AlignmentMode.SCORE_ONLY
  sameQTDB := false

/-- The value of a decimal digit character. -/
def digitValue (c : Char) : Nat := c.toNat - '0'.toNat

/-- The number written by a string of decimal digits, most significant digit
first. -/
def decimalValue (s : List Char) : Nat := Nat.ofDigits 10 (s.reverse.map digitValue)

/-- A field after its leading white space and one optional sign. -/
def stripSpaceSign (s : List Char) : List Char :=
  match s.dropWhile isspace with
  | '-' :: rest => rest
  | '+' :: rest => rest
  | rest => rest

/-- Section 7 item 4 of the specification: a numerically invalid field is
empty, or does not start with a decimal digit after optional white space and
sign. -/
def numericallyInvalid (s : List Char) : Prop :=
  match stripSpaceSign s with
  | [] => True
  | c :: _ => c.isDigit = false

instance numericallyInvalidDecidable (s : List Char) : Decidable (numericallyInvalid s) := by
  unfold numericallyInvalid
  split <;> infer_instance

/-- The loop of lines 207-270 on a list of target keys that have already been
parsed: the loop condition, then the body, for one key after the other. -/
def runKeys (a : Alignment) (env : Env) (queryDbKey qL maxAlnNum maxRejected : Nat) :
    List Nat → LoopState → Except Fatal LoopState
  | [], st => .ok st
  | dbKey :: rest, st =>
    if st.passedNum < maxAlnNum ∧ st.rejected < maxRejected then
      match runCandidate a env queryDbKey qL st dbKey with
      | .error e => .error e
      | .ok st1 => runKeys a env queryDbKey qL maxAlnNum maxRejected rest st1
    else .ok st

/-- The environment `env` with the prefilter value of every query replaced by
`prefList`; everything else is as in `env`. -/
def Env.withPrefData (env : Env) (prefList : List Char) : Env :=
  { env with prefData := fun _ => prefList }

/-- The two triples of `exampleTriples` with other prefilter scores and
e-values: `5\t99\t7` and `2\t1\t0.5`. -/
def exampleTriplesOtherScores : List (List Char × List Char × List Char) :=
  [(['5'], ['9', '9'], ['7']), (['2'], ['1'], ['0', '.', '5'])]

/-- The query with key 1 has the candidates 5 then 2; target 2 is not in the
target store, every other target has length 50; the aligner returns `goodRes`. -/
def missingSecondEnv : Env :=
  exampleEnv twoCandidates 1 50 (fun k => if k = 2 then none else some 50) goodRes

/-- Four candidates, 9, 8, 5 then 2, each `<key>\t50\t1e-3\n`. -/
def fourCandidates : List Char :=
  exampleTriple 9 ++ exampleTriple 8 ++ exampleTriple 5 ++ exampleTriple 2

/-- The query with key 1 and length 50 has the candidates 9, 8, 5 and 2; target 9
has length 500 and every other target length 50; the aligner returns `badRes`
for target 8 and `goodRes` for every other target. -/
def countersEnv : Env :=
  exampleEnv fourCandidates 1 50 (fun k => some (if k = 9 then 500 else 50))
    (fun k => if k = 8 then badRes k else goodRes k)

/-- The state in which the loop of `countersEnv` ends with `maxAlnNum = 1`:
candidate 9 was rejected by the length test, 8 by the acceptance test, 5 was
accepted and 2 never consumed. -/
def countersFinal : LoopState :=
  { swResults := [goodRes 5], passedNum := 1, rejected := 0, alignmentsNum := 2
    fetched := [9, 8, 5], aligned := [8, 5] }

/-- Modelled from the spec: `Matcher::getSWResult` is not among the sources.
Section 3 of the specification describes its result as the value produced by
the aligner for one (query, target) pair, with the member `targetKey`: the
`dbKey` of a result is the key of the target sequence it was computed for. -/
def alignerKeepsKey (env : Env) : Prop :=
  ∀ queryDbKey nth dbKey evalThr mode,
    (env.getSWResult queryDbKey nth dbKey evalThr mode).dbKey = dbKey

/-- The query with key 1 and length 50 has the candidates 5 then 2, both of
length 50; the aligner returns `goodRes`, whose `dbKey` is the target's key. -/
def twoHitsEnv : Env := exampleEnv twoCandidates 1 50 (fun _ => some 50) goodRes

/-- The state in which the loop of `twoHitsEnv` ends when neither limit is
reached: both candidates accepted, in the order of the prefilter list. -/
def twoHitsFinal : LoopState :=
  { swResults := [goodRes 5, goodRes 2], passedNum := 2, rejected := 0, alignmentsNum := 2
    fetched := [5, 2], aligned := [5, 2] }

/-- Section 4.2 of the specification: the fields of the line of one hit, in the
order `targetKey`, `score`, `seqId`, `eval`, `qStart`, `qEnd`, `qLen`,
`dbStart`, `dbEnd`, `dbLen`, and then `backtrace` when backtrace output is
enabled. -/
def specFields (a : Alignment) (env : Env) (it : result_t) : List (List Char) :=
  [showNat it.dbKey, showInt it.score, fixed3 it.seqId, env.scientific it.eval,
    showNat it.qStartPos, showNat it.qEndPos, showNat it.qLen,
    showNat it.dbStartPos, showNat it.dbEndPos, showNat it.dbLen]
  ++ (if a.addBacktrace = true then [env.compressAlignment it.backtrace] else [])

/-- Section 4.2 of the specification: the fields separated by tabs. -/
def specLineBody (fields : List (List Char)) : List Char := ['\t'].intercalate fields

/-- Section 4.2 of the specification: one line, tab-separated fields
terminated by a newline. -/
def specLine (fields : List (List Char)) : List Char := specLineBody fields ++ ['\n']

/-- No field contains a tab or a newline. -/
def fieldsClean (fields : List (List Char)) : Prop :=
  ∀ f, f ∈ fields → '\t' ∉ f ∧ '\n' ∉ f

instance fieldsCleanDecidable (fields : List (List Char)) : Decidable (fieldsClean fields) := by
  unfold fieldsClean
  infer_instance

/-- The driver of `exampleAlignment` with backtrace output enabled. -/
def backtraceAlignment : Alignment :=
  { exampleAlignment false .SCORE_COV_SEQID false with addBacktrace := true }

/-! ## Theorems -/

/-! ### The constructor -/

theorem switchMode_spec (covThr seqIdThr : ℚ) (fragmentMerge : Bool) (m : AlignmentMode) :
    Alignment.switchMode covThr seqIdThr fragmentMerge m =
      if specEffectiveMode m covThr seqIdThr false = AlignmentMode.SCORE_ONLY ∧ fragmentMerge = true
      then .error Fatal.fragmentMergeScoreOnly
      else .ok (specEffectiveMode m covThr seqIdThr false) := by
  cases m <;> cases fragmentMerge <;> simp only [Alignment.switchMode, specEffectiveMode] <;>
    split_ifs <;> simp_all

theorem specEffectiveMode_promote (m : AlignmentMode) (covThr seqIdThr : ℚ) (b : Bool) :
    specEffectiveMode (if b = true then AlignmentMode.SCORE_COV_SEQID else m) covThr seqIdThr false
      = specEffectiveMode m covThr seqIdThr b := by
  cases b <;> simp [specEffectiveMode]

theorem ctor_spec (querySeqDB targetSeqDB : List Char) (par : Parameters) :
    Alignment.ctor querySeqDB targetSeqDB par =
      if specEffectiveMode par.alignmentMode par.covThr par.seqIdThr par.addBacktrace
          = AlignmentMode.SCORE_ONLY ∧ par.fragmentMerge = true
      then .error Fatal.fragmentMergeScoreOnly
      else .ok { covThr := par.covThr
                 evalThr := par.evalThr
                 seqIdThr := par.seqIdThr
                 fragmentMerge := par.fragmentMerge
                 addBacktrace := par.addBacktrace
                 mode := specEffectiveMode par.alignmentMode par.covThr par.seqIdThr par.addBacktrace
                 sameQTDB := decide (querySeqDB = targetSeqDB) } := by
  unfold Alignment.ctor
  simp only [switchMode_spec, specEffectiveMode_promote]
  split_ifs <;> rfl

/-- Claim C8: the mode computed by the constructor is the one of the table of
section 4.5 for every requested mode and all thresholds: `FAST_AUTO` gives
`SCORE_ONLY` when `covThr = 0` and `seqIdThr = 0`, `SCORE_COV` when `covThr > 0`
and `seqIdThr = 0`, and `SCORE_COV_SEQID` otherwise; an explicit mode is kept;
with backtrace output the mode is `SCORE_COV_SEQID` whatever was requested.
When the constructor exits instead, the table's mode is `SCORE_ONLY` (the mode
that had been stored before the exit). -/
theorem ctor_mode_matches_table (querySeqDB targetSeqDB : List Char) (par : Parameters) :
    match Alignment.ctor querySeqDB targetSeqDB par with
    | .ok a =>
      a.mode = specEffectiveMode par.alignmentMode par.covThr par.seqIdThr par.addBacktrace
        ∧ (par.addBacktrace = true → a.mode = AlignmentMode.SCORE_COV_SEQID)
    | .error _ =>
      specEffectiveMode par.alignmentMode par.covThr par.seqIdThr par.addBacktrace
        = AlignmentMode.SCORE_ONLY := by
  rw [ctor_spec]
  split_ifs with h
  · exact h.1
  · refine ⟨rfl, fun hb => ?_⟩
    simp [specEffectiveMode, hb]

/-- Claim C9: construction fails, with the fragment-merge error and no other,
if and only if the resolved mode is `SCORE_ONLY` and `fragmentMerge` is set; so a
constructed driver never has `fragmentMerge = true` together with
`mode = SCORE_ONLY`, and a request for backtrace output never fails, since the
mode is promoted before the check. -/
theorem ctor_fails_iff_score_only_fragment (querySeqDB targetSeqDB : List Char)
    (par : Parameters) :
    (Alignment.ctor querySeqDB targetSeqDB par = .error Fatal.fragmentMergeScoreOnly ↔
      (specEffectiveMode par.alignmentMode par.covThr par.seqIdThr par.addBacktrace
          = AlignmentMode.SCORE_ONLY ∧ par.fragmentMerge = true))
    ∧ (∀ e, Alignment.ctor querySeqDB targetSeqDB par = .error e → e = Fatal.fragmentMergeScoreOnly)
    ∧ (∀ a, Alignment.ctor querySeqDB targetSeqDB par = .ok a →
        a.fragmentMerge = par.fragmentMerge
          ∧ ¬ (a.fragmentMerge = true ∧ a.mode = AlignmentMode.SCORE_ONLY))
    ∧ (par.addBacktrace = true → ∃ a, Alignment.ctor querySeqDB targetSeqDB par = .ok a) := by
  have hb : par.addBacktrace = true →
      specEffectiveMode par.alignmentMode par.covThr par.seqIdThr par.addBacktrace
        ≠ AlignmentMode.SCORE_ONLY := by
    intro hb
    simp [specEffectiveMode, hb]
  rw [ctor_spec]
  by_cases h : specEffectiveMode par.alignmentMode par.covThr par.seqIdThr par.addBacktrace
      = AlignmentMode.SCORE_ONLY ∧ par.fragmentMerge = true
  · rw [if_pos h]
    refine ⟨⟨fun _ => h, fun _ => rfl⟩, fun e he => (Except.error.inj he).symm, ?_, ?_⟩
    · intro a ha
      cases ha
    · intro hbt
      exact absurd h.1 (hb hbt)
  · rw [if_neg h]
    refine ⟨⟨fun he => (by cases he), fun hc => absurd hc h⟩, fun e he => (by cases he), ?_, ?_⟩
    · intro a ha
      cases ha
      exact ⟨rfl, fun hc => h ⟨hc.2, hc.1⟩⟩
    · intro _
      exact ⟨_, rfl⟩

/-! ### One candidate: acceptance and the length pre-screen -/

theorem accepts_iff_specAccept (a : Alignment) (isId : Bool) (res : result_t) :
    accepts a isId res = true ↔
      specAccept isId res.eval res.seqId res.qcov res.dbcov a.evalThr a.seqIdThr a.covThr
        a.fragmentMerge a.mode := by
  have h95 : (0.95 : ℚ) = 95 / 100 := by norm_num
  have h9 : (0.9 : ℚ) = 9 / 10 := by norm_num
  simp only [accepts, specAccept, Bool.or_eq_true, Bool.and_eq_true, decide_eq_true_eq,
    beq_iff_eq, h95, h9]
  tauto

theorem accepts_overrideIdentity (a : Alignment) (isId : Bool) (res : result_t) :
    accepts a isId (overrideIdentity isId res) = accepts a isId res := by
  cases isId
  · simp [overrideIdentity]
  · simp [accepts]

theorem runCandidate_of_fetch (a : Alignment) (env : Env) (queryDbKey qL : Nat) (st : LoopState)
    (dbKey dbL : Nat) (hfetch : env.targetSeqL dbKey = some dbL) :
    runCandidate a env queryDbKey qL st dbKey =
      if a.fragmentMerge = false ∧ lengthScreen qL dbL a.covThr = true then
        .ok (st.screenOut dbKey)
      else if accepts a (isIdentity a queryDbKey dbKey)
          (env.getSWResult queryDbKey st.alignmentsNum dbKey a.evalThr a.mode) = true then
        .ok (st.accept dbKey (overrideIdentity (isIdentity a queryDbKey dbKey)
          (env.getSWResult queryDbKey st.alignmentsNum dbKey a.evalThr a.mode)))
      else .ok (st.reject dbKey) := by
  simp only [runCandidate, hfetch, accepts_overrideIdentity, Bool.and_eq_true, beq_iff_eq]

/-- Claim C1: for a candidate whose target is fetched and which is not stopped
by the length pre-screen, so that the aligner returns `res` for it, the step
accepts (appends the result, increments `passedNum`, resets `rejected` to 0) if
`isIdentity`, or the general criterion, or the fragment criterion holds, and
otherwise rejects (`rejected` incremented by one, nothing appended).  As the two
outcomes differ, acceptance holds if and only if the predicate does. -/
theorem runCandidate_accept_iff (a : Alignment) (env : Env) (queryDbKey qL : Nat)
    (st : LoopState) (dbKey dbL : Nat) (res : result_t)
    (hfetch : env.targetSeqL dbKey = some dbL)
    (hscreen : ¬ (a.fragmentMerge = false ∧ lengthScreen qL dbL a.covThr = true))
    (hres : env.getSWResult queryDbKey st.alignmentsNum dbKey a.evalThr a.mode = res) :
    (specAccept (isIdentity a queryDbKey dbKey) res.eval res.seqId res.qcov res.dbcov
        a.evalThr a.seqIdThr a.covThr a.fragmentMerge a.mode →
      runCandidate a env queryDbKey qL st dbKey =
        .ok { swResults := st.swResults ++ [overrideIdentity (isIdentity a queryDbKey dbKey) res]
              passedNum := st.passedNum + 1
              rejected := 0
              alignmentsNum := st.alignmentsNum + 1
              fetched := st.fetched ++ [dbKey]
              aligned := st.aligned ++ [dbKey] })
    ∧ (¬ specAccept (isIdentity a queryDbKey dbKey) res.eval res.seqId res.qcov res.dbcov
        a.evalThr a.seqIdThr a.covThr a.fragmentMerge a.mode →
      runCandidate a env queryDbKey qL st dbKey =
        .ok { swResults := st.swResults
              passedNum := st.passedNum
              rejected := st.rejected + 1
              alignmentsNum := st.alignmentsNum + 1
              fetched := st.fetched ++ [dbKey]
              aligned := st.aligned ++ [dbKey] }) := by
  rw [runCandidate_of_fetch a env queryDbKey qL st dbKey dbL hfetch, if_neg hscreen, hres]
  constructor
  · intro h
    rw [if_pos ((accepts_iff_specAccept a _ res).2 h)]
    rfl
  · intro h
    rw [if_neg (fun hc => h ((accepts_iff_specAccept a _ res).1 hc))]
    rfl

/-- Scenario D: with `fragmentMerge = true` and `mode = SCORE_COV_SEQID` the
result `eval = 1.0`, `seqId = 0.92`, `qcov = 0.10`, `dbcov = 0.97` is accepted
although the general criterion fails. -/
theorem scenarioD_fragment_accepted :
    (exampleEnv [] 3 500 (fun _ => some 50) scenarioD_res).targetSeqL 7 = some 50
    ∧ ¬ ((exampleAlignment true .SCORE_COV_SEQID false).fragmentMerge = false
        ∧ lengthScreen 500 50 (exampleAlignment true .SCORE_COV_SEQID false).covThr = true)
    ∧ ¬ ((scenarioD_res 7).eval ≤ (exampleAlignment true .SCORE_COV_SEQID false).evalThr
        ∧ (scenarioD_res 7).seqId ≥ (exampleAlignment true .SCORE_COV_SEQID false).seqIdThr
        ∧ (scenarioD_res 7).qcov ≥ (exampleAlignment true .SCORE_COV_SEQID false).covThr
        ∧ (scenarioD_res 7).dbcov ≥ (exampleAlignment true .SCORE_COV_SEQID false).covThr)
    ∧ runCandidate (exampleAlignment true .SCORE_COV_SEQID false)
        (exampleEnv [] 3 500 (fun _ => some 50) scenarioD_res) 3 500 LoopState.init 7
      = .ok { swResults := [scenarioD_res 7]
              passedNum := 1
              rejected := 0
              alignmentsNum := 1
              fetched := [7]
              aligned := [7] } :=
  ⟨rfl, by decide!, by decide!,
    (runCandidate_accept_iff (exampleAlignment true .SCORE_COV_SEQID false)
      (exampleEnv [] 3 500 (fun _ => some 50) scenarioD_res) 3 500 LoopState.init 7 50
      (scenarioD_res 7) rfl (by decide!) rfl).1 (by decide!)⟩

theorem fdivLtExact_eq_true_iff (p q : Nat) (c : ℚ) :
    fdivLtExact p q c = true ↔ q ≠ 0 ∧ (p : ℚ) / (q : ℚ) < c := by
  simp [fdivLtExact]

theorem lengthScreenExact_iff_min_max (qL dbL : Nat) (c : ℚ) (hlen : qL ≠ 0 ∨ dbL ≠ 0) :
    lengthScreenExact qL dbL c = true ↔ ((min qL dbL : Nat) : ℚ) / ((max qL dbL : Nat) : ℚ) < c := by
  simp only [lengthScreenExact, Bool.or_eq_true, fdivLtExact_eq_true_iff]
  rcases Nat.le_total qL dbL with hle | hle
  · have hd : dbL ≠ 0 := by omega
    have hdpos : (0 : ℚ) < dbL := by exact_mod_cast Nat.pos_of_ne_zero hd
    rw [min_eq_left hle, max_eq_right hle]
    constructor
    · rintro (⟨_, h⟩ | ⟨hq, h⟩)
      · exact h
      · have hqpos : (0 : ℚ) < qL := by exact_mod_cast Nat.pos_of_ne_zero hq
        have hle' : (qL : ℚ) ≤ dbL := by exact_mod_cast hle
        have h1 : (qL : ℚ) / dbL ≤ 1 := (div_le_one hdpos).2 hle'
        have h2 : (1 : ℚ) ≤ (dbL : ℚ) / qL := (one_le_div hqpos).2 hle'
        linarith
    · intro h
      exact Or.inl ⟨hd, h⟩
  · have hq : qL ≠ 0 := by omega
    have hqpos : (0 : ℚ) < qL := by exact_mod_cast Nat.pos_of_ne_zero hq
    rw [min_eq_right hle, max_eq_left hle]
    constructor
    · rintro (⟨hd, h⟩ | ⟨_, h⟩)
      · have hdpos : (0 : ℚ) < dbL := by exact_mod_cast Nat.pos_of_ne_zero hd
        have hle' : (dbL : ℚ) ≤ qL := by exact_mod_cast hle
        have h1 : (dbL : ℚ) / qL ≤ 1 := (div_le_one hqpos).2 hle'
        have h2 : (1 : ℚ) ≤ (qL : ℚ) / dbL := (one_le_div hdpos).2 hle'
        linarith
      · exact h
    · intro h
      exact Or.inr ⟨hq, h⟩

/-! ### Rounding to `float` -/

theorem twoPow_eq_zpow (k : Int) : twoPow k = (2 : ℚ) ^ k := by
  unfold twoPow
  split_ifs with h
  · obtain ⟨n, rfl⟩ := Int.eq_ofNat_of_zero_le h
    simp
  · have h2 : 0 ≤ -k := by omega
    obtain ⟨n, hn⟩ := Int.eq_ofNat_of_zero_le h2
    have hk : k = -(n : Int) := by omega
    rw [hn, hk]
    simp

theorem twoPow_pos (k : Int) : 0 < twoPow k := by
  rw [twoPow_eq_zpow]
  positivity

theorem twoPow_add (j k : Int) : twoPow (j + k) = twoPow j * twoPow k := by
  simp only [twoPow_eq_zpow]
  exact zpow_add₀ (by norm_num) j k

theorem twoPow_le_twoPow (j k : Int) (h : j ≤ k) : twoPow j ≤ twoPow k := by
  simp only [twoPow_eq_zpow]
  exact zpow_le_zpow_right₀ (by norm_num) h

theorem twoPow_lt_twoPow_iff (j k : Int) : twoPow j < twoPow k ↔ j < k := by
  simp only [twoPow_eq_zpow]
  exact zpow_lt_zpow_iff_right₀ (by norm_num)

theorem log2Fuel_eq_log (fuel : Nat) : ∀ n, n ≤ fuel → log2Fuel fuel n = Nat.log 2 n := by
  induction fuel with
  | zero =>
    intro n hn
    have : n = 0 := by omega
    subst this
    simp [log2Fuel]
  | succ f ih =>
    intro n hn
    simp only [log2Fuel]
    split_ifs with h2
    · rw [ih (n / 2) (by omega), Nat.log_of_one_lt_of_le (by norm_num) h2]
    · rw [Nat.log_of_lt (by omega)]

theorem ilog2_eq_log (n : Nat) : ilog2 n = Nat.log 2 n :=
  log2Fuel_eq_log n n (Nat.le_refl n)

theorem ilog2_spec (n : Nat) (hn : n ≠ 0) :
    ((2 : ℚ) ^ (ilog2 n : Int) ≤ (n : ℚ)) ∧ ((n : ℚ) < (2 : ℚ) ^ ((ilog2 n : Int) + 1)) := by
  rw [ilog2_eq_log]
  constructor
  · rw [zpow_natCast]
    exact_mod_cast Nat.pow_log_le_self 2 hn
  · have h : n < 2 ^ (Nat.log 2 n + 1) := Nat.lt_pow_succ_log_self (by norm_num) n
    have h2 : ((Nat.log 2 n : Int) + 1) = ((Nat.log 2 n + 1 : Nat) : Int) := by push_cast; ring
    rw [h2, zpow_natCast]
    exact_mod_cast h

theorem floatExponent_spec (x : ℚ) (hx : 0 < x) :
    twoPow (floatExponent x) ≤ x ∧ x < twoPow (floatExponent x + 1) := by
  have hnum : 0 < x.num := Rat.num_pos.2 hx
  have hn0 : x.num.natAbs ≠ 0 := by omega
  have hd0 : x.den ≠ 0 := x.den_nz
  obtain ⟨hn1, hn2⟩ := ilog2_spec x.num.natAbs hn0
  obtain ⟨hd1, hd2⟩ := ilog2_spec x.den hd0
  have hxeq : x = (x.num.natAbs : ℚ) / (x.den : ℚ) := by
    have h1 : ((x.num.natAbs : Int) : ℚ) = (x.num : ℚ) := by
      rw [Int.natAbs_of_nonneg hnum.le]
    have h2 : (x.num.natAbs : ℚ) = (x.num : ℚ) := by
      rw [← h1, Int.cast_natCast]
    rw [h2]
    exact (Rat.num_div_den x).symm
  have hdpos : (0 : ℚ) < (x.den : ℚ) := by exact_mod_cast x.den_pos
  set ln : Int := (ilog2 x.num.natAbs : Int) with hln
  set ld : Int := (ilog2 x.den : Int) with hld
  have hpn : (0 : ℚ) < (2 : ℚ) ^ ln := by positivity
  have hpd : (0 : ℚ) < (2 : ℚ) ^ ld := by positivity
  -- the two outer bounds of the candidate exponent
  have hupper : x < (2 : ℚ) ^ (ln - ld + 1) := by
    have he : (2 : ℚ) ^ (ln - ld + 1) = (2 : ℚ) ^ (ln + 1) / (2 : ℚ) ^ ld := by
      rw [show ln - ld + 1 = (ln + 1) - ld by ring, zpow_sub₀ (by norm_num)]
    rw [he, hxeq, div_lt_div_iff₀ hdpos hpd]
    calc (x.num.natAbs : ℚ) * (2 : ℚ) ^ ld
        ≤ (x.num.natAbs : ℚ) * (x.den : ℚ) := by
          apply mul_le_mul_of_nonneg_left hd1
          positivity
      _ < (2 : ℚ) ^ (ln + 1) * (x.den : ℚ) := by
          apply mul_lt_mul_of_pos_right hn2 hdpos
  have hlower : (2 : ℚ) ^ (ln - ld - 1) ≤ x := by
    have he : (2 : ℚ) ^ (ln - ld - 1) = (2 : ℚ) ^ ln / (2 : ℚ) ^ (ld + 1) := by
      rw [show ln - ld - 1 = ln - (ld + 1) by ring, zpow_sub₀ (by norm_num)]
    have hpd1 : (0 : ℚ) < (2 : ℚ) ^ (ld + 1) := by positivity
    rw [he, hxeq, div_le_div_iff₀ hpd1 hdpos]
    calc (2 : ℚ) ^ ln * (x.den : ℚ)
        ≤ (x.num.natAbs : ℚ) * (x.den : ℚ) := by
          apply mul_le_mul_of_nonneg_right hn1 hdpos.le
      _ ≤ (x.num.natAbs : ℚ) * (2 : ℚ) ^ (ld + 1) := by
          apply mul_le_mul_of_nonneg_left hd2.le
          positivity
  unfold floatExponent
  simp only [← hln, ← hld]
  split_ifs with hlt
  · rw [twoPow_eq_zpow] at hlt
    constructor
    · rw [twoPow_eq_zpow]
      exact hlower
    · rw [twoPow_eq_zpow, show ln - ld - 1 + 1 = ln - ld by ring]
      exact hlt
  · rw [twoPow_eq_zpow, not_lt] at hlt
    constructor
    · rw [twoPow_eq_zpow]
      exact hlt
    · rw [twoPow_eq_zpow]
      exact hupper

theorem floatExponent_mono (x y : ℚ) (hx : 0 < x) (hxy : x ≤ y) :
    floatExponent x ≤ floatExponent y := by
  have h1 := (floatExponent_spec x hx).1
  have h2 := (floatExponent_spec y (lt_of_lt_of_le hx hxy)).2
  have h3 : twoPow (floatExponent x) < twoPow (floatExponent y + 1) :=
    lt_of_le_of_lt (le_trans h1 hxy) h2
  have := (twoPow_lt_twoPow_iff _ _).1 h3
  omega

theorem roundHalfEven_cases (x : ℚ) :
    (x - ⌊x⌋ < 1 / 2 ∧ roundHalfEven x = ⌊x⌋)
    ∨ (1 / 2 < x - ⌊x⌋ ∧ roundHalfEven x = ⌊x⌋ + 1)
    ∨ (x - ⌊x⌋ = 1 / 2 ∧ ⌊x⌋ % 2 = 0 ∧ roundHalfEven x = ⌊x⌋)
    ∨ (x - ⌊x⌋ = 1 / 2 ∧ ⌊x⌋ % 2 ≠ 0 ∧ roundHalfEven x = ⌊x⌋ + 1) := by
  have hfl : Rat.floor x = ⌊x⌋ := rfl
  unfold roundHalfEven
  simp only [hfl]
  by_cases h1 : x - ⌊x⌋ < 1 / 2
  · left
    exact ⟨h1, by rw [if_pos h1]⟩
  · by_cases h2 : 1 / 2 < x - ⌊x⌋
    · right; left
      exact ⟨h2, by rw [if_neg h1, if_pos h2]⟩
    · have heq : x - ⌊x⌋ = 1 / 2 := le_antisymm (not_lt.1 h2) (not_lt.1 h1)
      by_cases h3 : ⌊x⌋ % 2 = 0
      · right; right; left
        exact ⟨heq, h3, by rw [if_neg h1, if_neg h2, if_pos h3]⟩
      · right; right; right
        exact ⟨heq, h3, by rw [if_neg h1, if_neg h2, if_neg h3]⟩

theorem roundHalfEven_intCast (n : Int) : roundHalfEven (n : ℚ) = n := by
  rcases roundHalfEven_cases (n : ℚ) with h | h | h | h
  · rw [h.2, Int.floor_intCast]
  · have := h.1
    rw [Int.floor_intCast, sub_self] at this
    norm_num at this
  · have := h.1
    rw [Int.floor_intCast, sub_self] at this
    norm_num at this
  · have := h.1
    rw [Int.floor_intCast, sub_self] at this
    norm_num at this

theorem roundHalfEven_mono (x y : ℚ) (hxy : x ≤ y) : roundHalfEven x ≤ roundHalfEven y := by
  have hf : ⌊x⌋ ≤ ⌊y⌋ := Int.floor_le_floor hxy
  have hx1 : roundHalfEven x ≤ ⌊x⌋ + 1 := by
    rcases roundHalfEven_cases x with h | h | h | h <;> omega
  have hy0 : ⌊y⌋ ≤ roundHalfEven y := by
    rcases roundHalfEven_cases y with h | h | h | h <;> omega
  rcases lt_or_eq_of_le hf with hlt | heq
  · omega
  · have hd : x - ⌊x⌋ ≤ y - ⌊y⌋ := by
      rw [heq]
      linarith
    rcases roundHalfEven_cases x with hx | hx | hx | hx <;>
      rcases roundHalfEven_cases y with hy | hy | hy | hy <;>
      first
        | omega
        | (exfalso; linarith [hx.1, hy.1])

theorem roundFloat_of_pos (x : ℚ) (hx : 0 < x) :
    roundFloat x = (roundHalfEven (x / twoPow (floatExponent x - 23)) : ℚ)
      * twoPow (floatExponent x - 23) := by
  unfold roundFloat
  rw [if_neg (not_le.2 hx)]

theorem roundFloat_of_nonpos (x : ℚ) (hx : x ≤ 0) : roundFloat x = 0 := by
  unfold roundFloat
  rw [if_pos hx]

theorem twoPow_split (e : Int) :
    twoPow e = 8388608 * twoPow (e - 23) ∧ twoPow (e + 1) = 16777216 * twoPow (e - 23) := by
  constructor
  · rw [show e = 23 + (e - 23) by ring, twoPow_add, show (23 : Int) + (e - 23) - 23 = e - 23 by ring]
    congr 1
  · rw [show e + 1 = 24 + (e - 23) by ring, twoPow_add]
    congr 1

/-- The rounded value of a positive number stays in the closed binade of the
number. -/
theorem roundFloat_range (x : ℚ) (hx : 0 < x) :
    twoPow (floatExponent x) ≤ roundFloat x ∧ roundFloat x ≤ twoPow (floatExponent x + 1) := by
  obtain ⟨h1, h2⟩ := floatExponent_spec x hx
  obtain ⟨hs1, hs2⟩ := twoPow_split (floatExponent x)
  have hu : 0 < twoPow (floatExponent x - 23) := twoPow_pos _
  rw [roundFloat_of_pos x hx, hs1, hs2]
  rw [hs1] at h1
  rw [hs2] at h2
  have hz1 : (8388608 : ℚ) ≤ x / twoPow (floatExponent x - 23) := (le_div_iff₀ hu).2 h1
  have hz2 : x / twoPow (floatExponent x - 23) ≤ (16777216 : ℚ) := ((div_lt_iff₀ hu).2 h2).le
  have hr1 : (8388608 : Int) ≤ roundHalfEven (x / twoPow (floatExponent x - 23)) := by
    have := roundHalfEven_mono _ _ (show (((8388608 : Int) : ℚ)) ≤ _ by exact_mod_cast hz1)
    rwa [roundHalfEven_intCast] at this
  have hr2 : roundHalfEven (x / twoPow (floatExponent x - 23)) ≤ (16777216 : Int) := by
    have := roundHalfEven_mono _ _ (show _ ≤ (((16777216 : Int) : ℚ)) by exact_mod_cast hz2)
    rwa [roundHalfEven_intCast] at this
  constructor
  · apply mul_le_mul_of_nonneg_right _ hu.le
    exact_mod_cast hr1
  · apply mul_le_mul_of_nonneg_right _ hu.le
    exact_mod_cast hr2

theorem roundFloat_pos (x : ℚ) (hx : 0 < x) : 0 < roundFloat x :=
  lt_of_lt_of_le (twoPow_pos _) (roundFloat_range x hx).1

theorem roundFloat_nonneg (x : ℚ) : 0 ≤ roundFloat x := by
  rcases le_or_lt x 0 with h | h
  · rw [roundFloat_of_nonpos x h]
  · exact (roundFloat_pos x h).le

/-- Rounding to `float` is monotone. -/
theorem roundFloat_mono (x y : ℚ) (hxy : x ≤ y) : roundFloat x ≤ roundFloat y := by
  rcases le_or_lt x 0 with hx | hx
  · rw [roundFloat_of_nonpos x hx]
    exact roundFloat_nonneg y
  · have hy : 0 < y := lt_of_lt_of_le hx hxy
    rcases lt_or_eq_of_le (floatExponent_mono x y hx hxy) with hlt | heq
    · calc roundFloat x ≤ twoPow (floatExponent x + 1) := (roundFloat_range x hx).2
        _ ≤ twoPow (floatExponent y) := twoPow_le_twoPow _ _ (by omega)
        _ ≤ roundFloat y := (roundFloat_range y hy).1
    · rw [roundFloat_of_pos x hx, roundFloat_of_pos y hy, heq]
      have hu : 0 < twoPow (floatExponent y - 23) := twoPow_pos _
      apply mul_le_mul_of_nonneg_right _ hu.le
      have := roundHalfEven_mono (x / twoPow (floatExponent y - 23))
        (y / twoPow (floatExponent y - 23)) (div_le_div_of_nonneg_right hxy hu.le)
      exact_mod_cast this

theorem roundFloat_one : roundFloat 1 = 1 := by decide!

theorem roundFloat_natCast_pos (n : Nat) (hn : n ≠ 0) : 0 < roundFloat (n : ℚ) :=
  roundFloat_pos _ (by exact_mod_cast Nat.pos_of_ne_zero hn)

theorem fdivLt_eq_true_iff (p q : Nat) (c : ℚ) :
    fdivLt p q c = true ↔ q ≠ 0 ∧ roundFloat (roundFloat (p : ℚ) / roundFloat (q : ℚ)) < c := by
  simp [fdivLt]

/-- The quotient of the smaller by the larger of two rounded lengths rounds to
at most the rounded quotient of the larger by the smaller. -/
theorem roundFloat_div_le_of_le (m n : Nat) (hm : m ≠ 0) (hmn : m ≤ n) :
    roundFloat (roundFloat (m : ℚ) / roundFloat (n : ℚ))
      ≤ roundFloat (roundFloat (n : ℚ) / roundFloat (m : ℚ)) := by
  have hn : n ≠ 0 := by omega
  have hmpos := roundFloat_natCast_pos m hm
  have hnpos := roundFloat_natCast_pos n hn
  have hle : roundFloat (m : ℚ) ≤ roundFloat (n : ℚ) :=
    roundFloat_mono _ _ (by exact_mod_cast hmn)
  apply roundFloat_mono
  have h1 : roundFloat (m : ℚ) / roundFloat (n : ℚ) ≤ 1 := (div_le_one hnpos).2 hle
  have h2 : (1 : ℚ) ≤ roundFloat (n : ℚ) / roundFloat (m : ℚ) := (one_le_div hmpos).2 hle
  linarith

/-- The two-sided test of lines 236-237 is the one-sided test on the smaller
length over the larger, in the same `float` arithmetic. -/
theorem lengthScreen_iff_float_min_max (qL dbL : Nat) (c : ℚ) :
    lengthScreen qL dbL c = true ↔
      (max qL dbL ≠ 0
        ∧ roundFloat (roundFloat ((min qL dbL : Nat) : ℚ) / roundFloat ((max qL dbL : Nat) : ℚ))
            < c) := by
  simp only [lengthScreen, Bool.or_eq_true, fdivLt_eq_true_iff]
  rcases Nat.le_total qL dbL with hle | hle
  · rw [min_eq_left hle, max_eq_right hle]
    constructor
    · rintro (⟨hd, h⟩ | ⟨hq, h⟩)
      · exact ⟨hd, h⟩
      · exact ⟨by omega, lt_of_le_of_lt (roundFloat_div_le_of_le qL dbL hq hle) h⟩
    · rintro ⟨hd, h⟩
      exact Or.inl ⟨hd, h⟩
  · rw [min_eq_right hle, max_eq_left hle]
    constructor
    · rintro (⟨hd, h⟩ | ⟨hq, h⟩)
      · exact ⟨by omega, lt_of_le_of_lt (roundFloat_div_le_of_le dbL qL hd hle) h⟩
      · exact ⟨hq, h⟩
    · rintro ⟨hq, h⟩
      exact Or.inr ⟨hq, h⟩

theorem runLoop_succ (a : Alignment) (env : Env) (queryDbKey qL maxAlnNum maxRejected : Nat)
    (fuel : Nat) (lineSs : List Char) (st : LoopState) :
    runLoop a env queryDbKey qL maxAlnNum maxRejected (fuel + 1) lineSs st =
      match getline lineSs '\t' with
      | none => some (.ok st)
      | some (val, lineSs1) =>
        if st.passedNum < maxAlnNum ∧ st.rejected < maxRejected then
          match runCandidate a env queryDbKey qL st (parseDbKey val) with
          | .error e => some (.error e)
          | .ok st1 =>
            runLoop a env queryDbKey qL maxAlnNum maxRejected fuel
              (skipline (skipline lineSs1 '\t') '\n') st1
        else some (.ok st) := by
  rw [runLoop]

/-- Claim C5, as amended: for a fetched candidate with query length `qL` and
target length `dbL`, the step rejects by the length pre-screen (`rejected`
incremented, aligner not invoked, alignment counter unchanged, the loop going on
with the next candidate) if and only if `fragmentMerge` is off and
`min(qL,dbL)/max(qL,dbL) < covThr` in the `float` arithmetic of the code (the
lengths and the quotient each rounded to `float`; false for `qL = dbL = 0`, where
the quotient is a NaN); otherwise the aligner is invoked, and with
`fragmentMerge` on the pre-screen never rejects. -/
theorem runCandidate_length_prescreen (a : Alignment) (env : Env)
    (queryDbKey qL maxAlnNum maxRejected : Nat) (st : LoopState) (dbKey dbL : Nat)
    (hfetch : env.targetSeqL dbKey = some dbL) :
    (specLengthRejectFloat a.fragmentMerge qL dbL a.covThr →
      runCandidate a env queryDbKey qL st dbKey =
          .ok { swResults := st.swResults
                passedNum := st.passedNum
                rejected := st.rejected + 1
                alignmentsNum := st.alignmentsNum
                fetched := st.fetched ++ [dbKey]
                aligned := st.aligned }
        ∧ ∀ fuel lineSs val rest, getline lineSs '\t' = some (val, rest) → parseDbKey val = dbKey →
            st.passedNum < maxAlnNum → st.rejected < maxRejected →
            runLoop a env queryDbKey qL maxAlnNum maxRejected (fuel + 1) lineSs st =
              runLoop a env queryDbKey qL maxAlnNum maxRejected fuel
                (skipline (skipline rest '\t') '\n') (st.screenOut dbKey))
    ∧ (¬ specLengthRejectFloat a.fragmentMerge qL dbL a.covThr →
      ∃ st1, runCandidate a env queryDbKey qL st dbKey = .ok st1
        ∧ st1.alignmentsNum = st.alignmentsNum + 1
        ∧ st1.aligned = st.aligned ++ [dbKey])
    ∧ (a.fragmentMerge = true → ¬ specLengthRejectFloat a.fragmentMerge qL dbL a.covThr) := by
  have hiff : (a.fragmentMerge = false ∧ lengthScreen qL dbL a.covThr = true) ↔
      specLengthRejectFloat a.fragmentMerge qL dbL a.covThr := by
    unfold specLengthRejectFloat
    rw [lengthScreen_iff_float_min_max qL dbL a.covThr]
  have hrun := runCandidate_of_fetch a env queryDbKey qL st dbKey dbL hfetch
  refine ⟨fun h => ?_, fun h => ?_, fun hf h => ?_⟩
  · rw [if_pos (hiff.2 h)] at hrun
    refine ⟨hrun, ?_⟩
    intro fuel lineSs val rest hget hkey hp hr
    rw [runLoop_succ, hget]
    simp only [hkey, hrun, hp, hr, and_self, if_true]
  · rw [if_neg (fun hc => h (hiff.1 hc))] at hrun
    split_ifs at hrun
    · exact ⟨_, hrun, rfl, rfl⟩
    · exact ⟨_, hrun, rfl, rfl⟩
  · rw [h.1] at hf
    cases hf

/-- Scenario C: `covThr = 0.8`, `fragmentMerge = false`, `qL = 10`, target
length 100: rejected without an aligner call. -/
theorem scenarioC_length_rejected :
    (exampleEnv [] 3 10 (fun _ => some 100) scenarioD_res).targetSeqL 7 = some 100
    ∧ specLengthRejectFloat (exampleAlignment false .SCORE_COV_SEQID false).fragmentMerge 10 100
        (exampleAlignment false .SCORE_COV_SEQID false).covThr
    ∧ runCandidate (exampleAlignment false .SCORE_COV_SEQID false)
        (exampleEnv [] 3 10 (fun _ => some 100) scenarioD_res) 3 10 LoopState.init 7
      = .ok { swResults := []
              passedNum := 0
              rejected := 1
              alignmentsNum := 0
              fetched := [7]
              aligned := [] } :=
  ⟨rfl, by decide!,
    ((runCandidate_length_prescreen (exampleAlignment false .SCORE_COV_SEQID false)
      (exampleEnv [] 3 10 (fun _ => some 100) scenarioD_res) 3 10 1 1 LoopState.init 7 100
      rfl).1 (by decide!)).1⟩

/-- Counterexample to claim C5 as stated: `covThr` is the `float` nearest to 0.8,
`13421773 / 2^24`, fragment-merge is off, the query has length 80 and the target
length 100.  In exact arithmetic `min/max = 80/100 < covThr`, so the claim has
the candidate rejected by the pre-screen; the `float` quotient `80.0f / 100.0f`
is `13421773 / 2^24` itself, the test `< covThr` is false both ways, and the
candidate is aligned and accepted: `rejected` stays 0 and the aligner is
called once. -/
theorem length_prescreen_exact_80_100_aligned :
    floatCovAlignment.fragmentMerge = false
    ∧ floatCovAlignment.covThr = roundFloat (8 / 10)
    ∧ specLengthReject floatCovAlignment.fragmentMerge 80 100 floatCovAlignment.covThr
    ∧ roundFloat (roundFloat 80 / roundFloat 100) = 13421773 / 16777216
    ∧ roundFloat (roundFloat 100 / roundFloat 80) = 5 / 4
    ∧ lengthScreen 80 100 floatCovAlignment.covThr = false
    ∧ runCandidate floatCovAlignment (exampleEnv [] 3 80 (fun _ => some 100) goodRes) 3 80
        LoopState.init 7
      = .ok { swResults := [goodRes 7]
              passedNum := 1
              rejected := 0
              alignmentsNum := 1
              fetched := [7]
              aligned := [7] } :=
  ⟨rfl, by decide!, by decide!, by decide!, by decide!, by decide!, by decide!⟩

/-! ### The loop: termination and invariants -/

theorem getline_length_lt (lineSs : List Char) (delim : Char) (val rest : List Char)
    (h : getline lineSs delim = some (val, rest)) : rest.length < lineSs.length := by
  cases lineSs with
  | nil => simp [getline] at h
  | cons c t =>
    simp only [getline, Option.some.injEq, Prod.mk.injEq] at h
    rw [← h.2, List.length_drop]
    have := (List.dropWhile_sublist (fun x => x != delim) (l := c :: t)).length_le
    simp only [List.length_cons] at this ⊢
    omega

theorem skipline_length_le (lineSs : List Char) (delim : Char) :
    (skipline lineSs delim).length ≤ lineSs.length := by
  unfold skipline
  cases h : getline lineSs delim with
  | none => simp
  | some p =>
    obtain ⟨val, rest⟩ := p
    exact Nat.le_of_lt (getline_length_lt lineSs delim val rest h)

theorem candidate_rest_length_lt (lineSs : List Char) (val rest : List Char)
    (h : getline lineSs '\t' = some (val, rest)) :
    (skipline (skipline rest '\t') '\n').length < lineSs.length :=
  calc (skipline (skipline rest '\t') '\n').length
      ≤ (skipline rest '\t').length := skipline_length_le _ _
    _ ≤ rest.length := skipline_length_le _ _
    _ < lineSs.length := getline_length_lt lineSs '\t' val rest h

/-- With a fuel above the length of the unread list the loop returns. -/
theorem runLoop_total (a : Alignment) (env : Env) (queryDbKey qL maxAlnNum maxRejected : Nat) :
    ∀ (fuel : Nat) (lineSs : List Char) (st : LoopState), lineSs.length < fuel →
      ∃ r, runLoop a env queryDbKey qL maxAlnNum maxRejected fuel lineSs st = some r := by
  intro fuel
  induction fuel with
  | zero => intro lineSs st h; omega
  | succ n ih =>
    intro lineSs st h
    rw [runLoop_succ]
    cases hg : getline lineSs '\t' with
    | none => exact ⟨_, rfl⟩
    | some p =>
      obtain ⟨val, rest⟩ := p
      simp only
      split_ifs
      · cases hc : runCandidate a env queryDbKey qL st (parseDbKey val) with
        | error e => exact ⟨_, rfl⟩
        | ok st1 =>
          simp only
          exact ih _ st1 (by have := candidate_rest_length_lt lineSs val rest hg; omega)
      · exact ⟨_, rfl⟩

/-- A property that every non-fatal candidate step preserves while the loop
condition holds is carried from the start of the loop to its end. -/
theorem runLoop_invariant (P : LoopState → Prop) (a : Alignment) (env : Env)
    (queryDbKey qL maxAlnNum maxRejected : Nat)
    (hstep : ∀ st dbKey st1, P st → st.passedNum < maxAlnNum → st.rejected < maxRejected →
      runCandidate a env queryDbKey qL st dbKey = .ok st1 → P st1) :
    ∀ (fuel : Nat) (lineSs : List Char) (st st2 : LoopState), P st →
      runLoop a env queryDbKey qL maxAlnNum maxRejected fuel lineSs st = some (.ok st2) →
      P st2 := by
  intro fuel
  induction fuel with
  | zero => intro lineSs st st2 _ h; simp [runLoop] at h
  | succ n ih =>
    intro lineSs st st2 hP h
    rw [runLoop_succ] at h
    cases hg : getline lineSs '\t' with
    | none =>
      rw [hg] at h
      simp only [Option.some.injEq, Except.ok.injEq] at h
      exact h ▸ hP
    | some p =>
      obtain ⟨val, rest⟩ := p
      rw [hg] at h
      simp only at h
      split_ifs at h with hc
      · cases hr : runCandidate a env queryDbKey qL st (parseDbKey val) with
        | error e => rw [hr] at h; simp at h
        | ok st1 =>
          rw [hr] at h
          exact ih _ st1 st2 (hstep st _ st1 hP hc.1 hc.2 hr) h
      · simp only [Option.some.injEq, Except.ok.injEq] at h
        exact h ▸ hP

/-- The three outcomes of a non-fatal candidate step. -/
theorem runCandidate_ok_cases (a : Alignment) (env : Env) (queryDbKey qL : Nat)
    (st : LoopState) (dbKey : Nat) (st1 : LoopState)
    (h : runCandidate a env queryDbKey qL st dbKey = .ok st1) :
    ∃ dbL, env.targetSeqL dbKey = some dbL ∧
      ((a.fragmentMerge = false ∧ lengthScreen qL dbL a.covThr = true ∧ st1 = st.screenOut dbKey)
      ∨ (¬ (a.fragmentMerge = false ∧ lengthScreen qL dbL a.covThr = true)
          ∧ accepts a (isIdentity a queryDbKey dbKey)
              (env.getSWResult queryDbKey st.alignmentsNum dbKey a.evalThr a.mode) = true
          ∧ st1 = st.accept dbKey (overrideIdentity (isIdentity a queryDbKey dbKey)
              (env.getSWResult queryDbKey st.alignmentsNum dbKey a.evalThr a.mode)))
      ∨ (¬ (a.fragmentMerge = false ∧ lengthScreen qL dbL a.covThr = true)
          ∧ accepts a (isIdentity a queryDbKey dbKey)
              (env.getSWResult queryDbKey st.alignmentsNum dbKey a.evalThr a.mode) = false
          ∧ st1 = st.reject dbKey)) := by
  cases hf : env.targetSeqL dbKey with
  | none => simp [runCandidate, hf] at h
  | some dbL =>
    refine ⟨dbL, rfl, ?_⟩
    rw [runCandidate_of_fetch a env queryDbKey qL st dbKey dbL hf] at h
    split_ifs at h with h1 h2
    · exact Or.inl ⟨h1.1, h1.2, (Except.ok.inj h).symm⟩
    · exact Or.inr (Or.inl ⟨h1, h2, (Except.ok.inj h).symm⟩)
    · exact Or.inr (Or.inr ⟨h1, by simpa using h2, (Except.ok.inj h).symm⟩)

theorem queryLoop_ok (a : Alignment) (env : Env) (maxAlnNum maxRejected id : Nat)
    (st : LoopState) (h : queryLoop a env maxAlnNum maxRejected id = some (.ok st)) :
    ∃ qL, env.querySeqL (env.prefDbKey id) = some qL ∧
      runLoop a env (env.prefDbKey id) qL maxAlnNum maxRejected ((env.prefData id).length + 1)
        (env.prefData id) LoopState.init = some (.ok st) := by
  unfold queryLoop at h
  cases hq : env.querySeqL (env.prefDbKey id) with
  | none => simp [hq] at h
  | some qL =>
    simp only [hq] at h
    exact ⟨qL, rfl, h⟩

theorem listSort_length (comp : result_t → result_t → Bool) (l : List result_t) :
    (listSort comp l).length = l.length :=
  List.length_insertionSort _ l

/-- Claim C2: for every query, prefilter list, aligner and configuration, the
number of lines written for the query, which is the number of accepted hits,
is at most `maxAlnNum`; with `maxAlnNum = 0` the record is empty. -/
theorem accepted_hits_le_maxAlnNum (a : Alignment) (env : Env)
    (maxAlnNum maxRejected id : Nat) (st : LoopState)
    (h : queryLoop a env maxAlnNum maxRejected id = some (.ok st)) :
    ((listSort compareHits st.swResults).map (serializeHit a env)).length ≤ maxAlnNum
    ∧ st.swResults.length = st.passedNum
    ∧ st.passedNum ≤ maxAlnNum
    ∧ (maxAlnNum = 0 → serialize a env st.swResults = []) := by
  obtain ⟨qL, _, hrun⟩ := queryLoop_ok a env maxAlnNum maxRejected id st h
  have hinv : st.swResults.length = st.passedNum ∧ st.passedNum ≤ maxAlnNum := by
    refine runLoop_invariant
      (fun s => s.swResults.length = s.passedNum ∧ s.passedNum ≤ maxAlnNum)
      a env (env.prefDbKey id) qL maxAlnNum maxRejected ?_ _ _ LoopState.init st
      ⟨rfl, Nat.zero_le _⟩ hrun
    intro s dbKey s1 hs hp _ hc
    obtain ⟨dbL, _, hcase | hcase | hcase⟩ :=
      runCandidate_ok_cases a env (env.prefDbKey id) qL s dbKey s1 hc
    · rw [hcase.2.2]
      exact hs
    · rw [hcase.2.2]
      refine ⟨?_, hp⟩
      simp only [LoopState.accept, List.length_append, List.length_singleton]
      rw [hs.1]
    · rw [hcase.2.2]
      exact hs
  refine ⟨?_, hinv.1, hinv.2, ?_⟩
  · rw [List.length_map, listSort_length, hinv.1]
    exact hinv.2
  · intro h0
    have hnil : st.swResults = [] := by
      apply List.eq_nil_of_length_eq_zero
      rw [hinv.1]
      have := hinv.2
      omega
    rw [hnil]
    rfl

/-- Two acceptable candidates and `maxAlnNum = 1`: one hit is written. -/
theorem two_candidates_maxAlnNum_one :
    queryLoop (exampleAlignment false .SCORE_COV_SEQID false)
        (exampleEnv twoCandidates 1 50 (fun _ => some 50) goodRes) 1 10 0
      = some (.ok { swResults := [goodRes 5]
                    passedNum := 1
                    rejected := 0
                    alignmentsNum := 1
                    fetched := [5]
                    aligned := [5] })
    ∧ ((listSort compareHits [goodRes 5]).map
          (serializeHit (exampleAlignment false .SCORE_COV_SEQID false)
            (exampleEnv twoCandidates 1 50 (fun _ => some 50) goodRes))).length ≤ 1 :=
  ⟨by decide!,
    (accepted_hits_le_maxAlnNum (exampleAlignment false .SCORE_COV_SEQID false)
      (exampleEnv twoCandidates 1 50 (fun _ => some 50) goodRes) 1 10 0
      { swResults := [goodRes 5], passedNum := 1, rejected := 0, alignmentsNum := 1,
        fetched := [5], aligned := [5] } (by decide!)).1⟩

/-- Claim C3: started with `rejected ≤ maxRejected` the loop ends with
`rejected ≤ maxRejected`; once `rejected = maxRejected` the loop returns its
state unchanged, so nothing more is fetched or aligned; and in every candidate
step a rejection by the length pre-screen adds one to `rejected` without an
aligner call, a rejection by the acceptance test adds one, and an acceptance
resets it to 0. -/
theorem rejected_streak_le_maxRejected (a : Alignment) (env : Env)
    (queryDbKey qL maxAlnNum maxRejected fuel : Nat) (lineSs : List Char) (st st2 : LoopState)
    (hst : st.rejected ≤ maxRejected)
    (hrun : runLoop a env queryDbKey qL maxAlnNum maxRejected fuel lineSs st = some (.ok st2)) :
    st2.rejected ≤ maxRejected
    ∧ (st.rejected = maxRejected → st2 = st)
    ∧ (∀ (s : LoopState) (dbKey : Nat) (s1 : LoopState),
        runCandidate a env queryDbKey qL s dbKey = .ok s1 →
        ∃ dbL, env.targetSeqL dbKey = some dbL ∧
          (((a.fragmentMerge = false ∧ lengthScreen qL dbL a.covThr = true)
              ∧ s1.rejected = s.rejected + 1 ∧ s1.passedNum = s.passedNum
              ∧ s1.swResults = s.swResults
              ∧ s1.alignmentsNum = s.alignmentsNum ∧ s1.aligned = s.aligned)
          ∨ (¬ (a.fragmentMerge = false ∧ lengthScreen qL dbL a.covThr = true)
              ∧ accepts a (isIdentity a queryDbKey dbKey)
                  (env.getSWResult queryDbKey s.alignmentsNum dbKey a.evalThr a.mode) = false
              ∧ s1.rejected = s.rejected + 1 ∧ s1.passedNum = s.passedNum
              ∧ s1.swResults = s.swResults
              ∧ s1.alignmentsNum = s.alignmentsNum + 1 ∧ s1.aligned = s.aligned ++ [dbKey])
          ∨ (¬ (a.fragmentMerge = false ∧ lengthScreen qL dbL a.covThr = true)
              ∧ accepts a (isIdentity a queryDbKey dbKey)
                  (env.getSWResult queryDbKey s.alignmentsNum dbKey a.evalThr a.mode) = true
              ∧ s1.rejected = 0 ∧ s1.passedNum = s.passedNum + 1
              ∧ s1.swResults.length = s.swResults.length + 1
              ∧ s1.alignmentsNum = s.alignmentsNum + 1 ∧ s1.aligned = s.aligned ++ [dbKey]))) := by
  refine ⟨?_, ?_, ?_⟩
  · refine runLoop_invariant (fun s => s.rejected ≤ maxRejected) a env queryDbKey qL maxAlnNum
      maxRejected ?_ fuel lineSs st st2 hst hrun
    intro s dbKey s1 _ _ hr hc
    obtain ⟨dbL, _, hcase | hcase | hcase⟩ := runCandidate_ok_cases a env queryDbKey qL s dbKey s1 hc
    · rw [hcase.2.2]
      exact hr
    · rw [hcase.2.2]
      exact Nat.zero_le _
    · rw [hcase.2.2]
      exact hr
  · intro heq
    cases fuel with
    | zero => simp [runLoop] at hrun
    | succ n =>
      rw [runLoop_succ] at hrun
      cases hg : getline lineSs '\t' with
      | none =>
        rw [hg] at hrun
        simp only [Option.some.injEq, Except.ok.injEq] at hrun
        exact hrun.symm
      | some p =>
        obtain ⟨val, rest⟩ := p
        rw [hg] at hrun
        simp only at hrun
        rw [if_neg (by omega)] at hrun
        simp only [Option.some.injEq, Except.ok.injEq] at hrun
        exact hrun.symm
  · intro s dbKey s1 hc
    obtain ⟨dbL, hf, hcase | hcase | hcase⟩ := runCandidate_ok_cases a env queryDbKey qL s dbKey s1 hc
    · refine ⟨dbL, hf, Or.inl ⟨⟨hcase.1, hcase.2.1⟩, ?_⟩⟩
      rw [hcase.2.2]
      exact ⟨rfl, rfl, rfl, rfl, rfl⟩
    · refine ⟨dbL, hf, Or.inr (Or.inr ⟨hcase.1, hcase.2.1, ?_⟩)⟩
      rw [hcase.2.2]
      refine ⟨rfl, rfl, ?_, rfl, rfl⟩
      simp [LoopState.accept]
    · refine ⟨dbL, hf, Or.inr (Or.inl ⟨hcase.1, hcase.2.1, ?_⟩)⟩
      rw [hcase.2.2]
      exact ⟨rfl, rfl, rfl, rfl, rfl⟩

/-- Scenario E: `maxRejected = 3` and 100 candidates of which the first three
fail the length pre-screen: the loop stops after them and the aligner is
invoked 0 times. -/
theorem scenarioE_three_length_rejections :
    (candidateKeys scenarioE_prefList).length = 100
    ∧ LoopState.init.rejected ≤ 3
    ∧ runLoop (exampleAlignment false .SCORE_COV_SEQID false) scenarioE_env 7 10 1000 3
        (scenarioE_prefList.length + 1) scenarioE_prefList LoopState.init
      = some (.ok { swResults := []
                    passedNum := 0
                    rejected := 3
                    alignmentsNum := 0
                    fetched := [1, 2, 3]
                    aligned := [] })
    ∧ (3 : Nat) ≤ 3 :=
  ⟨by decide!, by decide, by decide!,
    (rejected_streak_le_maxRejected (exampleAlignment false .SCORE_COV_SEQID false) scenarioE_env
      7 10 1000 3 (scenarioE_prefList.length + 1) scenarioE_prefList LoopState.init
      { swResults := [], passedNum := 0, rejected := 3, alignmentsNum := 0,
        fetched := [1, 2, 3], aligned := [] } (by decide) (by decide!)).1⟩

/-! ### Identity hits -/

theorem lengthScreen_self (qL : Nat) (c : ℚ) (hc : c ≤ 1) : lengthScreen qL qL c = false := by
  have h : fdivLt qL qL c = false := by
    rw [← Bool.not_eq_true, fdivLt_eq_true_iff]
    rintro ⟨h0, hlt⟩
    have hq : roundFloat (qL : ℚ) ≠ 0 := (roundFloat_natCast_pos qL h0).ne'
    rw [div_self hq, roundFloat_one] at hlt
    linarith
  simp [lengthScreen, h]

theorem accepts_identity (a : Alignment) (res : result_t) : accepts a true res = true := by
  simp [accepts]

theorem serialize_mem (a : Alignment) (env : Env) (swResults : List result_t) (r : result_t)
    (hr : r ∈ listSort compareHits swResults) :
    ∃ before after, serialize a env swResults = before ++ serializeHit a env r ++ after := by
  obtain ⟨l1, l2, hl⟩ := List.append_of_mem hr
  refine ⟨(l1.map (serializeHit a env)).flatten, (l2.map (serializeHit a env)).flatten, ?_⟩
  unfold serialize
  rw [hl]
  simp

theorem fixed3_one : fixed3 1 = ['1', '.', '0', '0', '0'] := by decide!

/-- Claim C4, as amended: when the query's record is written, the candidate
with `isIdentity` was consumed by the loop (reached before `maxAlnNum` accepted
hits or `maxRejected` consecutive rejections ended it) and passes the length
pre-screen (fragment-merge on, or `covThr ≤ 1` and the target store holding the
query's own sequence), its hit is in the record with `qcov = dbcov = seqId = 1`,
`seqId` printed as `1.000`, whatever the aligner returned and whatever the
thresholds are. -/
theorem identity_hit_present_when_consumed (a : Alignment) (env : Env)
    (maxAlnNum maxRejected id : Nat) (st : LoopState)
    (hrun : queryLoop a env maxAlnNum maxRejected id = some (.ok st))
    (hsame : a.sameQTDB = true)
    (hconsumed : env.prefDbKey id ∈ st.fetched)
    (hscreen : a.fragmentMerge = true
      ∨ (a.covThr ≤ 1 ∧ env.targetSeqL (env.prefDbKey id) = env.querySeqL (env.prefDbKey id))) :
    ∃ r, r ∈ listSort compareHits st.swResults
      ∧ r.qcov = 1 ∧ r.dbcov = 1 ∧ r.seqId = 1
      ∧ fixed3 r.seqId = ['1', '.', '0', '0', '0']
      ∧ (∃ nth, r = overrideIdentity true
          (env.getSWResult (env.prefDbKey id) nth (env.prefDbKey id) a.evalThr a.mode))
      ∧ ∃ before after, serialize a env st.swResults = before ++ serializeHit a env r ++ after := by
  obtain ⟨qL, hq, hloop⟩ := queryLoop_ok a env maxAlnNum maxRejected id st hrun
  have hid : isIdentity a (env.prefDbKey id) (env.prefDbKey id) = true := by
    simp [isIdentity, hsame]
  have hinv : env.prefDbKey id ∈ st.fetched →
      ∃ r, r ∈ st.swResults ∧ ∃ nth, r = overrideIdentity true
        (env.getSWResult (env.prefDbKey id) nth (env.prefDbKey id) a.evalThr a.mode) := by
    refine runLoop_invariant
      (fun s => env.prefDbKey id ∈ s.fetched →
        ∃ r, r ∈ s.swResults ∧ ∃ nth, r = overrideIdentity true
          (env.getSWResult (env.prefDbKey id) nth (env.prefDbKey id) a.evalThr a.mode))
      a env (env.prefDbKey id) qL maxAlnNum maxRejected ?_ _ _ LoopState.init st ?_ hloop
    · intro s dbKey s1 hs _ _ hc
      obtain ⟨dbL, hf, hcase | hcase | hcase⟩ :=
        runCandidate_ok_cases a env (env.prefDbKey id) qL s dbKey s1 hc
      · rw [hcase.2.2]
        intro hmem
        simp only [LoopState.screenOut, List.mem_append, List.mem_singleton] at hmem
        rcases hmem with hmem | hmem
        · exact hs hmem
        · exfalso
          rcases hscreen with hfm | ⟨hcov, hlen⟩
          · rw [hfm] at hcase
            cases hcase.1
          · rw [← hmem, hlen, hq] at hf
            cases hf
            rw [lengthScreen_self qL a.covThr hcov] at hcase
            cases hcase.2.1
      · rw [hcase.2.2]
        intro hmem
        simp only [LoopState.accept, List.mem_append, List.mem_singleton] at hmem ⊢
        rcases hmem with hmem | hmem
        · obtain ⟨r, hr, hn⟩ := hs hmem
          exact ⟨r, Or.inl hr, hn⟩
        · refine ⟨_, Or.inr rfl, s.alignmentsNum, ?_⟩
          rw [← hmem, hid]
      · rw [hcase.2.2]
        intro hmem
        simp only [LoopState.reject, List.mem_append, List.mem_singleton] at hmem ⊢
        rcases hmem with hmem | hmem
        · exact hs hmem
        · exfalso
          rw [← hmem, hid, accepts_identity] at hcase
          cases hcase.2.1
    · intro hmem
      simp [LoopState.init] at hmem
  obtain ⟨r, hr, nth, hn⟩ := hinv hconsumed
  have hsorted : r ∈ listSort compareHits st.swResults :=
    (List.perm_insertionSort _ st.swResults).symm.subset hr
  have h1 : r.qcov = 1 ∧ r.dbcov = 1 ∧ r.seqId = 1 := by
    rw [hn]
    exact ⟨rfl, rfl, rfl⟩
  refine ⟨r, hsorted, h1.1, h1.2.1, h1.2.2, ?_, ⟨nth, hn⟩, serialize_mem a env _ r hsorted⟩
  rw [h1.2.2]
  exact fixed3_one

/-- Scenario B: `sameQTDB = true`, query key 1, the single candidate key 1, and
an aligner result that fails every threshold: the self-hit is written with
`seqId` 1.000. -/
theorem scenarioB_self_hit_present :
    queryLoop (exampleAlignment false .SCORE_COV_SEQID true)
        (exampleEnv scenarioB_prefList 1 50 (fun _ => some 50) badRes) 10 10 0
      = some (.ok { swResults := [overrideIdentity true (badRes 1)]
                    passedNum := 1
                    rejected := 0
                    alignmentsNum := 1
                    fetched := [1]
                    aligned := [1] })
    ∧ accepts (exampleAlignment false .SCORE_COV_SEQID true) false (badRes 1) = false
    ∧ serialize (exampleAlignment false .SCORE_COV_SEQID true)
        (exampleEnv scenarioB_prefList 1 50 (fun _ => some 50) badRes)
        [overrideIdentity true (badRes 1)]
      = ['1', '\t', '3', '\t', '1', '.', '0', '0', '0', '\t', 'e', '\t', '0', '\t', '0', '\t',
         '0', '\t', '0', '\t', '0', '\t', '0', '\n']
    ∧ ∃ r, r ∈ listSort compareHits [overrideIdentity true (badRes 1)]
      ∧ r.qcov = 1 ∧ r.dbcov = 1 ∧ r.seqId = 1
      ∧ fixed3 r.seqId = ['1', '.', '0', '0', '0']
      ∧ (∃ nth, r = overrideIdentity true
          ((exampleEnv scenarioB_prefList 1 50 (fun _ => some 50) badRes).getSWResult
            ((exampleEnv scenarioB_prefList 1 50 (fun _ => some 50) badRes).prefDbKey 0) nth
            ((exampleEnv scenarioB_prefList 1 50 (fun _ => some 50) badRes).prefDbKey 0)
            (exampleAlignment false .SCORE_COV_SEQID true).evalThr
            (exampleAlignment false .SCORE_COV_SEQID true).mode))
      ∧ ∃ before after,
          serialize (exampleAlignment false .SCORE_COV_SEQID true)
            (exampleEnv scenarioB_prefList 1 50 (fun _ => some 50) badRes)
            [overrideIdentity true (badRes 1)]
          = before ++ serializeHit (exampleAlignment false .SCORE_COV_SEQID true)
            (exampleEnv scenarioB_prefList 1 50 (fun _ => some 50) badRes) r ++ after :=
  ⟨by decide!, by decide!, by decide!,
    identity_hit_present_when_consumed (exampleAlignment false .SCORE_COV_SEQID true)
      (exampleEnv scenarioB_prefList 1 50 (fun _ => some 50) badRes) 10 10 0
      { swResults := [overrideIdentity true (badRes 1)], passedNum := 1, rejected := 0,
        alignmentsNum := 1, fetched := [1], aligned := [1] }
      (by decide!) rfl (by decide) (Or.inr ⟨by decide!, rfl⟩)⟩

/-- Counterexample to claim C4 as stated: `sameQTDB = true`, query key 1,
candidates 2 then 1, `maxAlnNum = 1`.  Candidate 2 is accepted, the loop stops,
and the record holds the line of target 2 only: the self-hit is not in it. -/
theorem self_hit_absent_after_maxAlnNum :
    1 ∈ candidateKeys selfHitSecond
    ∧ isIdentity (exampleAlignment false .SCORE_COV_SEQID true)
        ((exampleEnv selfHitSecond 1 50 (fun _ => some 50) goodRes).prefDbKey 0) 1 = true
    ∧ queryLoop (exampleAlignment false .SCORE_COV_SEQID true)
        (exampleEnv selfHitSecond 1 50 (fun _ => some 50) goodRes) 1 10 0
      = some (.ok { swResults := [goodRes 2]
                    passedNum := 1
                    rejected := 0
                    alignmentsNum := 1
                    fetched := [2]
                    aligned := [2] })
    ∧ (¬ ∃ r, r ∈ listSort compareHits [goodRes 2] ∧ r.qcov = 1 ∧ r.dbcov = 1 ∧ r.seqId = 1)
    ∧ serialize (exampleAlignment false .SCORE_COV_SEQID true)
        (exampleEnv selfHitSecond 1 50 (fun _ => some 50) goodRes) [goodRes 2]
      = ['2', '\t', '1', '0', '0', '\t', '0', '.', '5', '0', '0', '\t', 'e', '\t', '0', '\t',
         '0', '\t', '0', '\t', '0', '\t', '0', '\t', '0', '\n'] := by
  refine ⟨by decide!, by decide!, by decide!, ?_, by decide!⟩
  rintro ⟨r, hr, hq, -, -⟩
  have hr2 : r = goodRes 2 := by
    have hl : listSort compareHits [goodRes 2] = [goodRes 2] := by decide!
    rw [hl] at hr
    simpa using hr
  rw [hr2] at hq
  revert hq
  decide!

/-! ### The order of the record -/

theorem notAfter_compareHits_iff (x y : result_t) :
    notAfter compareHits x y ↔ specOrder x y := by
  simp only [notAfter, compareHits, specOrder, Bool.or_eq_false_iff, Bool.and_eq_false_iff,
    decide_eq_false_iff_not]
  omega

theorem notAfter_compareHits_total (x y : result_t) :
    notAfter compareHits x y ∨ notAfter compareHits y x := by
  rw [notAfter_compareHits_iff, notAfter_compareHits_iff]
  unfold specOrder
  omega

theorem notAfter_compareHits_trans (x y z : result_t) :
    notAfter compareHits x y → notAfter compareHits y z → notAfter compareHits x z := by
  rw [notAfter_compareHits_iff, notAfter_compareHits_iff, notAfter_compareHits_iff]
  unfold specOrder
  omega

theorem specPairOrder_antisymm (x y : Int × Nat) :
    specPairOrder x y → specPairOrder y x → x = y := by
  intro hxy hyx
  unfold specPairOrder at hxy hyx
  apply Prod.ext <;> omega

theorem listSort_sorted (l : List result_t) :
    List.Pairwise specOrder (listSort compareHits l) := by
  haveI : IsTotal result_t (notAfter compareHits) := ⟨notAfter_compareHits_total⟩
  haveI : IsTrans result_t (notAfter compareHits) := ⟨notAfter_compareHits_trans⟩
  have h := List.sorted_insertionSort (notAfter compareHits) l
  exact List.Pairwise.imp (fun {x y} hxy => (notAfter_compareHits_iff x y).1 hxy) h

theorem listSort_pairs_sorted (l : List result_t) :
    List.Sorted specPairOrder ((listSort compareHits l).map (fun r => (r.score, r.dbKey))) := by
  unfold List.Sorted
  rw [List.pairwise_map]
  exact listSort_sorted l

/-- Claim C6: the lines of a record are those of the accepted hits in the
order descending `score`, ties by ascending `targetKey`: each line and the next
satisfy `score_k > score_{k+1}`, or `score_k = score_{k+1}` and
`targetKey_k ≤ targetKey_{k+1}`; the sorted hits are a permutation of the
accepted ones, and the sequence of (score, targetKey) pairs is the same for
every order in which the same hits were accepted. -/
theorem record_sorted_by_score_then_key (a : Alignment) (env : Env)
    (swResults : List result_t) :
    serialize a env swResults
      = ((listSort compareHits swResults).map (serializeHit a env)).flatten
    ∧ List.Chain' (fun x y => x.score > y.score ∨ (x.score = y.score ∧ x.dbKey ≤ y.dbKey))
        (listSort compareHits swResults)
    ∧ (listSort compareHits swResults).Perm swResults
    ∧ ∀ other : List result_t, other.Perm swResults →
        (listSort compareHits other).map (fun r => (r.score, r.dbKey))
          = (listSort compareHits swResults).map (fun r => (r.score, r.dbKey)) := by
  refine ⟨rfl, ?_, List.perm_insertionSort _ _, ?_⟩
  · exact List.Pairwise.chain' (listSort_sorted swResults)
  · intro other hperm
    haveI : IsAntisymm (Int × Nat) specPairOrder := ⟨specPairOrder_antisymm⟩
    refine List.eq_of_perm_of_sorted ?_ (listSort_pairs_sorted other)
      (listSort_pairs_sorted swResults)
    apply List.Perm.map
    exact ((List.perm_insertionSort _ other).trans hperm).trans
      (List.perm_insertionSort _ swResults).symm

/-- Scenario F: hits (score 100, key 5) then (score 100, key 2) are emitted as
key 2 then key 5. -/
theorem scenarioF_equal_scores_by_key :
    queryLoop (exampleAlignment false .SCORE_COV_SEQID false)
        (exampleEnv twoCandidates 1 50 (fun _ => some 50) goodRes) 10 10 0
      = some (.ok { swResults := [goodRes 5, goodRes 2]
                    passedNum := 2
                    rejected := 0
                    alignmentsNum := 2
                    fetched := [5, 2]
                    aligned := [5, 2] })
    ∧ (goodRes 5).score = 100 ∧ (goodRes 2).score = 100
    ∧ listSort compareHits [goodRes 5, goodRes 2] = [goodRes 2, goodRes 5]
    ∧ listSort compareHits [goodRes 2, goodRes 5] = [goodRes 2, goodRes 5]
    ∧ List.Chain' (fun x y => x.score > y.score ∨ (x.score = y.score ∧ x.dbKey ≤ y.dbKey))
        (listSort compareHits [goodRes 5, goodRes 2]) :=
  ⟨by decide!, by decide!, by decide!, by decide!, by decide!,
    (record_sorted_by_score_then_key (exampleAlignment false .SCORE_COV_SEQID false)
      (exampleEnv twoCandidates 1 50 (fun _ => some 50) goodRes) [goodRes 5, goodRes 2]).2.1⟩

/-! ### One record per query -/

theorem runCandidate_error (a : Alignment) (env : Env) (queryDbKey qL : Nat) (st : LoopState)
    (dbKey : Nat) (e : Fatal) (h : runCandidate a env queryDbKey qL st dbKey = .error e) :
    e = Fatal.missingTarget dbKey ∧ env.targetSeqL dbKey = none := by
  cases hf : env.targetSeqL dbKey with
  | none =>
    simp only [runCandidate, hf, Except.error.injEq] at h
    exact ⟨h.symm, rfl⟩
  | some dbL =>
    rw [runCandidate_of_fetch a env queryDbKey qL st dbKey dbL hf] at h
    split_ifs at h

theorem candidateKeysAux_succ (fuel : Nat) (lineSs : List Char) :
    candidateKeysAux (fuel + 1) lineSs =
      match getline lineSs '\t' with
      | none => []
      | some (val, lineSs1) =>
        parseDbKey val :: candidateKeysAux fuel (skipline (skipline lineSs1 '\t') '\n') := by
  rw [candidateKeysAux]

/-- The only fatal end of the loop is a candidate whose target is not in the
target store. -/
theorem runLoop_error (a : Alignment) (env : Env) (queryDbKey qL maxAlnNum maxRejected : Nat) :
    ∀ (fuel : Nat) (lineSs : List Char) (st : LoopState) (e : Fatal),
      runLoop a env queryDbKey qL maxAlnNum maxRejected fuel lineSs st = some (.error e) →
      ∃ dbKey, e = Fatal.missingTarget dbKey ∧ env.targetSeqL dbKey = none
        ∧ dbKey ∈ candidateKeysAux fuel lineSs := by
  intro fuel
  induction fuel with
  | zero => intro lineSs st e h; simp [runLoop] at h
  | succ n ih =>
    intro lineSs st e h
    rw [runLoop_succ] at h
    rw [candidateKeysAux_succ]
    cases hg : getline lineSs '\t' with
    | none => rw [hg] at h; simp at h
    | some p =>
      obtain ⟨val, rest⟩ := p
      rw [hg] at h
      simp only at h ⊢
      split_ifs at h with hc
      · cases hr : runCandidate a env queryDbKey qL st (parseDbKey val) with
        | error e1 =>
          rw [hr] at h
          simp only [Option.some.injEq, Except.error.injEq] at h
          obtain ⟨he, hnone⟩ := runCandidate_error a env queryDbKey qL st _ e1 hr
          exact ⟨parseDbKey val, h ▸ he, hnone, List.mem_cons_self _ _⟩
        | ok st1 =>
          rw [hr] at h
          obtain ⟨dbKey, he, hnone, hmem⟩ := ih _ st1 e h
          exact ⟨dbKey, he, hnone, List.mem_cons_of_mem _ hmem⟩
      · simp at h

theorem runLoop_nil (a : Alignment) (env : Env) (queryDbKey qL maxAlnNum maxRejected : Nat)
    (fuel : Nat) (st : LoopState) :
    runLoop a env queryDbKey qL maxAlnNum maxRejected (fuel + 1) [] st = some (.ok st) := by
  rw [runLoop_succ]
  rfl

/-- Claim C7: for a query whose sequence exists, either a consumed candidate's
target is missing from the target store (the fatal error naming it), or exactly
one record is appended to the output, keyed by the query key of the prefilter
record, also when no hit is accepted; for an empty prefilter value the record
is empty and the aligner is never invoked. -/
theorem runId_writes_one_record (a : Alignment) (env : Env)
    (maxAlnNum maxRejected : Nat) (rs : RunState) (id qL : Nat)
    (hq : env.querySeqL (env.prefDbKey id) = some qL) :
    (∃ dbKey, dbKey ∈ candidateKeys (env.prefData id) ∧ env.targetSeqL dbKey = none
      ∧ runId a env maxAlnNum maxRejected rs id = some (.error (Fatal.missingTarget dbKey)))
    ∨ (∃ st, queryLoop a env maxAlnNum maxRejected id = some (.ok st)
      ∧ runId a env maxAlnNum maxRejected rs id =
          some (.ok { dbw := rs.dbw ++ [(SSTR (env.prefDbKey id), serialize a env st.swResults)]
                      alignmentsNum := rs.alignmentsNum + st.alignmentsNum
                      totalPassedNum := rs.totalPassedNum + st.passedNum })
      ∧ (st.swResults = [] → serialize a env st.swResults = [])
      ∧ (env.prefData id = [] →
          serialize a env st.swResults = [] ∧ st.alignmentsNum = 0 ∧ st.aligned = []
            ∧ st.fetched = [])) := by
  have hql : queryLoop a env maxAlnNum maxRejected id =
      runLoop a env (env.prefDbKey id) qL maxAlnNum maxRejected ((env.prefData id).length + 1)
        (env.prefData id) LoopState.init := by
    simp only [queryLoop, hq]
  obtain ⟨r, hr⟩ := runLoop_total a env (env.prefDbKey id) qL maxAlnNum maxRejected
    ((env.prefData id).length + 1) (env.prefData id) LoopState.init (Nat.lt_succ_self _)
  cases r with
  | error e =>
    left
    obtain ⟨dbKey, he, hnone, hmem⟩ := runLoop_error a env (env.prefDbKey id) qL maxAlnNum
      maxRejected _ _ _ e hr
    refine ⟨dbKey, hmem, hnone, ?_⟩
    simp only [runId, hql, hr, he]
  | ok st =>
    right
    refine ⟨st, hql.trans hr, ?_, ?_, ?_⟩
    · simp only [runId, hql, hr]
    · intro hnil
      rw [hnil]
      rfl
    · intro hempty
      rw [hempty, runLoop_nil] at hr
      simp only [Option.some.injEq, Except.ok.injEq] at hr
      rw [← hr]
      exact ⟨rfl, rfl, rfl, rfl⟩

/-- Scenario A: the empty prefilter value gives one empty record under the
query's key. -/
theorem scenarioA_empty_record :
    scenarioA_env.prefData 0 = []
    ∧ scenarioA_env.querySeqL (scenarioA_env.prefDbKey 0) = some 50
    ∧ runId (exampleAlignment false .SCORE_COV_SEQID false) scenarioA_env 10 10
        { dbw := [], alignmentsNum := 0, totalPassedNum := 0 } 0
      = some (.ok { dbw := [(['1'], [])], alignmentsNum := 0, totalPassedNum := 0 })
    ∧ ∃ st, queryLoop (exampleAlignment false .SCORE_COV_SEQID false) scenarioA_env 10 10 0
          = some (.ok st)
        ∧ serialize (exampleAlignment false .SCORE_COV_SEQID false) scenarioA_env st.swResults = []
        ∧ st.alignmentsNum = 0 ∧ st.aligned = [] := by
  refine ⟨rfl, rfl, by decide!, ?_⟩
  rcases runId_writes_one_record (exampleAlignment false .SCORE_COV_SEQID false) scenarioA_env
    10 10 { dbw := [], alignmentsNum := 0, totalPassedNum := 0 } 0 50 rfl with
    ⟨dbKey, hmem, _, _⟩ | ⟨st, hloop, _, _, hempty⟩
  · have hnil : candidateKeys (scenarioA_env.prefData 0) = [] := by decide
    rw [hnil] at hmem
    cases hmem
  · obtain ⟨hrec, hnum, haligned, _⟩ := hempty rfl
    exact ⟨st, hloop, hrec, hnum, haligned⟩

/-! ### The candidate parser -/

theorem takeWhile_ne_append (v rest : List Char) (delim : Char) (hv : delim ∉ v) :
    (v ++ delim :: rest).takeWhile (fun c => c != delim) = v := by
  induction v with
  | nil => simp
  | cons c t ih =>
    have hc : c ≠ delim := fun h => hv (h ▸ List.mem_cons_self _ _)
    have ht : delim ∉ t := fun h => hv (List.mem_cons_of_mem _ h)
    simp [List.takeWhile_cons, hc, ih ht]

theorem dropWhile_ne_append (v rest : List Char) (delim : Char) (hv : delim ∉ v) :
    (v ++ delim :: rest).dropWhile (fun c => c != delim) = delim :: rest := by
  induction v with
  | nil => simp
  | cons c t ih =>
    have hc : c ≠ delim := fun h => hv (h ▸ List.mem_cons_self _ _)
    have ht : delim ∉ t := fun h => hv (List.mem_cons_of_mem _ h)
    simp [List.dropWhile_cons, hc, ih ht]

theorem takeWhile_ne_all (v : List Char) (delim : Char) (hv : delim ∉ v) :
    v.takeWhile (fun c => c != delim) = v := by
  induction v with
  | nil => simp
  | cons c t ih =>
    have hc : c ≠ delim := fun h => hv (h ▸ List.mem_cons_self _ _)
    have ht : delim ∉ t := fun h => hv (List.mem_cons_of_mem _ h)
    simp [List.takeWhile_cons, hc, ih ht]

theorem dropWhile_ne_all (v : List Char) (delim : Char) (hv : delim ∉ v) :
    v.dropWhile (fun c => c != delim) = [] := by
  induction v with
  | nil => simp
  | cons c t ih =>
    have hc : c ≠ delim := fun h => hv (h ▸ List.mem_cons_self _ _)
    have ht : delim ∉ t := fun h => hv (List.mem_cons_of_mem _ h)
    simp [List.dropWhile_cons, hc, ih ht]

/-- A field followed by its delimiter is read whole and the delimiter dropped. -/
theorem getline_field (v rest : List Char) (delim : Char) (hv : delim ∉ v) :
    getline (v ++ delim :: rest) delim = some (v, rest) := by
  cases hl : v ++ delim :: rest with
  | nil => simp at hl
  | cons c t =>
    simp only [getline]
    rw [← hl, takeWhile_ne_append v rest delim hv, dropWhile_ne_append v rest delim hv]
    rfl

theorem skipline_field (v rest : List Char) (delim : Char) (hv : delim ∉ v) :
    skipline (v ++ delim :: rest) delim = rest := by
  simp only [skipline, getline_field v rest delim hv]

/-- A last field that runs to the end of the input leaves the stream empty. -/
theorem skipline_last (v : List Char) (delim : Char) (hv : delim ∉ v) :
    skipline v delim = [] := by
  cases v with
  | nil => rfl
  | cons c t =>
    simp only [skipline, getline]
    rw [dropWhile_ne_all (c :: t) delim hv]
    rfl

/-- The stream operations of one iteration on a triple that is followed by
`'\n'` and further input. -/
theorem triple_then_newline (t : List Char × List Char × List Char) (rest : List Char)
    (h1 : '\t' ∉ t.1) (h2 : '\t' ∉ t.2.1) (h3 : '\n' ∉ t.2.2) :
    ∃ lineSs1, getline (tripleLine t ++ '\n' :: rest) '\t' = some (t.1, lineSs1)
      ∧ skipline (skipline lineSs1 '\t') '\n' = rest := by
  refine ⟨t.2.1 ++ '\t' :: (t.2.2 ++ '\n' :: rest), ?_, ?_⟩
  · have : tripleLine t ++ '\n' :: rest = t.1 ++ '\t' :: (t.2.1 ++ '\t' :: (t.2.2 ++ '\n' :: rest)) := by
      simp [tripleLine]
    rw [this, getline_field _ _ _ h1]
  · rw [skipline_field _ _ _ h2, skipline_field _ _ _ h3]

/-- The stream operations of one iteration on a last triple without `'\n'`. -/
theorem triple_at_end (t : List Char × List Char × List Char)
    (h1 : '\t' ∉ t.1) (h2 : '\t' ∉ t.2.1) (h3 : '\n' ∉ t.2.2) :
    ∃ lineSs1, getline (tripleLine t) '\t' = some (t.1, lineSs1)
      ∧ skipline (skipline lineSs1 '\t') '\n' = [] := by
  refine ⟨t.2.1 ++ '\t' :: t.2.2, ?_, ?_⟩
  · unfold tripleLine
    rw [getline_field _ _ _ h1]
  · rw [skipline_field _ _ _ h2, skipline_last _ _ h3]

theorem candidateKeysAux_nil (fuel : Nat) : candidateKeysAux fuel [] = [] := by
  cases fuel with
  | zero => rfl
  | succ n => rw [candidateKeysAux_succ]; rfl

/-- The keys of a list of triples, with or without the final `'\n'`. -/
theorem candidateKeysAux_joinTriples (tail : List Char) (htail : tail = [] ∨ tail = ['\n']) :
    ∀ (triples : List (List Char × List Char × List Char)) (fuel : Nat),
      triples ≠ [] →
      (∀ t ∈ triples, '\t' ∉ t.1 ∧ '\t' ∉ t.2.1 ∧ '\n' ∉ t.2.2) →
      (joinTriples triples ++ tail).length < fuel →
      candidateKeysAux fuel (joinTriples triples ++ tail)
        = triples.map (fun t => parseDbKey t.1) := by
  intro triples
  induction triples with
  | nil => intro fuel h; exact absurd rfl h
  | cons t ts ih =>
    intro fuel _ hwf hfuel
    obtain ⟨n, rfl⟩ : ∃ n, fuel = n + 1 := ⟨fuel - 1, by omega⟩
    obtain ⟨h1, h2, h3⟩ := hwf t (List.mem_cons_self _ _)
    rw [candidateKeysAux_succ]
    cases ts with
    | nil =>
      rcases htail with htl | htl
      · obtain ⟨l1, hg, hs⟩ := triple_at_end t h1 h2 h3
        simp only [joinTriples, htl, List.append_nil, hg, hs, candidateKeysAux_nil,
          List.map_cons, List.map_nil]
      · obtain ⟨l1, hg, hs⟩ := triple_then_newline t [] h1 h2 h3
        simp only [joinTriples, htl, hg, hs, candidateKeysAux_nil, List.map_cons, List.map_nil]
    | cons t2 ts2 =>
      obtain ⟨l1, hg, hs⟩ := triple_then_newline t (joinTriples (t2 :: ts2) ++ tail) h1 h2 h3
      have hjoin : joinTriples (t :: t2 :: ts2) ++ tail
          = tripleLine t ++ '\n' :: (joinTriples (t2 :: ts2) ++ tail) := by
        simp [joinTriples]
      rw [hjoin] at hfuel ⊢
      simp only [hg, hs, List.map_cons]
      have hlen : (joinTriples (t2 :: ts2) ++ tail).length < n := by
        simp only [List.length_append, List.length_cons] at hfuel ⊢
        omega
      rw [ih n (List.cons_ne_nil _ _) (fun x hx => hwf x (List.mem_cons_of_mem _ hx)) hlen]
      rfl

theorem runCandidate_fetched (a : Alignment) (env : Env) (queryDbKey qL : Nat) (st : LoopState)
    (dbKey : Nat) (hf : env.targetSeqL dbKey ≠ none) :
    ∃ st1, runCandidate a env queryDbKey qL st dbKey = .ok st1
      ∧ st1.fetched = st.fetched ++ [dbKey]
      ∧ st1.passedNum ≤ st.passedNum + 1
      ∧ st1.rejected ≤ st.rejected + 1 := by
  cases hc : runCandidate a env queryDbKey qL st dbKey with
  | error e => exact absurd (runCandidate_error a env queryDbKey qL st dbKey e hc).2 hf
  | ok st1 =>
    refine ⟨st1, rfl, ?_⟩
    obtain ⟨dbL, _, hcase | hcase | hcase⟩ := runCandidate_ok_cases a env queryDbKey qL st dbKey st1 hc
    · rw [hcase.2.2]
      exact ⟨rfl, Nat.le_succ _, Nat.le_refl _⟩
    · rw [hcase.2.2]
      exact ⟨rfl, Nat.le_refl _, Nat.zero_le _⟩
    · rw [hcase.2.2]
      exact ⟨rfl, Nat.le_succ _, Nat.le_refl _⟩

/-- Without early termination and without a missing target the loop fetches
every candidate of the list, in the order of the list. -/
theorem runLoop_fetches_all (a : Alignment) (env : Env)
    (queryDbKey qL maxAlnNum maxRejected : Nat) :
    ∀ (fuel : Nat) (lineSs : List Char) (st : LoopState),
      lineSs.length < fuel →
      st.passedNum + (candidateKeysAux fuel lineSs).length ≤ maxAlnNum →
      st.rejected + (candidateKeysAux fuel lineSs).length ≤ maxRejected →
      (∀ dbKey ∈ candidateKeysAux fuel lineSs, env.targetSeqL dbKey ≠ none) →
      ∃ st2, runLoop a env queryDbKey qL maxAlnNum maxRejected fuel lineSs st = some (.ok st2)
        ∧ st2.fetched = st.fetched ++ candidateKeysAux fuel lineSs := by
  intro fuel
  induction fuel with
  | zero => intro lineSs st h; omega
  | succ n ih =>
    intro lineSs st hfuel hp hr hall
    rw [runLoop_succ]
    rw [candidateKeysAux_succ] at hp hr hall ⊢
    cases hg : getline lineSs '\t' with
    | none => exact ⟨st, rfl, by simp⟩
    | some p =>
      obtain ⟨val, rest⟩ := p
      rw [hg] at hp hr hall
      simp only [List.length_cons] at hp hr
      simp only
      rw [if_pos ⟨by omega, by omega⟩]
      obtain ⟨st1, hc, hf1, hp1, hr1⟩ := runCandidate_fetched a env queryDbKey qL st
        (parseDbKey val) (hall _ (List.mem_cons_self _ _))
      rw [hc]
      simp only
      have hlen := candidate_rest_length_lt lineSs val rest hg
      obtain ⟨st2, hrun, hf2⟩ := ih (skipline (skipline rest '\t') '\n') st1 (by omega)
        (by omega) (by omega) (fun k hk => hall k (List.mem_cons_of_mem _ hk))
      refine ⟨st2, hrun, ?_⟩
      rw [hf2, hf1, List.append_assoc]
      rfl

/-- Claim C10: for a prefilter value of `n ≥ 1` triples
`<targetKey>\t<prefScore>\t<prefEval>` separated by `'\n'` (no tab in the first
two fields, no newline in the third), the parsed target keys are the keys of
the triples in the order of the value, with and without a final `'\n'`; and
without early termination (`n ≤ maxAlnNum`, `n ≤ maxRejected`, no missing
target) the loop fetches the candidates in exactly that order. -/
theorem candidates_independent_of_final_newline
    (triples : List (List Char × List Char × List Char)) (hne : triples ≠ [])
    (hwf : ∀ t ∈ triples, '\t' ∉ t.1 ∧ '\t' ∉ t.2.1 ∧ '\n' ∉ t.2.2) :
    candidateKeys (joinTriples triples) = triples.map (fun t => parseDbKey t.1)
    ∧ candidateKeys (joinTriples triples ++ ['\n']) = triples.map (fun t => parseDbKey t.1)
    ∧ ∀ (a : Alignment) (env : Env) (queryDbKey qL maxAlnNum maxRejected : Nat)
        (tail : List Char), tail = [] ∨ tail = ['\n'] →
        triples.length ≤ maxAlnNum → triples.length ≤ maxRejected →
        (∀ t ∈ triples, env.targetSeqL (parseDbKey t.1) ≠ none) →
        ∃ st, runLoop a env queryDbKey qL maxAlnNum maxRejected
            ((joinTriples triples ++ tail).length + 1) (joinTriples triples ++ tail)
            LoopState.init = some (.ok st)
          ∧ st.fetched = triples.map (fun t => parseDbKey t.1) := by
  have hkeys : ∀ tail : List Char, tail = [] ∨ tail = ['\n'] →
      candidateKeysAux ((joinTriples triples ++ tail).length + 1) (joinTriples triples ++ tail)
        = triples.map (fun t => parseDbKey t.1) :=
    fun tail htail =>
      candidateKeysAux_joinTriples tail htail triples _ hne hwf (Nat.lt_succ_self _)
  refine ⟨?_, hkeys ['\n'] (Or.inr rfl), ?_⟩
  · have h := hkeys [] (Or.inl rfl)
    rw [List.append_nil] at h
    exact h
  · intro a env queryDbKey qL maxAlnNum maxRejected tail htail hA hR hall
    have hk := hkeys tail htail
    obtain ⟨st, hrun, hf⟩ := runLoop_fetches_all a env queryDbKey qL maxAlnNum maxRejected
      ((joinTriples triples ++ tail).length + 1) (joinTriples triples ++ tail) LoopState.init
      (Nat.lt_succ_self _)
      (by rw [hk, List.length_map]; simpa [LoopState.init] using hA)
      (by rw [hk, List.length_map]; simpa [LoopState.init] using hR)
      (by
        rw [hk]
        intro k hkmem
        obtain ⟨t, ht, rfl⟩ := List.mem_map.1 hkmem
        exact hall t ht)
    refine ⟨st, hrun, ?_⟩
    rw [hf, hk]
    rfl

/-- Two triples: the keys are 5, 2 with and without the final newline. -/
theorem two_triples_with_and_without_newline :
    exampleTriples ≠ []
    ∧ (∀ t ∈ exampleTriples, '\t' ∉ t.1 ∧ '\t' ∉ t.2.1 ∧ '\n' ∉ t.2.2)
    ∧ joinTriples exampleTriples
        = ['5', '\t', '5', '0', '\t', '1', 'e', '-', '3', '\n',
           '2', '\t', '5', '0', '\t', '1', 'e', '-', '3']
    ∧ exampleTriples.map (fun t => parseDbKey t.1) = [5, 2]
    ∧ candidateKeys (joinTriples exampleTriples) = exampleTriples.map (fun t => parseDbKey t.1)
    ∧ candidateKeys (joinTriples exampleTriples ++ ['\n'])
        = exampleTriples.map (fun t => parseDbKey t.1) :=
  ⟨by decide, by decide, by decide, by decide,
    (candidates_independent_of_final_newline exampleTriples (by decide) (by decide)).1,
    (candidates_independent_of_final_newline exampleTriples (by decide) (by decide)).2.1⟩

/-! ### The two formulations of the length pre-screen -/

/-- Claim C17: for all sequence lengths `q, t ≥ 1` and every `covThr`,
`min(q,t)/max(q,t) < covThr` holds if and only if `q/t < covThr` or
`t/q < covThr`, in exact rational arithmetic; the second form is the test of
lines 236-237 read in exact arithmetic.  The code takes the lengths and the
quotients in `float`: there too its two-sided test is the one-sided test on
`min/max`. -/
theorem length_prescreen_formulations_agree (q t : Nat) (covThr : ℚ) (hq : 1 ≤ q) (ht : 1 ≤ t) :
    ((((min q t : Nat) : ℚ) / ((max q t : Nat) : ℚ) < covThr)
      ↔ ((q : ℚ) / (t : ℚ) < covThr ∨ (t : ℚ) / (q : ℚ) < covThr))
    ∧ (lengthScreenExact q t covThr = true
      ↔ ((q : ℚ) / (t : ℚ) < covThr ∨ (t : ℚ) / (q : ℚ) < covThr))
    ∧ (lengthScreen q t covThr = true
      ↔ (roundFloat (roundFloat (q : ℚ) / roundFloat (t : ℚ)) < covThr
          ∨ roundFloat (roundFloat (t : ℚ) / roundFloat (q : ℚ)) < covThr))
    ∧ (lengthScreen q t covThr = true
      ↔ roundFloat (roundFloat ((min q t : Nat) : ℚ) / roundFloat ((max q t : Nat) : ℚ))
          < covThr) := by
  have hq0 : q ≠ 0 := by omega
  have ht0 : t ≠ 0 := by omega
  have hcode : lengthScreenExact q t covThr = true
      ↔ ((q : ℚ) / (t : ℚ) < covThr ∨ (t : ℚ) / (q : ℚ) < covThr) := by
    simp [lengthScreenExact, fdivLtExact, hq0, ht0]
  refine ⟨?_, hcode, ?_, ?_⟩
  · rw [← hcode]
    exact (lengthScreenExact_iff_min_max q t covThr (Or.inl hq0)).symm
  · simp [lengthScreen, fdivLt, hq0, ht0]
  · rw [lengthScreen_iff_float_min_max]
    have hmax : max q t ≠ 0 := by
      have := Nat.le_max_left q t
      omega
    simp [hmax]

/-- The lengths 10 and 100 at `covThr = 0.8`: both formulations hold. -/
theorem prescreen_formulations_at_10_100 :
    (1 : Nat) ≤ 10 ∧ (1 : Nat) ≤ 100
    ∧ ((((min 10 100 : Nat) : ℚ) / ((max 10 100 : Nat) : ℚ) < 8 / 10)
      ↔ (((10 : Nat) : ℚ) / ((100 : Nat) : ℚ) < 8 / 10 ∨ ((100 : Nat) : ℚ) / ((10 : Nat) : ℚ) < 8 / 10))
    ∧ lengthScreen 10 100 (8 / 10) = true :=
  ⟨by decide, by decide,
    (length_prescreen_formulations_agree 10 100 (8 / 10) (by decide) (by decide)).1,
    by decide!⟩

/-! ### The acceptance test in `SCORE_ONLY` -/

theorem ctor_fast_auto_score_only (querySeqDB targetSeqDB : List Char) (par : Parameters)
    (a : Alignment) (hreq : par.alignmentMode = AlignmentMode.FAST_AUTO)
    (hctor : Alignment.ctor querySeqDB targetSeqDB par = .ok a)
    (hmode : a.mode = AlignmentMode.SCORE_ONLY) : a.covThr = 0 ∧ a.seqIdThr = 0 := by
  rw [ctor_spec] at hctor
  split_ifs at hctor with h
  cases hctor
  simp only [specEffectiveMode, hreq] at hmode
  split_ifs at hmode with h1 h2 h3
  exact h2

/-- Claim C15, as amended: in mode `SCORE_ONLY`, for a candidate that is not an
identity hit, reaches the aligner and gets `qcov = dbcov = seqId = 0`, with
`covThr, seqIdThr ≥ 0`, the candidate is accepted if and only if
`eval ≤ evalThr` and `covThr = 0` and `seqIdThr = 0`; when the mode was resolved
from `FAST_AUTO` both thresholds are 0, and acceptance is the e-value check. -/
theorem score_only_accept_iff (a : Alignment) (env : Env) (queryDbKey qL : Nat)
    (st : LoopState) (dbKey dbL : Nat) (res : result_t)
    (hmode : a.mode = AlignmentMode.SCORE_ONLY)
    (hid : isIdentity a queryDbKey dbKey = false)
    (hfetch : env.targetSeqL dbKey = some dbL)
    (hscreen : ¬ (a.fragmentMerge = false ∧ lengthScreen qL dbL a.covThr = true))
    (hres : env.getSWResult queryDbKey st.alignmentsNum dbKey a.evalThr a.mode = res)
    (hzero : res.qcov = 0 ∧ res.dbcov = 0 ∧ res.seqId = 0)
    (hcov : 0 ≤ a.covThr) (hsid : 0 ≤ a.seqIdThr) :
    ((res.eval ≤ a.evalThr ∧ a.covThr = 0 ∧ a.seqIdThr = 0) →
      runCandidate a env queryDbKey qL st dbKey =
        .ok { swResults := st.swResults ++ [res]
              passedNum := st.passedNum + 1
              rejected := 0
              alignmentsNum := st.alignmentsNum + 1
              fetched := st.fetched ++ [dbKey]
              aligned := st.aligned ++ [dbKey] })
    ∧ (¬ (res.eval ≤ a.evalThr ∧ a.covThr = 0 ∧ a.seqIdThr = 0) →
      runCandidate a env queryDbKey qL st dbKey =
        .ok { swResults := st.swResults
              passedNum := st.passedNum
              rejected := st.rejected + 1
              alignmentsNum := st.alignmentsNum + 1
              fetched := st.fetched ++ [dbKey]
              aligned := st.aligned ++ [dbKey] })
    ∧ (∀ (querySeqDB targetSeqDB : List Char) (par : Parameters),
        par.alignmentMode = AlignmentMode.FAST_AUTO →
        Alignment.ctor querySeqDB targetSeqDB par = .ok a →
        a.covThr = 0 ∧ a.seqIdThr = 0) := by
  obtain ⟨hq, hd, hs⟩ := hzero
  have hspec : specAccept false res.eval res.seqId res.qcov res.dbcov
      a.evalThr a.seqIdThr a.covThr a.fragmentMerge a.mode
      ↔ (res.eval ≤ a.evalThr ∧ a.covThr = 0 ∧ a.seqIdThr = 0) := by
    simp only [specAccept, hmode, hq, hd, hs]
    constructor
    · rintro (h | ⟨h1, h2, h3, _⟩ | ⟨_, h | h, _⟩)
      · cases h
      · exact ⟨h1, le_antisymm h3 hcov, le_antisymm h2 hsid⟩
      · cases h
      · cases h
    · rintro ⟨h1, h2, h3⟩
      exact Or.inr (Or.inl ⟨h1, by rw [h3], by rw [h2], by rw [h2]⟩)
  have hrun := runCandidate_of_fetch a env queryDbKey qL st dbKey dbL hfetch
  rw [if_neg hscreen, hres, hid] at hrun
  refine ⟨fun h => ?_, fun h => ?_, ?_⟩
  · rw [if_pos ((accepts_iff_specAccept a false res).2 (hspec.2 h))] at hrun
    exact hrun
  · rw [if_neg (fun hc => h (hspec.1 ((accepts_iff_specAccept a false res).1 hc)))] at hrun
    exact hrun
  intro querySeqDB targetSeqDB par hreq hctor
  exact ctor_fast_auto_score_only querySeqDB targetSeqDB par a hreq hctor hmode

/-- A driver in `SCORE_ONLY` with both thresholds 0: the result with
`qcov = dbcov = seqId = 0` and `eval = 0.0001 ≤ evalThr` is accepted. -/
theorem score_only_zero_thresholds_accepts :
    scoreOnlyAlignment.mode = AlignmentMode.SCORE_ONLY
    ∧ isIdentity scoreOnlyAlignment 3 7 = false
    ∧ (exampleEnv [] 3 50 (fun _ => some 50) scoreOnlyRes).targetSeqL 7 = some 50
    ∧ ¬ (scoreOnlyAlignment.fragmentMerge = false
        ∧ lengthScreen 50 50 scoreOnlyAlignment.covThr = true)
    ∧ ((scoreOnlyRes 7).qcov = 0 ∧ (scoreOnlyRes 7).dbcov = 0 ∧ (scoreOnlyRes 7).seqId = 0)
    ∧ (0 : ℚ) ≤ scoreOnlyAlignment.covThr ∧ (0 : ℚ) ≤ scoreOnlyAlignment.seqIdThr
    ∧ (scoreOnlyRes 7).eval ≤ scoreOnlyAlignment.evalThr
    ∧ runCandidate scoreOnlyAlignment (exampleEnv [] 3 50 (fun _ => some 50) scoreOnlyRes)
        3 50 LoopState.init 7
      = .ok { swResults := [scoreOnlyRes 7]
              passedNum := 1
              rejected := 0
              alignmentsNum := 1
              fetched := [7]
              aligned := [7] } :=
  ⟨rfl, rfl, rfl, by decide!, ⟨rfl, rfl, rfl⟩, by decide!, by decide!, by decide!,
    (score_only_accept_iff scoreOnlyAlignment
      (exampleEnv [] 3 50 (fun _ => some 50) scoreOnlyRes) 3 50 LoopState.init 7 50
      (scoreOnlyRes 7) rfl rfl rfl (by decide!) rfl ⟨rfl, rfl, rfl⟩ (by decide!) (by decide!)).1
      (by decide!)⟩

/-- Counterexample to claim C15 as stated: a driver constructed for an explicit
`SCORE_ONLY` request with `covThr = 0.8`, `seqIdThr = 0.3` (both in [0,1]).  The
candidate is not an identity hit, passes the length pre-screen, and the aligner
returns `qcov = dbcov = seqId = 0` with `eval = 0.0001 ≤ evalThr = 0.001`; it is
rejected, because `qcov ≥ covThr` fails. -/
theorem score_only_positive_thresholds_reject :
    Alignment.ctor ['q'] ['t'] scoreOnlyPar = .ok (exampleAlignment false .SCORE_ONLY false)
    ∧ isIdentity (exampleAlignment false .SCORE_ONLY false) 3 7 = false
    ∧ lengthScreen 50 50 (exampleAlignment false .SCORE_ONLY false).covThr = false
    ∧ ((scoreOnlyRes 7).qcov = 0 ∧ (scoreOnlyRes 7).dbcov = 0 ∧ (scoreOnlyRes 7).seqId = 0)
    ∧ (scoreOnlyRes 7).eval ≤ (exampleAlignment false .SCORE_ONLY false).evalThr
    ∧ runCandidate (exampleAlignment false .SCORE_ONLY false)
        (exampleEnv [] 3 50 (fun _ => some 50) scoreOnlyRes) 3 50 LoopState.init 7
      = .ok { swResults := []
              passedNum := 0
              rejected := 1
              alignmentsNum := 1
              fetched := [7]
              aligned := [7] } :=
  ⟨rfl, rfl, by decide!, ⟨rfl, rfl, rfl⟩, by decide!, by decide!⟩

/-! ### Parsing of the target key -/

theorem foldl_digits (s : List Char) (acc : Nat) :
    s.foldl (fun acc c => 10 * acc + (c.toNat - '0'.toNat)) acc
      = acc * 10 ^ s.length + decimalValue s := by
  induction s generalizing acc with
  | nil => simp [decimalValue]
  | cons c t ih =>
    rw [List.foldl_cons, ih]
    simp only [decimalValue, List.reverse_cons, List.map_append, List.map_cons, List.map_nil,
      Nat.ofDigits_append, Nat.ofDigits_singleton, List.length_map, List.length_reverse,
      List.length_cons, digitValue]
    ring

theorem isspace_of_isDigit (c : Char) (h : c.isDigit = true) : isspace c = false := by
  rw [← Bool.not_eq_true]
  intro hs
  simp only [isspace, Bool.or_eq_true, beq_iff_eq] at hs
  rcases hs with ((((hs | hs) | hs) | hs) | hs) | hs <;> subst hs <;> revert h <;> decide

theorem not_sign_of_isDigit (c : Char) (h : c.isDigit = true) : c ≠ '-' ∧ c ≠ '+' := by
  constructor <;> intro hs <;> subst hs <;> revert h <;> decide

theorem takeWhile_isDigit_all (s : List Char) (h : ∀ c ∈ s, c.isDigit = true) :
    s.takeWhile Char.isDigit = s := by
  induction s with
  | nil => rfl
  | cons c t ih =>
    rw [List.takeWhile_cons, h c (List.mem_cons_self _ _),
      ih (fun x hx => h x (List.mem_cons_of_mem _ hx))]
    rfl

theorem strtoul_digits (s : List Char) (hne : s ≠ []) (h : ∀ c ∈ s, c.isDigit = true) :
    strtoul s = if decimalValue s > ULONG_MAX then ULONG_MAX else decimalValue s := by
  cases s with
  | nil => exact absurd rfl hne
  | cons c t =>
    have hc := h c (List.mem_cons_self _ _)
    have hsp := isspace_of_isDigit c hc
    obtain ⟨hm, hp⟩ := not_sign_of_isDigit c hc
    have hdrop : (c :: t).dropWhile isspace = c :: t := by
      rw [List.dropWhile_cons, hsp]
      rfl
    have hhm : ((some c : Option Char) == some '-') = false := by
      simpa using hm
    have hhp : ((some c : Option Char) == some '+') = false := by
      simpa using hp
    simp only [strtoul, hdrop, List.head?_cons, hhm, hhp, Bool.or_false, Bool.false_eq_true,
      if_false, takeWhile_isDigit_all (c :: t) h, foldl_digits, Nat.zero_mul, Nat.zero_add]

theorem strtoul_invalid (s : List Char) (h : numericallyInvalid s) : strtoul s = 0 := by
  unfold numericallyInvalid stripSpaceSign at h
  have hzero : ∀ (rest : List Char) (neg : Bool),
      (match rest with | [] => True | c :: _ => c.isDigit = false) →
      (if (rest.takeWhile Char.isDigit).foldl (fun acc c => 10 * acc + (c.toNat - '0'.toNat)) 0
            > ULONG_MAX then ULONG_MAX
        else if neg = true then
          (2 ^ 64 - (rest.takeWhile Char.isDigit).foldl
            (fun acc c => 10 * acc + (c.toNat - '0'.toNat)) 0) % 2 ^ 64
        else (rest.takeWhile Char.isDigit).foldl
          (fun acc c => 10 * acc + (c.toNat - '0'.toNat)) 0) = 0 := by
    intro rest neg hr
    have ht : rest.takeWhile Char.isDigit = [] := by
      cases rest with
      | nil => rfl
      | cons c t =>
        simp only at hr
        rw [List.takeWhile_cons, hr]
        rfl
    rw [ht]
    cases neg <;> simp [ULONG_MAX]
  unfold strtoul
  cases hd : s.dropWhile isspace with
  | nil =>
    rw [hd] at h
    simp
  | cons c t =>
    rw [hd] at h
    by_cases hm : c = '-'
    · subst hm
      simpa using hzero t true h
    · by_cases hp : c = '+'
      · subst hp
        simpa using hzero t false h
      · have h2 : (match c :: t with | [] => True | x :: _ => x.isDigit = false) := by
          revert h
          split <;> simp_all
        simpa [hm, hp] using hzero (c :: t) false h2

/-- Claim C18: the target key is the `strtoul` base-10 reading of the first
field, cut to 32 bits.  A non-empty string of decimal digits whose value fits in
32 bits gives that value; a numerically invalid field (empty, or not starting
with a decimal digit after optional white space and sign) gives 0, and there is
no separate error path: the loop handles the candidate as target key 0. -/
theorem target_key_strtoul (val : List Char) :
    (val ≠ [] → (∀ c ∈ val, c.isDigit = true) → decimalValue val < 2 ^ 32 →
      parseDbKey val = decimalValue val)
    ∧ (numericallyInvalid val →
      parseDbKey val = 0
      ∧ ∀ (a : Alignment) (env : Env) (queryDbKey qL maxAlnNum maxRejected fuel : Nat)
          (lineSs rest : List Char) (st : LoopState),
          getline lineSs '\t' = some (val, rest) →
          st.passedNum < maxAlnNum → st.rejected < maxRejected →
          runLoop a env queryDbKey qL maxAlnNum maxRejected (fuel + 1) lineSs st =
            match runCandidate a env queryDbKey qL st 0 with
            | .error e => some (.error e)
            | .ok st1 =>
              runLoop a env queryDbKey qL maxAlnNum maxRejected fuel
                (skipline (skipline rest '\t') '\n') st1) := by
  constructor
  · intro hne hdig hfit
    have hle : ¬ decimalValue val > ULONG_MAX := by
      unfold ULONG_MAX
      omega
    rw [parseDbKey, strtoul_digits val hne hdig, if_neg hle]
    exact Nat.mod_eq_of_lt hfit
  · intro hinv
    have hkey : parseDbKey val = 0 := by
      rw [parseDbKey, strtoul_invalid val hinv]
      rfl
    refine ⟨hkey, ?_⟩
    intro a env queryDbKey qL maxAlnNum maxRejected fuel lineSs rest st hget hp hr
    rw [runLoop_succ, hget]
    simp only [hkey, hp, hr, and_self, if_true]

/-- The fields `42`, `007` and `4294967295` give 42, 7 and 4294967295; the
fields `abc`, the empty field, ` -x` and `+` give 0. -/
theorem target_key_examples :
    parseDbKey ['4', '2'] = 42
    ∧ parseDbKey ['0', '0', '7'] = 7
    ∧ parseDbKey ['4', '2', '9', '4', '9', '6', '7', '2', '9', '5'] = 4294967295
    ∧ numericallyInvalid ['a', 'b', 'c'] ∧ parseDbKey ['a', 'b', 'c'] = 0
    ∧ numericallyInvalid [] ∧ parseDbKey [] = 0
    ∧ numericallyInvalid [' ', '-', 'x'] ∧ parseDbKey [' ', '-', 'x'] = 0
    ∧ numericallyInvalid ['+'] ∧ parseDbKey ['+'] = 0 :=
  ⟨(target_key_strtoul ['4', '2']).1 (by decide) (by decide) (by decide!),
    (target_key_strtoul ['0', '0', '7']).1 (by decide) (by decide) (by decide!),
    (target_key_strtoul ['4', '2', '9', '4', '9', '6', '7', '2', '9', '5']).1 (by decide)
      (by decide) (by decide!),
    by decide, ((target_key_strtoul ['a', 'b', 'c']).2 (by decide)).1,
    by decide, ((target_key_strtoul []).2 (by decide)).1,
    by decide, ((target_key_strtoul [' ', '-', 'x']).2 (by decide)).1,
    by decide, ((target_key_strtoul ['+']).2 (by decide)).1⟩

/-! ### The loop as a function of the parsed keys -/

/-- The loop on a prefilter list is the loop on its parsed keys. -/
theorem runLoop_eq_runKeys (a : Alignment) (env : Env)
    (queryDbKey qL maxAlnNum maxRejected : Nat) :
    ∀ (fuel : Nat) (lineSs : List Char) (st : LoopState), lineSs.length < fuel →
      runLoop a env queryDbKey qL maxAlnNum maxRejected fuel lineSs st
        = some (runKeys a env queryDbKey qL maxAlnNum maxRejected
            (candidateKeysAux fuel lineSs) st) := by
  intro fuel
  induction fuel with
  | zero => intro lineSs st h; omega
  | succ n ih =>
    intro lineSs st hfuel
    rw [runLoop_succ, candidateKeysAux_succ]
    cases hg : getline lineSs '\t' with
    | none => rfl
    | some p =>
      obtain ⟨val, rest⟩ := p
      simp only [runKeys]
      have hlen := candidate_rest_length_lt lineSs val rest hg
      split_ifs with hc
      · cases hr : runCandidate a env queryDbKey qL st (parseDbKey val) with
        | error e => rfl
        | ok st1 => exact ih _ st1 (by omega)
      · rfl

theorem runKeys_stopped (a : Alignment) (env : Env) (queryDbKey qL maxAlnNum maxRejected : Nat)
    (keys : List Nat) (st : LoopState)
    (h : ¬ (st.passedNum < maxAlnNum ∧ st.rejected < maxRejected)) :
    runKeys a env queryDbKey qL maxAlnNum maxRejected keys st = .ok st := by
  cases keys with
  | nil => rfl
  | cons k ks => simp only [runKeys, if_neg h]

/-- The loop on a list of keys followed by more keys: the loop on the first
part, then, from the state it ends in, the loop on the rest. -/
theorem runKeys_append (a : Alignment) (env : Env) (queryDbKey qL maxAlnNum maxRejected : Nat)
    (pre rest : List Nat) :
    ∀ st : LoopState,
      runKeys a env queryDbKey qL maxAlnNum maxRejected (pre ++ rest) st
        = match runKeys a env queryDbKey qL maxAlnNum maxRejected pre st with
          | .error e => .error e
          | .ok st1 => runKeys a env queryDbKey qL maxAlnNum maxRejected rest st1 := by
  induction pre with
  | nil => intro st; rfl
  | cons k ks ih =>
    intro st
    simp only [List.cons_append, runKeys]
    split_ifs with hc
    · cases hr : runCandidate a env queryDbKey qL st k with
      | error e => rfl
      | ok st1 => exact ih st1
    · exact (runKeys_stopped a env queryDbKey qL maxAlnNum maxRejected rest st hc).symm

/-- The keys fetched by the loop are a prefix of the keys it is given. -/
theorem runKeys_fetched_initial (a : Alignment) (env : Env)
    (queryDbKey qL maxAlnNum maxRejected : Nat) (keys : List Nat) :
    ∀ st st2 : LoopState,
      runKeys a env queryDbKey qL maxAlnNum maxRejected keys st = .ok st2 →
      ∃ n, st2.fetched = st.fetched ++ keys.take n := by
  induction keys with
  | nil =>
    intro st st2 h
    simp only [runKeys, Except.ok.injEq] at h
    exact ⟨0, by simp [h]⟩
  | cons k ks ih =>
    intro st st2 h
    simp only [runKeys] at h
    split_ifs at h with hc
    · cases hr : runCandidate a env queryDbKey qL st k with
      | error e => rw [hr] at h; cases h
      | ok st1 =>
        rw [hr] at h
        obtain ⟨n, hn⟩ := ih st1 st2 h
        have hf : st1.fetched = st.fetched ++ [k] := by
          obtain ⟨dbL, _, hcase | hcase | hcase⟩ :=
            runCandidate_ok_cases a env queryDbKey qL st k st1 hr
          · rw [hcase.2.2]; rfl
          · rw [hcase.2.2]; rfl
          · rw [hcase.2.2]; rfl
        exact ⟨n + 1, by rw [hn, hf]; simp⟩
    · simp only [Except.ok.injEq] at h
      exact ⟨0, by simp [h]⟩

/-- Without a missing target among the keys, and with fewer keys than either
bound, the loop goes through all of them. -/
theorem runKeys_all_present (a : Alignment) (env : Env)
    (queryDbKey qL maxAlnNum maxRejected : Nat) (keys : List Nat) :
    ∀ st : LoopState, (∀ k ∈ keys, env.targetSeqL k ≠ none) →
      ∃ st2, runKeys a env queryDbKey qL maxAlnNum maxRejected keys st = .ok st2
        ∧ st2.passedNum ≤ st.passedNum + keys.length
        ∧ st2.rejected ≤ st.rejected + keys.length := by
  induction keys with
  | nil => intro st _; exact ⟨st, rfl, Nat.le_refl _, Nat.le_refl _⟩
  | cons k ks ih =>
    intro st hall
    simp only [runKeys]
    split_ifs with hc
    · obtain ⟨st1, hr, _, hp1, hr1⟩ := runCandidate_fetched a env queryDbKey qL st k
        (hall k (List.mem_cons_self _ _))
      rw [hr]
      obtain ⟨st2, hrun, hp2, hr2⟩ := ih st1 (fun x hx => hall x (List.mem_cons_of_mem _ hx))
      refine ⟨st2, hrun, ?_, ?_⟩ <;> simp only [List.length_cons] <;> omega
    · exact ⟨st, rfl, by omega, by omega⟩

/-! ### Independence of the prefilter scores -/

theorem queryLoop_eq_runKeys (a : Alignment) (env : Env) (maxAlnNum maxRejected id : Nat) :
    queryLoop a env maxAlnNum maxRejected id =
      match env.querySeqL (env.prefDbKey id) with
      | none => some (.error (Fatal.missingQuery (env.prefDbKey id)))
      | some qL =>
        some (runKeys a env (env.prefDbKey id) qL maxAlnNum maxRejected
          (candidateKeys (env.prefData id)) LoopState.init) := by
  simp only [queryLoop]
  cases hq : env.querySeqL (env.prefDbKey id) with
  | none => rfl
  | some qL =>
    simp only
    exact runLoop_eq_runKeys a env (env.prefDbKey id) qL maxAlnNum maxRejected _ _ _
      (Nat.lt_succ_self _)

theorem runKeys_withPrefData (a : Alignment) (env : Env) (prefList : List Char)
    (queryDbKey qL maxAlnNum maxRejected : Nat) (keys : List Nat) :
    ∀ st : LoopState,
      runKeys a (env.withPrefData prefList) queryDbKey qL maxAlnNum maxRejected keys st
        = runKeys a env queryDbKey qL maxAlnNum maxRejected keys st := by
  induction keys with
  | nil => intro st; rfl
  | cons k ks ih =>
    intro st
    have hc : runCandidate a (env.withPrefData prefList) queryDbKey qL st k
        = runCandidate a env queryDbKey qL st k := rfl
    simp only [runKeys, hc]
    split_ifs
    · cases runCandidate a env queryDbKey qL st k with
      | error e => rfl
      | ok st1 => exact ih st1
    · rfl

theorem serialize_withPrefData (a : Alignment) (env : Env) (prefList : List Char)
    (swResults : List result_t) :
    serialize a (env.withPrefData prefList) swResults = serialize a env swResults := rfl

theorem candidateKeys_joinTriples (tail : List Char) (htail : tail = [] ∨ tail = ['\n'])
    (triples : List (List Char × List Char × List Char)) (hne : triples ≠ [])
    (hwf : ∀ t ∈ triples, '\t' ∉ t.1 ∧ '\t' ∉ t.2.1 ∧ '\n' ∉ t.2.2) :
    candidateKeys (joinTriples triples ++ tail) = triples.map (fun t => parseDbKey t.1) :=
  candidateKeysAux_joinTriples tail htail triples _ hne hwf (Nat.lt_succ_self _)

/-- Two prefilter values with the same key fields have the same candidate keys. -/
theorem candidateKeys_same_key_fields (tail : List Char) (htail : tail = [] ∨ tail = ['\n'])
    (triples1 triples2 : List (List Char × List Char × List Char))
    (hkeys : triples1.map (fun t => t.1) = triples2.map (fun t => t.1))
    (hwf1 : ∀ t ∈ triples1, '\t' ∉ t.1 ∧ '\t' ∉ t.2.1 ∧ '\n' ∉ t.2.2)
    (hwf2 : ∀ t ∈ triples2, '\t' ∉ t.1 ∧ '\t' ∉ t.2.1 ∧ '\n' ∉ t.2.2) :
    candidateKeys (joinTriples triples1 ++ tail) = candidateKeys (joinTriples triples2 ++ tail) := by
  by_cases h1 : triples1 = []
  · have h2 : triples2 = [] := by
      rw [h1] at hkeys
      exact List.map_eq_nil_iff.1 hkeys.symm
    rw [h1, h2]
  · have h2 : triples2 ≠ [] := by
      intro h2
      rw [h2] at hkeys
      exact h1 (List.map_eq_nil_iff.1 hkeys)
    rw [candidateKeys_joinTriples tail htail triples1 h1 hwf1,
      candidateKeys_joinTriples tail htail triples2 h2 hwf2]
    have e1 : triples1.map (fun t => parseDbKey t.1)
        = (triples1.map (fun t => t.1)).map parseDbKey := by
      rw [List.map_map]; rfl
    have e2 : triples2.map (fun t => parseDbKey t.1)
        = (triples2.map (fun t => t.1)).map parseDbKey := by
      rw [List.map_map]; rfl
    rw [e1, e2, hkeys]

/-- Claim C11: two prefilter values with the same sequence of target-key fields,
which differ only in their `prefScore` and `prefEval` fields (no tab in a key or
score field, no newline in an e-value field; both with or both without the
final newline), give the same loop result for the query: the same sequence of
aligner calls (`aligned`), the same accepted hits, the same counters, and the
same record written. -/
theorem output_independent_of_prefilter_scores (a : Alignment) (env : Env)
    (maxAlnNum maxRejected : Nat) (rs : RunState) (id : Nat)
    (triples1 triples2 : List (List Char × List Char × List Char)) (tail : List Char)
    (htail : tail = [] ∨ tail = ['\n'])
    (hkeys : triples1.map (fun t => t.1) = triples2.map (fun t => t.1))
    (hwf1 : ∀ t ∈ triples1, '\t' ∉ t.1 ∧ '\t' ∉ t.2.1 ∧ '\n' ∉ t.2.2)
    (hwf2 : ∀ t ∈ triples2, '\t' ∉ t.1 ∧ '\t' ∉ t.2.1 ∧ '\n' ∉ t.2.2) :
    queryLoop a (env.withPrefData (joinTriples triples1 ++ tail)) maxAlnNum maxRejected id
      = queryLoop a (env.withPrefData (joinTriples triples2 ++ tail)) maxAlnNum maxRejected id
    ∧ runId a (env.withPrefData (joinTriples triples1 ++ tail)) maxAlnNum maxRejected rs id
      = runId a (env.withPrefData (joinTriples triples2 ++ tail)) maxAlnNum maxRejected rs id := by
  have hq : queryLoop a (env.withPrefData (joinTriples triples1 ++ tail)) maxAlnNum maxRejected id
      = queryLoop a (env.withPrefData (joinTriples triples2 ++ tail)) maxAlnNum maxRejected id := by
    rw [queryLoop_eq_runKeys, queryLoop_eq_runKeys]
    have hk := candidateKeys_same_key_fields tail htail triples1 triples2 hkeys hwf1 hwf2
    simp only [Env.withPrefData, hk]
    cases env.querySeqL (env.prefDbKey id) with
    | none => rfl
    | some qL =>
      simp only
      exact congrArg some
        ((runKeys_withPrefData a env _ _ qL maxAlnNum maxRejected _ _).trans
          (runKeys_withPrefData a env _ _ qL maxAlnNum maxRejected _ _).symm)
  refine ⟨hq, ?_⟩
  unfold runId
  rw [hq]
  rfl

/-- The triples `5\t50\t1e-3`, `2\t50\t1e-3` and the triples `5\t99\t7`,
`2\t1\t0.5` give the same loop result: the aligner is called for 5, then 2. -/
theorem same_keys_other_scores_same_output :
    (([] : List Char) = [] ∨ ([] : List Char) = ['\n'])
    ∧ exampleTriples.map (fun t => t.1) = exampleTriplesOtherScores.map (fun t => t.1)
    ∧ (∀ t ∈ exampleTriples, '\t' ∉ t.1 ∧ '\t' ∉ t.2.1 ∧ '\n' ∉ t.2.2)
    ∧ (∀ t ∈ exampleTriplesOtherScores, '\t' ∉ t.1 ∧ '\t' ∉ t.2.1 ∧ '\n' ∉ t.2.2)
    ∧ joinTriples exampleTriples ≠ joinTriples exampleTriplesOtherScores
    ∧ queryLoop (exampleAlignment false .SCORE_COV_SEQID false)
        ((exampleEnv [] 1 50 (fun _ => some 50) goodRes).withPrefData
          (joinTriples exampleTriples ++ [])) 10 10 0
      = some (.ok { swResults := [goodRes 5, goodRes 2]
                    passedNum := 2
                    rejected := 0
                    alignmentsNum := 2
                    fetched := [5, 2]
                    aligned := [5, 2] })
    ∧ queryLoop (exampleAlignment false .SCORE_COV_SEQID false)
        ((exampleEnv [] 1 50 (fun _ => some 50) goodRes).withPrefData
          (joinTriples exampleTriples ++ [])) 10 10 0
      = queryLoop (exampleAlignment false .SCORE_COV_SEQID false)
        ((exampleEnv [] 1 50 (fun _ => some 50) goodRes).withPrefData
          (joinTriples exampleTriplesOtherScores ++ [])) 10 10 0 :=
  ⟨Or.inl rfl, by decide, by decide, by decide, by decide, by decide!,
    (output_independent_of_prefilter_scores (exampleAlignment false .SCORE_COV_SEQID false)
      (exampleEnv [] 1 50 (fun _ => some 50) goodRes) 10 10
      { dbw := [], alignmentsNum := 0, totalPassedNum := 0 } 0
      exampleTriples exampleTriplesOtherScores [] (Or.inl rfl) (by decide) (by decide)
      (by decide)).1⟩

/-! ### Missing target sequences -/

theorem runId_eq_runKeys (a : Alignment) (env : Env) (maxAlnNum maxRejected : Nat)
    (rs : RunState) (id qL : Nat) (hq : env.querySeqL (env.prefDbKey id) = some qL) :
    runId a env maxAlnNum maxRejected rs id =
      match runKeys a env (env.prefDbKey id) qL maxAlnNum maxRejected
          (candidateKeys (env.prefData id)) LoopState.init with
      | .error e => some (.error e)
      | .ok st =>
        some (.ok { dbw := rs.dbw ++ [(SSTR (env.prefDbKey id), serialize a env st.swResults)]
                    alignmentsNum := rs.alignmentsNum + st.alignmentsNum
                    totalPassedNum := rs.totalPassedNum + st.passedNum }) := by
  unfold runId
  rw [queryLoop_eq_runKeys, hq]
  simp only
  cases runKeys a env (env.prefDbKey id) qL maxAlnNum maxRejected
    (candidateKeys (env.prefData id)) LoopState.init <;> rfl

theorem runKeys_reaches_missing (a : Alignment) (env : Env)
    (queryDbKey qL maxAlnNum maxRejected : Nat) (pre post : List Nat) (k : Nat)
    (st st1 : LoopState)
    (hpre : runKeys a env queryDbKey qL maxAlnNum maxRejected pre st = .ok st1)
    (hp : st1.passedNum < maxAlnNum) (hr : st1.rejected < maxRejected)
    (hk : env.targetSeqL k = none) :
    runKeys a env queryDbKey qL maxAlnNum maxRejected (pre ++ k :: post) st
      = .error (Fatal.missingTarget k) := by
  rw [runKeys_append, hpre]
  simp only [runKeys, hp, hr, and_self, if_true, runCandidate, hk]

/-- Claim C12, as amended: for a query whose sequence exists, if the loop
reaches a candidate whose target has no sequence record (the loop on the keys
before it ends, not fatally, in a state in which the loop condition still
holds; in particular when all targets before it are present and fewer than
`maxAlnNum` and fewer than `maxRejected` candidates precede it), the query ends
in the fatal error naming that key and no record is written.  If every target
key of the record is present the error is never raised and the record is
written; and the error, when raised, names a candidate key of the record that
is missing from the target store. -/
theorem missing_target_fatal_when_reached (a : Alignment) (env : Env)
    (maxAlnNum maxRejected : Nat) (rs : RunState) (id qL : Nat)
    (hq : env.querySeqL (env.prefDbKey id) = some qL) :
    (∀ (pre post : List Nat) (k : Nat) (st1 : LoopState),
        candidateKeys (env.prefData id) = pre ++ k :: post →
        runKeys a env (env.prefDbKey id) qL maxAlnNum maxRejected pre LoopState.init = .ok st1 →
        st1.passedNum < maxAlnNum → st1.rejected < maxRejected →
        env.targetSeqL k = none →
        runId a env maxAlnNum maxRejected rs id = some (.error (Fatal.missingTarget k)))
    ∧ (∀ (pre post : List Nat) (k : Nat),
        candidateKeys (env.prefData id) = pre ++ k :: post →
        (∀ x ∈ pre, env.targetSeqL x ≠ none) →
        pre.length < maxAlnNum → pre.length < maxRejected →
        env.targetSeqL k = none →
        runId a env maxAlnNum maxRejected rs id = some (.error (Fatal.missingTarget k)))
    ∧ ((∀ x ∈ candidateKeys (env.prefData id), env.targetSeqL x ≠ none) →
        ∃ st, queryLoop a env maxAlnNum maxRejected id = some (.ok st)
          ∧ runId a env maxAlnNum maxRejected rs id =
            some (.ok { dbw := rs.dbw
                          ++ [(SSTR (env.prefDbKey id), serialize a env st.swResults)]
                        alignmentsNum := rs.alignmentsNum + st.alignmentsNum
                        totalPassedNum := rs.totalPassedNum + st.passedNum }))
    ∧ (∀ k, runId a env maxAlnNum maxRejected rs id = some (.error (Fatal.missingTarget k)) →
        env.targetSeqL k = none ∧ k ∈ candidateKeys (env.prefData id)) := by
  have hrun := runId_eq_runKeys a env maxAlnNum maxRejected rs id qL hq
  have hreach : ∀ (pre post : List Nat) (k : Nat) (st1 : LoopState),
      candidateKeys (env.prefData id) = pre ++ k :: post →
      runKeys a env (env.prefDbKey id) qL maxAlnNum maxRejected pre LoopState.init = .ok st1 →
      st1.passedNum < maxAlnNum → st1.rejected < maxRejected →
      env.targetSeqL k = none →
      runId a env maxAlnNum maxRejected rs id = some (.error (Fatal.missingTarget k)) := by
    intro pre post k st1 hkeys hpre hp hr hk
    rw [hrun, hkeys, runKeys_reaches_missing a env _ qL maxAlnNum maxRejected pre post k _ st1
      hpre hp hr hk]
  refine ⟨hreach, ?_, ?_, ?_⟩
  · intro pre post k hkeys hall hA hR hk
    obtain ⟨st1, hpre, hp1, hr1⟩ := runKeys_all_present a env (env.prefDbKey id) qL maxAlnNum
      maxRejected pre LoopState.init hall
    have h0p : LoopState.init.passedNum = 0 := rfl
    have h0r : LoopState.init.rejected = 0 := rfl
    exact hreach pre post k st1 hkeys hpre (by omega) (by omega) hk
  · intro hall
    obtain ⟨st, hst, _, _⟩ := runKeys_all_present a env (env.prefDbKey id) qL maxAlnNum
      maxRejected (candidateKeys (env.prefData id)) LoopState.init hall
    refine ⟨st, ?_, ?_⟩
    · rw [queryLoop_eq_runKeys, hq]
      simp only [hst]
    · rw [hrun, hst]
  · intro k hk
    have hql : queryLoop a env maxAlnNum maxRejected id = some (.error (Fatal.missingTarget k)) := by
      unfold runId at hk
      cases hqq : queryLoop a env maxAlnNum maxRejected id with
      | none => rw [hqq] at hk; cases hk
      | some r =>
        rw [hqq] at hk
        cases r with
        | error e =>
          simp only [Option.some.injEq, Except.error.injEq] at hk
          rw [hk]
        | ok st => simp at hk
    simp only [queryLoop, hq] at hql
    obtain ⟨k2, he, hnone, hmem⟩ := runLoop_error a env (env.prefDbKey id) qL maxAlnNum
      maxRejected _ _ _ _ hql
    cases he
    exact ⟨hnone, hmem⟩

/-- Candidates 5 then 2 with target 2 missing and `maxAlnNum = 10`: the loop
reaches candidate 2 and the query ends in the fatal error for key 2. -/
theorem missing_second_target_fatal :
    missingSecondEnv.querySeqL (missingSecondEnv.prefDbKey 0) = some 50
    ∧ candidateKeys (missingSecondEnv.prefData 0) = [5] ++ 2 :: []
    ∧ missingSecondEnv.targetSeqL 2 = none
    ∧ runId (exampleAlignment false .SCORE_COV_SEQID false) missingSecondEnv 10 10
        { dbw := [], alignmentsNum := 0, totalPassedNum := 0 } 0
      = some (.error (Fatal.missingTarget 2)) :=
  ⟨rfl, by decide, rfl,
    (missing_target_fatal_when_reached (exampleAlignment false .SCORE_COV_SEQID false)
      missingSecondEnv 10 10 { dbw := [], alignmentsNum := 0, totalPassedNum := 0 } 0 50
      rfl).2.1 [5] [] 2 (by decide) (by decide) (by decide) (by decide) rfl⟩

/-- Counterexample to claim C12 as stated: candidates 5 then 2, target 2 has no
sequence record, `maxAlnNum = 1`.  Candidate 5 is accepted, the loop stops, the
missing target is never fetched, and the record of the query is written. -/
theorem missing_target_after_stop_not_fatal :
    2 ∈ candidateKeys (missingSecondEnv.prefData 0)
    ∧ missingSecondEnv.targetSeqL 2 = none
    ∧ runId (exampleAlignment false .SCORE_COV_SEQID false) missingSecondEnv 1 10
        { dbw := [], alignmentsNum := 0, totalPassedNum := 0 } 0
      = some (.ok { dbw := [(['1'],
                      ['5', '\t', '1', '0', '0', '\t', '0', '.', '5', '0', '0', '\t', 'e',
                       '\t', '0', '\t', '0', '\t', '0', '\t', '0', '\t', '0', '\t', '0',
                       '\n'])]
                    alignmentsNum := 1
                    totalPassedNum := 1 }) :=
  ⟨by decide, rfl, by decide!⟩

/-! ### The flush buckets -/

theorem bucketIds_eq (dbFrom dbSize i : Nat) (h64 : dbFrom + dbSize < 2 ^ 64)
    (hi : i * flushSize < dbSize) :
    bucketIds dbFrom dbSize i
      = List.range' (dbFrom + i * flushSize) (min (dbSize - i * flushSize) flushSize) := by
  have hpow : (2 : Nat) ^ 64 = 18446744073709551616 := by norm_num
  rw [hpow] at h64
  have hi2 : i * 1000000 < dbSize := hi
  have hstart : bucketStart dbFrom i = dbFrom + i * 1000000 := by
    unfold bucketStart flushSize
    rw [hpow]
    apply Nat.mod_eq_of_lt
    omega
  have hinner : (dbSize + 18446744073709551616 - (i * 1000000) % 18446744073709551616)
      % 18446744073709551616 = dbSize - i * 1000000 := by
    omega
  have hsize : bucketSize dbSize i = min (dbSize - i * 1000000) 1000000 := by
    unfold bucketSize flushSize
    rw [hpow, hinner]
  have hle : min (dbSize - i * 1000000) 1000000 ≤ dbSize - i * 1000000 := Nat.min_le_left _ _
  have hmod : (dbFrom + i * 1000000 + min (dbSize - i * 1000000) 1000000)
      % 18446744073709551616
      = dbFrom + i * 1000000 + min (dbSize - i * 1000000) 1000000 := by
    apply Nat.mod_eq_of_lt
    omega
  unfold bucketIds
  rw [hstart, hsize, hpow, hmod, Nat.add_sub_cancel_left]
  rfl

theorem allIds_succ (dbFrom dbSize m : Nat) :
    allIds dbFrom dbSize (m + 1) = allIds dbFrom dbSize m ++ bucketIds dbFrom dbSize m := by
  simp [allIds, List.range_succ]

theorem lt_ceilDiv_flushSize (dbSize i : Nat) :
    i < ceilDiv dbSize flushSize ↔ i * flushSize < dbSize := by
  unfold ceilDiv flushSize
  split_ifs <;> omega

theorem ceilDiv_flushSize_eq_ceil (dbSize : Nat) :
    ceilDiv dbSize flushSize = ⌈(dbSize : ℚ) / (flushSize : ℚ)⌉₊ := by
  have hF : (0 : ℚ) < (flushSize : ℚ) := by
    unfold flushSize
    norm_num
  apply le_antisymm
  · rcases Nat.eq_zero_or_pos (ceilDiv dbSize flushSize) with h0 | hpos
    · rw [h0]
      exact Nat.zero_le _
    · have hlt : (ceilDiv dbSize flushSize - 1) * flushSize < dbSize :=
        (lt_ceilDiv_flushSize dbSize _).1 (by omega)
      have hq : ((ceilDiv dbSize flushSize - 1 : Nat) : ℚ) < (dbSize : ℚ) / (flushSize : ℚ) := by
        rw [lt_div_iff₀ hF]
        exact_mod_cast hlt
      have := Nat.lt_ceil.2 hq
      omega
  · rw [Nat.ceil_le, div_le_iff₀ hF]
    have hge : dbSize ≤ ceilDiv dbSize flushSize * flushSize := by
      by_contra hc
      have := (lt_ceilDiv_flushSize dbSize (ceilDiv dbSize flushSize)).2 (by omega)
      omega
    exact_mod_cast hge

theorem allIds_upTo (dbFrom dbSize : Nat) (h64 : dbFrom + dbSize < 2 ^ 64) :
    ∀ m, m ≤ ceilDiv dbSize flushSize →
      allIds dbFrom dbSize m = List.range' dbFrom (min (m * flushSize) dbSize) := by
  intro m
  induction m with
  | zero => intro _; simp [allIds]
  | succ k ih =>
    intro hk
    have hlt : k * flushSize < dbSize := (lt_ceilDiv_flushSize dbSize k).1 (by omega)
    rw [allIds_succ, ih (by omega), bucketIds_eq dbFrom dbSize k h64 hlt,
      Nat.min_eq_left (Nat.le_of_lt hlt), List.range'_append_1]
    congr 1
    have hlt2 : k * 1000000 < dbSize := hlt
    show min (dbSize - k * 1000000) 1000000 + k * 1000000 = min ((k + 1) * 1000000) dbSize
    omega

theorem allIds_eq_range (dbFrom dbSize : Nat) (h64 : dbFrom + dbSize < 2 ^ 64) :
    allIds dbFrom dbSize (ceilDiv dbSize flushSize) = List.range' dbFrom dbSize := by
  rw [allIds_upTo dbFrom dbSize h64 _ (Nat.le_refl _)]
  congr 1
  have hge : dbSize ≤ ceilDiv dbSize flushSize * flushSize := by
    by_contra hc
    have := (lt_ceilDiv_flushSize dbSize (ceilDiv dbSize flushSize)).2 (by omega)
    omega
  exact Nat.min_eq_right hge

theorem runId_ok (a : Alignment) (env : Env) (maxAlnNum maxRejected : Nat) (rs rs1 : RunState)
    (id : Nat) (h : runId a env maxAlnNum maxRejected rs id = some (.ok rs1)) :
    ∃ st, queryLoop a env maxAlnNum maxRejected id = some (.ok st)
      ∧ rs1 = { dbw := rs.dbw ++ [(SSTR (env.prefDbKey id), serialize a env st.swResults)]
                alignmentsNum := rs.alignmentsNum + st.alignmentsNum
                totalPassedNum := rs.totalPassedNum + st.passedNum } := by
  unfold runId at h
  cases hq : queryLoop a env maxAlnNum maxRejected id with
  | none => rw [hq] at h; cases h
  | some r =>
    rw [hq] at h
    cases r with
    | error e => simp at h
    | ok st =>
      simp only [Option.some.injEq, Except.ok.injEq] at h
      exact ⟨st, rfl, h.symm⟩

/-- A completed pass over a list of ordinals has appended one record per
ordinal, in the order of the list, keyed by the query key at the ordinal. -/
theorem runIds_keys (a : Alignment) (env : Env) (maxAlnNum maxRejected : Nat) (ids : List Nat) :
    ∀ rs rs2 : RunState, runIds a env maxAlnNum maxRejected rs ids = some (.ok rs2) →
      rs2.dbw.map (fun rec => rec.1)
        = rs.dbw.map (fun rec => rec.1) ++ ids.map (fun id => SSTR (env.prefDbKey id)) := by
  induction ids with
  | nil =>
    intro rs rs2 h
    simp only [runIds, Option.some.injEq, Except.ok.injEq] at h
    simp [h]
  | cons id rest ih =>
    intro rs rs2 h
    simp only [runIds] at h
    cases hr : runId a env maxAlnNum maxRejected rs id with
    | none => rw [hr] at h; cases h
    | some r =>
      rw [hr] at h
      cases r with
      | error e => simp at h
      | ok rs1 =>
        simp only at h
        obtain ⟨st, _, hrs1⟩ := runId_ok a env maxAlnNum maxRejected rs rs1 id hr
        rw [ih rs1 rs2 h, hrs1]
        simp

theorem run_ok (a : Alignment) (env : Env) (dbFrom dbSize maxAlnNum maxRejected : Nat)
    (summary : RunSummary)
    (h : run a env dbFrom dbSize maxAlnNum maxRejected = some (.ok summary)) :
    ∃ n, iterations dbSize = some n
      ∧ runIds a env maxAlnNum maxRejected { dbw := [], alignmentsNum := 0, totalPassedNum := 0 }
          (allIds dbFrom dbSize n) = some (.ok summary.rs)
      ∧ dbSize ≠ 0 := by
  unfold run at h
  cases hi : iterations dbSize with
  | none => rw [hi] at h; simp at h
  | some n =>
    rw [hi] at h
    simp only at h
    cases hr : runIds a env maxAlnNum maxRejected
        { dbw := [], alignmentsNum := 0, totalPassedNum := 0 } (allIds dbFrom dbSize n) with
    | none => rw [hr] at h; cases h
    | some r =>
      rw [hr] at h
      cases r with
      | error e => simp at h
      | ok rs =>
        simp only at h
        split_ifs at h with h0
        · simp at h
        · simp only [Option.some.injEq, Except.ok.injEq] at h
          refine ⟨n, rfl, ?_, h0⟩
          rw [← h]
          exact hr

/-- Claim C16, as amended: for every range with `dbFrom + dbSize < 2^64` and
`dbSize ≤ 2147483647 * 1000000` (the bounds of the loop do not wrap and the
bucket count fits the `int` it is converted to on line 172), the number of
buckets is `ceil(dbSize / 1000000)`; bucket `i` holds the ordinals from
`dbFrom + i*1000000`, `min(dbSize - i*1000000, 1000000)` of them, at least one
and at most 1,000,000; the buckets one after the other are exactly the ordinals
`dbFrom, ..., dbFrom + dbSize - 1`, each once (so the buckets are disjoint and
contiguous and their union is `[dbFrom, dbFrom + dbSize)`); and a completed run
has written one record per ordinal of the range, in that order. -/
theorem flush_buckets_partition (dbFrom dbSize : Nat) (h64 : dbFrom + dbSize < 2 ^ 64)
    (hint : dbSize ≤ INT_MAX * flushSize) :
    iterations dbSize = some (ceilDiv dbSize flushSize)
    ∧ ceilDiv dbSize flushSize = ⌈(dbSize : ℚ) / (flushSize : ℚ)⌉₊
    ∧ (∀ i, i < ceilDiv dbSize flushSize →
        bucketIds dbFrom dbSize i
            = List.range' (dbFrom + i * flushSize) (min (dbSize - i * flushSize) flushSize)
          ∧ 1 ≤ (bucketIds dbFrom dbSize i).length
          ∧ (bucketIds dbFrom dbSize i).length ≤ flushSize)
    ∧ allIds dbFrom dbSize (ceilDiv dbSize flushSize) = List.range' dbFrom dbSize
    ∧ (allIds dbFrom dbSize (ceilDiv dbSize flushSize)).Nodup
    ∧ (∀ id, id ∈ allIds dbFrom dbSize (ceilDiv dbSize flushSize)
        ↔ dbFrom ≤ id ∧ id < dbFrom + dbSize)
    ∧ (∀ (a : Alignment) (env : Env) (maxAlnNum maxRejected : Nat) (summary : RunSummary),
        run a env dbFrom dbSize maxAlnNum maxRejected = some (.ok summary) →
        summary.rs.dbw.map (fun rec => rec.1)
          = (List.range' dbFrom dbSize).map (fun id => SSTR (env.prefDbKey id))) := by
  have hiter : iterations dbSize = some (ceilDiv dbSize flushSize) := by
    unfold iterations
    rw [if_pos]
    by_contra hc
    have h1 : INT_MAX < ceilDiv dbSize flushSize := by omega
    have h2 := (lt_ceilDiv_flushSize dbSize INT_MAX).1 h1
    omega
  have hall := allIds_eq_range dbFrom dbSize h64
  refine ⟨hiter, ceilDiv_flushSize_eq_ceil dbSize, ?_, hall, ?_, ?_, ?_⟩
  · intro i hi
    have hlt : i * flushSize < dbSize := (lt_ceilDiv_flushSize dbSize i).1 hi
    have hb := bucketIds_eq dbFrom dbSize i h64 hlt
    have hlt2 : i * 1000000 < dbSize := hlt
    refine ⟨hb, ?_, ?_⟩
    · rw [hb, List.length_range']
      show 1 ≤ min (dbSize - i * 1000000) 1000000
      omega
    · rw [hb, List.length_range']
      exact Nat.min_le_right _ _
  · rw [hall]
    exact List.nodup_range' dbFrom dbSize
  · intro id
    rw [hall, List.mem_range'_1]
  · intro a env maxAlnNum maxRejected summary hrun
    obtain ⟨n, hn, hids, _⟩ := run_ok a env dbFrom dbSize maxAlnNum maxRejected summary hrun
    rw [hiter] at hn
    cases hn
    rw [hall] at hids
    have hk := runIds_keys a env maxAlnNum maxRejected _ _ _ hids
    rw [hk]
    rfl

/-- The range of 2,500,000 ordinals from ordinal 5: three buckets, the last of
500,000 ordinals starting at ordinal 2,000,005. -/
theorem flush_buckets_of_2500000 :
    5 + 2500000 < 2 ^ 64
    ∧ 2500000 ≤ INT_MAX * flushSize
    ∧ ceilDiv 2500000 flushSize = 3
    ∧ iterations 2500000 = some (ceilDiv 2500000 flushSize)
    ∧ bucketIds 5 2500000 2
        = List.range' (5 + 2 * flushSize) (min (2500000 - 2 * flushSize) flushSize)
    ∧ 5 + 2 * flushSize = 2000005
    ∧ min (2500000 - 2 * flushSize) flushSize = 500000
    ∧ allIds 5 2500000 (ceilDiv 2500000 flushSize) = List.range' 5 2500000 :=
  ⟨by decide, by decide, by decide,
    (flush_buckets_partition 5 2500000 (by decide) (by decide)).1,
    ((flush_buckets_partition 5 2500000 (by decide) (by decide)).2.2.1 2 (by decide)).1,
    by decide, by decide,
    (flush_buckets_partition 5 2500000 (by decide) (by decide)).2.2.2.1⟩

/-- Counterexample to claim C16 as stated, at two ranges.  For
`dbSize = 2147483647 * 1000000 + 1` the bucket count `ceil(dbSize / 1000000)` is
`2^31`, which the `int` of the conversion on line 172 cannot hold: it has no
value and no bucket is defined.  For `dbFrom = 2^64 - 1` and `dbSize = 2` the one
bucket starts at `2^64 - 1` with size 2, the loop bound `start + bucketSize`
wraps to 1, and the bucket holds no ordinal, so the ordinal `2^64 - 1` of the
range is not processed. -/
theorem flush_buckets_outside_machine_range :
    ceilDiv (INT_MAX * flushSize + 1) flushSize = 2 ^ 31
    ∧ iterations (INT_MAX * flushSize + 1) = none
    ∧ run (exampleAlignment false .SCORE_COV_SEQID false) scenarioA_env 0
        (INT_MAX * flushSize + 1) 10 10 = some (.error .intConversion)
    ∧ iterations 2 = some 1
    ∧ bucketStart (2 ^ 64 - 1) 0 = 2 ^ 64 - 1
    ∧ bucketSize 2 0 = 2
    ∧ (bucketStart (2 ^ 64 - 1) 0 + bucketSize 2 0) % 2 ^ 64 = 1
    ∧ bucketIds (2 ^ 64 - 1) 2 0 = []
    ∧ allIds (2 ^ 64 - 1) 2 1 = []
    ∧ 2 ^ 64 - 1 ∉ allIds (2 ^ 64 - 1) 2 1 :=
  ⟨by decide, by decide, by decide, by decide, by decide, by decide, by decide, by decide,
    by decide, by decide⟩

/-! ### The closing statistics -/

/-- The division-by-zero fault of `run` arises only from the range size 0: the
other exits are the integer conversion and the fatal exits of the loop. -/
theorem run_divisionByZero_dbSize (a : Alignment) (env : Env)
    (dbFrom dbSize maxAlnNum maxRejected : Nat)
    (h : run a env dbFrom dbSize maxAlnNum maxRejected = some (.error .divisionByZero)) :
    dbSize = 0 := by
  unfold run at h
  cases hit : iterations dbSize with
  | none => rw [hit] at h; simp at h
  | some n =>
    rw [hit] at h
    simp only at h
    split at h
    · simp at h
    · simp at h
    · split_ifs at h with h0
      · exact h0
      · simp at h

/-- Claim C20: the closing statistics of `run` compute `totalPassedNum / dbSize`
and `totalPassedNum % dbSize` with the range size itself as divisor and no
guard.  For the range size 0 (an empty prefilter database handed on by the
two-argument `run`, or an empty sub-range) no bucket is processed, no fatal
exit can happen, and the run arrives at the division with divisor 0: the model
returns the division-by-zero fault for every aligner, environment, range start
and limits.  For every non-zero range size the divisor is non-zero and that
fault never arises. -/
theorem closing_statistics_divide_by_zero (a : Alignment) (env : Env)
    (dbFrom maxAlnNum maxRejected : Nat) :
    iterations 0 = some 0
    ∧ allIds dbFrom 0 0 = []
    ∧ run a env dbFrom 0 maxAlnNum maxRejected = some (.error .divisionByZero)
    ∧ runWhole a env 0 maxAlnNum maxRejected = some (.error .divisionByZero)
    ∧ (∀ dbSize, dbSize ≠ 0 →
        run a env dbFrom dbSize maxAlnNum maxRejected ≠ some (.error .divisionByZero)) := by
  refine ⟨rfl, rfl, rfl, rfl, ?_⟩
  intro dbSize h0 h
  exact h0 (run_divisionByZero_dbSize a env dbFrom dbSize maxAlnNum maxRejected h)

/-! ### The counters -/

/-- The counters of the candidate loop stay ordered: every accepted hit was
aligned and every aligned candidate was fetched. -/
theorem queryLoop_counters (a : Alignment) (env : Env) (maxAlnNum maxRejected id : Nat)
    (st : LoopState) (h : queryLoop a env maxAlnNum maxRejected id = some (.ok st)) :
    st.swResults.length = st.passedNum
    ∧ st.passedNum ≤ st.alignmentsNum
    ∧ st.aligned.length = st.alignmentsNum
    ∧ st.alignmentsNum ≤ st.fetched.length := by
  obtain ⟨qL, _, hrun⟩ := queryLoop_ok a env maxAlnNum maxRejected id st h
  refine runLoop_invariant
    (fun s => s.swResults.length = s.passedNum ∧ s.passedNum ≤ s.alignmentsNum
      ∧ s.aligned.length = s.alignmentsNum ∧ s.alignmentsNum ≤ s.fetched.length)
    a env (env.prefDbKey id) qL maxAlnNum maxRejected ?_ _ _ LoopState.init st
    ⟨rfl, Nat.le_refl _, rfl, Nat.le_refl _⟩ hrun
  intro s dbKey s1 hs _ _ hc
  obtain ⟨h1, h2, h3, h4⟩ := hs
  obtain ⟨dbL, _, hcase | hcase | hcase⟩ :=
    runCandidate_ok_cases a env (env.prefDbKey id) qL s dbKey s1 hc
  · rw [hcase.2.2]
    simp only [LoopState.screenOut, List.length_append, List.length_singleton]
    omega
  · rw [hcase.2.2]
    simp only [LoopState.accept, List.length_append, List.length_singleton]
    omega
  · rw [hcase.2.2]
    simp only [LoopState.reject, List.length_append, List.length_singleton]
    omega

/-- The candidates a query consumed are at most the candidates of its
prefilter list. -/
theorem queryLoop_fetched_le (a : Alignment) (env : Env) (maxAlnNum maxRejected id : Nat)
    (st : LoopState) (h : queryLoop a env maxAlnNum maxRejected id = some (.ok st)) :
    st.fetched.length ≤ (candidateKeys (env.prefData id)).length := by
  rw [queryLoop_eq_runKeys] at h
  cases hq : env.querySeqL (env.prefDbKey id) with
  | none => rw [hq] at h; simp at h
  | some qL =>
    rw [hq] at h
    simp only [Option.some.injEq] at h
    obtain ⟨n, hn⟩ := runKeys_fetched_initial a env (env.prefDbKey id) qL maxAlnNum maxRejected
      (candidateKeys (env.prefData id)) LoopState.init st h
    rw [hn]
    simp only [LoopState.init, List.nil_append, List.length_take]
    exact Nat.min_le_right _ _

/-- The two reduction counters stay ordered over the queries of a run. -/
theorem runIds_counters (a : Alignment) (env : Env) (maxAlnNum maxRejected : Nat)
    (ids : List Nat) :
    ∀ rs rs2 : RunState, rs.totalPassedNum ≤ rs.alignmentsNum →
      runIds a env maxAlnNum maxRejected rs ids = some (.ok rs2) →
      rs2.totalPassedNum ≤ rs2.alignmentsNum := by
  induction ids with
  | nil =>
    intro rs rs2 hle h
    simp only [runIds, Option.some.injEq, Except.ok.injEq] at h
    exact h ▸ hle
  | cons id rest ih =>
    intro rs rs2 hle h
    simp only [runIds] at h
    cases hr : runId a env maxAlnNum maxRejected rs id with
    | none => rw [hr] at h; cases h
    | some r =>
      rw [hr] at h
      cases r with
      | error e => simp at h
      | ok rs1 =>
        simp only at h
        obtain ⟨st, hq, hrs1⟩ := runId_ok a env maxAlnNum maxRejected rs rs1 id hr
        have hc := (queryLoop_counters a env maxAlnNum maxRejected id st hq).2.1
        refine ih rs1 rs2 ?_ h
        rw [hrs1]
        simp only
        omega

/-- Claim C19: for every query whose loop completes, the number of accepted
hits is at most the number of aligner invocations, which is at most the number
of candidates consumed, which is at most the number of candidates in the
prefilter record; the record has one line per accepted hit.  Over a run the
sum `totalPassedNum` of the accepted hits is at most the sum `alignmentsNum` of
the aligner invocations, after every prefix of the queries and at the closing
statistics. -/
theorem counters_ordered (a : Alignment) (env : Env) (maxAlnNum maxRejected : Nat) :
    (∀ id st, queryLoop a env maxAlnNum maxRejected id = some (.ok st) →
        st.passedNum ≤ st.alignmentsNum
        ∧ st.alignmentsNum = st.aligned.length
        ∧ st.aligned.length ≤ st.fetched.length
        ∧ st.fetched.length ≤ (candidateKeys (env.prefData id)).length
        ∧ st.swResults.length = st.passedNum
        ∧ ((listSort compareHits st.swResults).map (serializeHit a env)).length = st.passedNum
        ∧ serialize a env st.swResults
            = ((listSort compareHits st.swResults).map (serializeHit a env)).flatten)
    ∧ (∀ ids rs, runIds a env maxAlnNum maxRejected
          { dbw := [], alignmentsNum := 0, totalPassedNum := 0 } ids = some (.ok rs) →
        rs.totalPassedNum ≤ rs.alignmentsNum)
    ∧ (∀ dbFrom dbSize summary,
        run a env dbFrom dbSize maxAlnNum maxRejected = some (.ok summary) →
        summary.rs.totalPassedNum ≤ summary.rs.alignmentsNum) := by
  refine ⟨?_, ?_, ?_⟩
  · intro id st h
    obtain ⟨h1, h2, h3, h4⟩ := queryLoop_counters a env maxAlnNum maxRejected id st h
    refine ⟨h2, h3.symm, h3 ▸ h4, queryLoop_fetched_le a env maxAlnNum maxRejected id st h,
      h1, ?_, rfl⟩
    rw [List.length_map, listSort_length, h1]
  · intro ids rs h
    exact runIds_counters a env maxAlnNum maxRejected ids _ rs (Nat.le_refl _) h
  · intro dbFrom dbSize summary h
    obtain ⟨n, _, hr, _⟩ := run_ok a env dbFrom dbSize maxAlnNum maxRejected summary h
    exact runIds_counters a env maxAlnNum maxRejected _ _ summary.rs (Nat.le_refl _) hr

/-- In `countersEnv` with `maxAlnNum = 1` the four numbers are 1, 2, 3 and 4, one
line is written, and the run over this one query ends with `totalPassedNum = 1`
and `alignmentsNum = 2`. -/
theorem counters_of_four_candidates :
    queryLoop (exampleAlignment false .SCORE_COV_SEQID false) countersEnv 1 10 0
      = some (.ok countersFinal)
    ∧ (candidateKeys (countersEnv.prefData 0)).length = 4
    ∧ (countersFinal.passedNum ≤ countersFinal.alignmentsNum
        ∧ countersFinal.alignmentsNum = countersFinal.aligned.length
        ∧ countersFinal.aligned.length ≤ countersFinal.fetched.length
        ∧ countersFinal.fetched.length ≤ (candidateKeys (countersEnv.prefData 0)).length
        ∧ countersFinal.swResults.length = countersFinal.passedNum
        ∧ ((listSort compareHits countersFinal.swResults).map
            (serializeHit (exampleAlignment false .SCORE_COV_SEQID false) countersEnv)).length
            = countersFinal.passedNum
        ∧ serialize (exampleAlignment false .SCORE_COV_SEQID false) countersEnv
            countersFinal.swResults
            = ((listSort compareHits countersFinal.swResults).map
                (serializeHit (exampleAlignment false .SCORE_COV_SEQID false)
                  countersEnv)).flatten)
    ∧ (run (exampleAlignment false .SCORE_COV_SEQID false) countersEnv 0 1 1 10).map
        (fun r => r.map (fun s => (s.rs.totalPassedNum, s.rs.alignmentsNum)))
        = some (.ok (1, 2)) :=
  ⟨by decide!, by decide!,
    (counters_ordered (exampleAlignment false .SCORE_COV_SEQID false) countersEnv 1 10).1 0
      countersFinal (by decide!),
    by decide!⟩

/-! ### The emitted target key -/

theorem overrideIdentity_dbKey (isId : Bool) (res : result_t) :
    (overrideIdentity isId res).dbKey = res.dbKey := by
  cases isId <;> rfl

theorem mem_listSort (comp : result_t → result_t → Bool) (l : List result_t) (r : result_t) :
    r ∈ listSort comp l ↔ r ∈ l :=
  (List.perm_insertionSort _ l).mem_iff

/-- Every accepted hit is the result of an aligner call for a fetched
candidate, after the identity override. -/
theorem queryLoop_hits_from_fetched (a : Alignment) (env : Env)
    (maxAlnNum maxRejected id : Nat) (st : LoopState)
    (h : queryLoop a env maxAlnNum maxRejected id = some (.ok st)) :
    ∀ r, r ∈ st.swResults → ∃ k nth, k ∈ st.fetched
      ∧ r = overrideIdentity (isIdentity a (env.prefDbKey id) k)
          (env.getSWResult (env.prefDbKey id) nth k a.evalThr a.mode) := by
  obtain ⟨qL, _, hrun⟩ := queryLoop_ok a env maxAlnNum maxRejected id st h
  refine runLoop_invariant
    (fun s => ∀ r, r ∈ s.swResults → ∃ k nth, k ∈ s.fetched
      ∧ r = overrideIdentity (isIdentity a (env.prefDbKey id) k)
          (env.getSWResult (env.prefDbKey id) nth k a.evalThr a.mode))
    a env (env.prefDbKey id) qL maxAlnNum maxRejected ?_ _ _ LoopState.init st ?_ hrun
  · intro s dbKey s1 hs _ _ hc
    obtain ⟨dbL, _, hcase | hcase | hcase⟩ :=
      runCandidate_ok_cases a env (env.prefDbKey id) qL s dbKey s1 hc
    · rw [hcase.2.2]
      intro r hr
      obtain ⟨k, nth, hk, hres⟩ := hs r hr
      exact ⟨k, nth, List.mem_append_left _ hk, hres⟩
    · rw [hcase.2.2]
      intro r hr
      simp only [LoopState.accept, List.mem_append, List.mem_singleton] at hr ⊢
      rcases hr with hr | hr
      · obtain ⟨k, nth, hk, hres⟩ := hs r hr
        exact ⟨k, nth, Or.inl hk, hres⟩
      · exact ⟨dbKey, s.alignmentsNum, Or.inr rfl, hr⟩
    · rw [hcase.2.2]
      intro r hr
      obtain ⟨k, nth, hk, hres⟩ := hs r hr
      exact ⟨k, nth, List.mem_append_left _ hk, hres⟩
  · intro r hr
    simp [LoopState.init] at hr

/-- The candidates a query fetched are candidates of its prefilter list. -/
theorem queryLoop_fetched_subset (a : Alignment) (env : Env) (maxAlnNum maxRejected id : Nat)
    (st : LoopState) (h : queryLoop a env maxAlnNum maxRejected id = some (.ok st)) :
    ∀ k, k ∈ st.fetched → k ∈ candidateKeys (env.prefData id) := by
  rw [queryLoop_eq_runKeys] at h
  cases hq : env.querySeqL (env.prefDbKey id) with
  | none => rw [hq] at h; simp at h
  | some qL =>
    rw [hq] at h
    simp only [Option.some.injEq] at h
    obtain ⟨n, hn⟩ := runKeys_fetched_initial a env (env.prefDbKey id) qL maxAlnNum maxRejected
      (candidateKeys (env.prefData id)) LoopState.init st h
    intro k hk
    rw [hn] at hk
    simp only [LoopState.init, List.nil_append] at hk
    exact List.mem_of_mem_take hk

theorem serializeHit_starts_with_dbKey (a : Alignment) (env : Env) (it : result_t) :
    ∃ rest, serializeHit a env it = showNat it.dbKey ++ '\t' :: rest := by
  unfold serializeHit
  simp only [List.append_assoc, List.singleton_append]
  exact ⟨_, rfl⟩

/-- Claim C14: the record of a query is the concatenation of the lines of its
sorted hits; every such line starts with the decimal `dbKey` of its hit and a
tab, and the hit is the result the aligner returned for a candidate key parsed
from the query's prefilter record, after the identity override, which leaves
`dbKey` as the aligner returned it.  With an aligner that returns the key of
the target it was called for, the emitted key is that candidate key. -/
theorem emitted_key_is_candidate_key (a : Alignment) (env : Env)
    (maxAlnNum maxRejected id : Nat) (st : LoopState)
    (h : queryLoop a env maxAlnNum maxRejected id = some (.ok st)) :
    serialize a env st.swResults
        = ((listSort compareHits st.swResults).map (serializeHit a env)).flatten
    ∧ ∀ r, r ∈ listSort compareHits st.swResults →
        (∃ rest, serializeHit a env r = showNat r.dbKey ++ '\t' :: rest)
        ∧ ∃ k nth, k ∈ candidateKeys (env.prefData id)
            ∧ r = overrideIdentity (isIdentity a (env.prefDbKey id) k)
                (env.getSWResult (env.prefDbKey id) nth k a.evalThr a.mode)
            ∧ r.dbKey = (env.getSWResult (env.prefDbKey id) nth k a.evalThr a.mode).dbKey
            ∧ (alignerKeepsKey env → r.dbKey = k) := by
  refine ⟨rfl, ?_⟩
  intro r hr
  refine ⟨serializeHit_starts_with_dbKey a env r, ?_⟩
  obtain ⟨k, nth, hk, hres⟩ :=
    queryLoop_hits_from_fetched a env maxAlnNum maxRejected id st h r
      ((mem_listSort compareHits st.swResults r).1 hr)
  refine ⟨k, nth, queryLoop_fetched_subset a env maxAlnNum maxRejected id st h k hk, hres, ?_, ?_⟩
  · rw [hres, overrideIdentity_dbKey]
  · intro hkeep
    rw [hres, overrideIdentity_dbKey]
    exact hkeep _ _ _ _ _

/-- In `twoHitsEnv` the record has the two lines of the candidates 2 and 5; the
line of the hit for candidate 5 starts with `5` and a tab, and 5 is a key of
the prefilter list. -/
theorem emitted_keys_of_two_candidates :
    queryLoop (exampleAlignment false .SCORE_COV_SEQID false) twoHitsEnv 10 10 0
      = some (.ok twoHitsFinal)
    ∧ alignerKeepsKey twoHitsEnv
    ∧ candidateKeys (twoHitsEnv.prefData 0) = [5, 2]
    ∧ listSort compareHits twoHitsFinal.swResults = [goodRes 2, goodRes 5]
    ∧ serializeHit (exampleAlignment false .SCORE_COV_SEQID false) twoHitsEnv (goodRes 5)
        = ['5', '\t', '1', '0', '0', '\t', '0', '.', '5', '0', '0', '\t', 'e', '\t', '0', '\t',
           '0', '\t', '0', '\t', '0', '\t', '0', '\t', '0', '\n']
    ∧ ((∃ rest, serializeHit (exampleAlignment false .SCORE_COV_SEQID false) twoHitsEnv (goodRes 5)
          = showNat (goodRes 5).dbKey ++ '\t' :: rest)
      ∧ ∃ k nth, k ∈ candidateKeys (twoHitsEnv.prefData 0)
          ∧ goodRes 5 = overrideIdentity
              (isIdentity (exampleAlignment false .SCORE_COV_SEQID false)
                (twoHitsEnv.prefDbKey 0) k)
              (twoHitsEnv.getSWResult (twoHitsEnv.prefDbKey 0) nth k
                (exampleAlignment false .SCORE_COV_SEQID false).evalThr
                (exampleAlignment false .SCORE_COV_SEQID false).mode)
          ∧ (goodRes 5).dbKey
              = (twoHitsEnv.getSWResult (twoHitsEnv.prefDbKey 0) nth k
                  (exampleAlignment false .SCORE_COV_SEQID false).evalThr
                  (exampleAlignment false .SCORE_COV_SEQID false).mode).dbKey
          ∧ (alignerKeepsKey twoHitsEnv → (goodRes 5).dbKey = k)) :=
  ⟨by decide!, fun _ _ _ _ _ => rfl, by decide!, by decide!, by decide!,
    (emitted_key_is_candidate_key (exampleAlignment false .SCORE_COV_SEQID false) twoHitsEnv
      10 10 0 twoHitsFinal (by decide!)).2 (goodRes 5) (by decide!)⟩

/-! ### The format of a record -/

theorem serializeHit_eq_specLine (a : Alignment) (env : Env) (it : result_t) :
    serializeHit a env it = specLine (specFields a env it) := by
  unfold serializeHit specLine specLineBody specFields
  by_cases hb : a.addBacktrace = true
  · simp [hb, List.intercalate]
  · simp [hb, List.intercalate]

theorem specFields_length (a : Alignment) (env : Env) (it : result_t) :
    (specFields a env it).length = if a.addBacktrace = true then 11 else 10 := by
  unfold specFields
  by_cases hb : a.addBacktrace = true <;> simp [hb]

theorem mem_intercalate (sep : List Char) (c : Char) :
    ∀ ls : List (List Char), c ∈ sep.intercalate ls → c ∈ sep ∨ ∃ l, l ∈ ls ∧ c ∈ l := by
  intro ls
  induction ls with
  | nil => intro h; simp [List.intercalate] at h
  | cons l rest ih =>
    cases rest with
    | nil =>
      intro h
      simp only [List.intercalate, List.intersperse_single, List.flatten_cons, List.flatten_nil,
        List.append_nil] at h
      exact Or.inr ⟨l, List.mem_cons_self _ _, h⟩
    | cons l2 rest2 =>
      intro h
      simp only [List.intercalate, List.intersperse_cons₂, List.flatten_cons,
        List.mem_append] at h
      rcases h with h | h | h
      · exact Or.inr ⟨l, List.mem_cons_self _ _, h⟩
      · exact Or.inl h
      · have h2 : c ∈ sep.intercalate (l2 :: rest2) := by
          simp only [List.intercalate]
          exact h
        rcases ih h2 with h3 | ⟨l3, hl3, hc⟩
        · exact Or.inl h3
        · exact Or.inr ⟨l3, List.mem_cons_of_mem _ hl3, hc⟩

theorem newline_not_mem_specLineBody (fields : List (List Char)) (h : fieldsClean fields) :
    '\n' ∉ specLineBody fields := by
  intro hmem
  rcases mem_intercalate ['\t'] '\n' fields hmem with h1 | ⟨l, hl, hc⟩
  · simp at h1
  · exact (h l hl).2 hc

/-- Lines that each end in their only newline are the newline-separated pieces
of their concatenation, followed by the empty piece after the last newline. -/
theorem flatten_lines_eq_intercalate (bodies : List (List Char)) :
    (bodies.map (fun b => b ++ ['\n'])).flatten = ['\n'].intercalate (bodies ++ [[]]) := by
  induction bodies with
  | nil => rfl
  | cons b rest ih =>
    simp only [List.map_cons, List.flatten_cons, ih]
    cases rest with
    | nil => simp [List.intercalate]
    | cons b2 rest2 => simp [List.intercalate]

theorem splitOn_lines (bodies : List (List Char)) (h : ∀ b, b ∈ bodies → '\n' ∉ b) :
    ((bodies.map (fun b => b ++ ['\n'])).flatten).splitOn '\n' = bodies ++ [[]] := by
  rw [flatten_lines_eq_intercalate]
  apply List.splitOn_intercalate
  · intro l hl
    simp only [List.mem_append, List.mem_singleton] at hl
    rcases hl with hl | hl
    · exact h l hl
    · rw [hl]
      simp
  · simp

/-- Claim C13: the record of a query is the concatenation of one line per
accepted hit, in the sorted order of the hits; each line is the fields
`targetKey`, `score`, `seqId`, `eval`, `qStart`, `qEnd`, `qLen`, `dbStart`,
`dbEnd`, `dbLen` in that order, then the backtrace field exactly when
backtrace output is enabled (10 fields without, 11 with), separated by tabs and
terminated by a newline.  When no formatted field contains a tab or a newline,
cutting the record at its newlines gives back exactly these lines, and cutting
a line at its tabs gives back exactly these fields. -/
theorem record_is_lines_of_fields (a : Alignment) (env : Env)
    (maxAlnNum maxRejected id : Nat) (st : LoopState)
    (h : queryLoop a env maxAlnNum maxRejected id = some (.ok st))
    (hclean : ∀ r, r ∈ st.swResults → fieldsClean (specFields a env r)) :
    serialize a env st.swResults
        = ((listSort compareHits st.swResults).map
            (fun r => specLine (specFields a env r))).flatten
    ∧ (listSort compareHits st.swResults).length = st.passedNum
    ∧ (listSort compareHits st.swResults).Perm st.swResults
    ∧ List.Pairwise specOrder (listSort compareHits st.swResults)
    ∧ (∀ r, (specFields a env r).length = if a.addBacktrace = true then 11 else 10)
    ∧ (∀ r, (a.addBacktrace = true ↔
          specFields a env r ≠ (specFields a env r).take 10)
        ∧ (specFields a env r).take 10
            = [showNat r.dbKey, showInt r.score, fixed3 r.seqId, env.scientific r.eval,
                showNat r.qStartPos, showNat r.qEndPos, showNat r.qLen,
                showNat r.dbStartPos, showNat r.dbEndPos, showNat r.dbLen]
        ∧ (a.addBacktrace = true →
            (specFields a env r).drop 10 = [env.compressAlignment r.backtrace]))
    ∧ (serialize a env st.swResults).splitOn '\n'
        = (listSort compareHits st.swResults).map (fun r => specLineBody (specFields a env r))
          ++ [[]]
    ∧ (∀ r, r ∈ listSort compareHits st.swResults →
        (specLineBody (specFields a env r)).splitOn '\t' = specFields a env r) := by
  have hlen : st.swResults.length = st.passedNum :=
    (queryLoop_counters a env maxAlnNum maxRejected id st h).1
  have hser : serialize a env st.swResults
      = ((listSort compareHits st.swResults).map
          (fun r => specLine (specFields a env r))).flatten := by
    unfold serialize
    rw [show serializeHit a env = (fun r => specLine (specFields a env r)) from
      funext (serializeHit_eq_specLine a env)]
  refine ⟨hser, ?_, ?_, ?_, ?_, ?_, ?_, ?_⟩
  · rw [listSort_length, hlen]
  · exact List.perm_insertionSort _ _
  · exact listSort_sorted _
  · exact specFields_length a env
  · intro r
    unfold specFields
    by_cases hb : a.addBacktrace = true <;> simp [hb]
  · rw [hser]
    have hmap : (listSort compareHits st.swResults).map (fun r => specLine (specFields a env r))
        = ((listSort compareHits st.swResults).map
            (fun r => specLineBody (specFields a env r))).map (fun b => b ++ ['\n']) := by
      rw [List.map_map]
      rfl
    rw [hmap]
    apply splitOn_lines
    intro b hb
    obtain ⟨r, hr, hrb⟩ := List.mem_map.1 hb
    rw [← hrb]
    exact newline_not_mem_specLineBody _
      (hclean r ((mem_listSort compareHits st.swResults r).1 hr))
  · intro r hr
    unfold specLineBody
    apply List.splitOn_intercalate
    · intro l hl
      exact (hclean r ((mem_listSort compareHits st.swResults r).1 hr) l hl).1
    · intro hnil
      have := specFields_length a env r
      rw [hnil] at this
      split_ifs at this <;> simp at this

/-- In `twoHitsEnv` the record is the two lines of ten fields for the
candidates 2 and 5; with backtrace output enabled a line has eleven fields. -/
theorem record_of_two_candidates :
    queryLoop (exampleAlignment false .SCORE_COV_SEQID false) twoHitsEnv 10 10 0
      = some (.ok twoHitsFinal)
    ∧ (∀ r, r ∈ twoHitsFinal.swResults →
        fieldsClean (specFields (exampleAlignment false .SCORE_COV_SEQID false) twoHitsEnv r))
    ∧ serialize (exampleAlignment false .SCORE_COV_SEQID false) twoHitsEnv twoHitsFinal.swResults
        = ['2', '\t', '1', '0', '0', '\t', '0', '.', '5', '0', '0', '\t', 'e', '\t', '0', '\t',
           '0', '\t', '0', '\t', '0', '\t', '0', '\t', '0', '\n',
           '5', '\t', '1', '0', '0', '\t', '0', '.', '5', '0', '0', '\t', 'e', '\t', '0', '\t',
           '0', '\t', '0', '\t', '0', '\t', '0', '\t', '0', '\n']
    ∧ (serialize (exampleAlignment false .SCORE_COV_SEQID false) twoHitsEnv
          twoHitsFinal.swResults).splitOn '\n'
        = (listSort compareHits twoHitsFinal.swResults).map
            (fun r => specLineBody
              (specFields (exampleAlignment false .SCORE_COV_SEQID false) twoHitsEnv r))
          ++ [[]]
    ∧ specFields (exampleAlignment false .SCORE_COV_SEQID false) twoHitsEnv (goodRes 2)
        = [['2'], ['1', '0', '0'], ['0', '.', '5', '0', '0'], ['e'], ['0'], ['0'], ['0'], ['0'],
           ['0'], ['0']]
    ∧ specFields backtraceAlignment twoHitsEnv { goodRes 2 with backtrace := ['M', 'M', 'I'] }
        = [['2'], ['1', '0', '0'], ['0', '.', '5', '0', '0'], ['e'], ['0'], ['0'], ['0'], ['0'],
           ['0'], ['0'], ['M', 'M', 'I']]
    ∧ serializeHit backtraceAlignment twoHitsEnv { goodRes 2 with backtrace := ['M', 'M', 'I'] }
        = ['2', '\t', '1', '0', '0', '\t', '0', '.', '5', '0', '0', '\t', 'e', '\t', '0', '\t',
           '0', '\t', '0', '\t', '0', '\t', '0', '\t', '0', '\t', 'M', 'M', 'I', '\n'] :=
  ⟨by decide!, by decide!, by decide!,
    (record_is_lines_of_fields (exampleAlignment false .SCORE_COV_SEQID false) twoHitsEnv
      10 10 0 twoHitsFinal (by decide!) (by decide!)).2.2.2.2.2.2.1,
    by decide!, by decide!, by decide!⟩

end MMseqs
